import Mathlib

/-!
# AES block cipher of `aes.c`: shallow embedding and verification

The C program works on `uint8_t` and `uint32_t` values.  They are embedded as
natural numbers; every operation that can leave the 32-bit (or 8-bit) range in C
is followed by an explicit reduction (`u32`, `u8`).  Byte buffers are lists of
naturals, the round-key array `ks` is a map from indices to words, the two global
tables `aes_sbox` / `aes_isbox` are lists of 256 entries that are threaded through
the functions that read or write them.

A byte buffer that the C code accesses through a `uint32_t *` cast is read and
written in little-endian order (the host byte order the source was written for).
-/

namespace AesC

/-! ## Machine words -/

/-- Truncation of a value to `uint32_t`. -/
def u32 (x : Nat) : Nat := x % 2 ^ 32

/-- Truncation of a value to `uint8_t`. -/
def u8 (x : Nat) : Nat := x % 2 ^ 8

/-- Read of `((uint32_t *)p)[i]` from a byte buffer on a little-endian host. -/
def load32 (p : List Nat) (i : Nat) : Nat :=
  p.getD (4 * i) 0 ||| (p.getD (4 * i + 1) 0 <<< 8) |||
    (p.getD (4 * i + 2) 0 <<< 16) ||| (p.getD (4 * i + 3) 0 <<< 24)

/-- Bytes written by a store of a `uint32_t` on a little-endian host. -/
def store32 (w : Nat) : List Nat :=
  [w &&& 0xff, (w >>> 8) &&& 0xff, (w >>> 16) &&& 0xff, (w >>> 24) &&& 0xff]

/-- The `htonl` macro of `aes.c` (an unconditional byte swap); `ntohl` is the same macro. -/
def htonl (A : Nat) : Nat :=
  ((u32 A &&& 0xff000000) >>> 24) ||| ((u32 A &&& 0x00ff0000) >>> 8) |||
    u32 ((u32 A &&& 0x0000ff00) <<< 8) ||| u32 ((u32 A &&& 0x000000ff) <<< 24)

/-- The `ntohl` macro: `#define ntohl htonl`. -/
def ntohl (A : Nat) : Nat := htonl A

/-- Macro `rot1(x) = (x << 24) | (x >> 8)` on `uint32_t`. -/
def rot1 (x : Nat) : Nat := u32 (x <<< 24) ||| (x >>> 8)

/-- Macro `rot2(x) = (x << 16) | (x >> 16)` on `uint32_t`. -/
def rot2 (x : Nat) : Nat := u32 (x <<< 16) ||| (x >>> 16)

/-- Macro `rot3(x) = (x << 8) | (x >> 24)` on `uint32_t`. -/
def rot3 (x : Nat) : Nat := u32 (x <<< 8) ||| (x >>> 24)

/-- Constant `mt`. -/
def mt : Nat := 0x80808080

/-- Constant `mh`. -/
def mh : Nat := 0xfefefefe

/-- Constant `mm`. -/
def mm : Nat := 0x1b1b1b1b

/-- Macro `mul2(x,t)`: `t = x & mt`, value `((x+x) & mh) ^ ((t - (t>>7)) & mm)`. -/
def mul2 (x : Nat) : Nat :=
  let t := x &&& mt
  (u32 (x + x) &&& mh) ^^^ (u32 (t - (t >>> 7)) &&& mm)

/-- Macro `inv_mix_col(x,f2,f4,f8,f9)`, the comma expression evaluated left to right. -/
def inv_mix_col (x : Nat) : Nat :=
  let f2 := mul2 x
  let f4 := mul2 f2
  let f8 := mul2 f4
  let f9 := x ^^^ f8
  let f8 := f2 ^^^ f4 ^^^ f8
  let f2 := f2 ^^^ f9
  let f4 := f4 ^^^ f9
  let f8 := f8 ^^^ rot3 f2
  let f8 := f8 ^^^ rot2 f4
  f8 ^^^ rot1 f9

/-- Function `AES_xtime`: `(x&0x80) ? (x<<1)^0x1b : x<<1`, returned as `uint8_t`. -/
def AES_xtime (x : Nat) : Nat :=
  u8 (if x &&& 0x80 ≠ 0 then u32 (x <<< 1) ^^^ 0x1b else u32 (x <<< 1))

/-! ## Global data -/

/-- The round constant table `Rcon`. -/
def Rcon : List Nat :=
  [0x01, 0x02, 0x04, 0x08, 0x10, 0x20, 0x40, 0x80, 0x1b, 0x36, 0x6c, 0xd8]

/-- The two global tables `aes_sbox` and `aes_isbox` (256 entries each). -/
structure Tables where
  aes_sbox : List Nat
  aes_isbox : List Nat
deriving DecidableEq

/-- Value of enumerator `AES_MODE_128`. -/
def AES_MODE_128 : Nat := 0

/-- Value of enumerator `AES_MODE_256`. -/
def AES_MODE_256 : Nat := 1

/-- The key context `AES_CTX`; `ks` maps an index of the 120-word array to its content. -/
structure AES_CTX where
  rounds : Nat
  key_size : Nat
  ks : Nat → Nat

/-- Assignment `a[i] = v` on an array given as a map. -/
def upd (a : Nat → Nat) (i v : Nat) : Nat → Nat := fun j => if j = i then v else a j

/-! ## S-box generation -/

/-- First loop of `AES_generateSBox`: the values `t[i]`, `t[i+1]`, ... stored from the
current `x` on, for `n` iterations. -/
def genT : Nat → Nat → List Nat
  | 0, _ => []
  | n + 1, x => x :: genT n (x ^^^ (u32 (x <<< 1) ^^^ u32 ((x >>> 7) * 0x11B)))

/-- Second loop of `AES_generateSBox`, `n` iterations from index `i`. -/
def sboxLoop (t : List Nat) : Nat → Nat → List Nat → List Nat
  | 0, _, s => s
  | n + 1, i, s =>
    let x := t.getD (255 - i) 0
    let x := x ||| u32 (x <<< 8)
    let x := x ^^^ ((x >>> 4) ^^^ (x >>> 5) ^^^ (x >>> 6) ^^^ (x >>> 7))
    sboxLoop t n (i + 1) (s.set (t.getD i 0) ((x ^^^ 0x63) &&& 0xFF))

/-- Third loop of `AES_generateSBox`, `n` iterations from index `i`. -/
def isboxLoop (sbox : List Nat) : Nat → Nat → List Nat → List Nat
  | 0, _, s => s
  | n + 1, i, s => isboxLoop sbox n (i + 1) (s.set (sbox.getD i 0) i)

/-- Function `AES_generateSBox`, from the prior content of the global tables. -/
def AES_generateSBox (g : Tables) : Tables :=
  let t := genT 256 1
  let sbox := sboxLoop t 255 0 (g.aes_sbox.set 0 0x63)
  { aes_sbox := sbox, aes_isbox := isboxLoop sbox 256 0 g.aes_isbox }

/-! ## Key schedule -/

/-- Function `AES_hncpy32` reading its source through a byte buffer at word offset `o`:
the four words `htonl(src[0..3])`. -/
def AES_hncpy32 (src : List Nat) (o : Nat) : List Nat :=
  [htonl (load32 src o), htonl (load32 src (o + 1)),
   htonl (load32 src (o + 2)), htonl (load32 src (o + 3))]

/-- Store of four words at `ks[o .. o+3]`. -/
def storeWords (ks : Nat → Nat) (o : Nat) (w : List Nat) : Nat → Nat :=
  upd (upd (upd (upd ks o (w.getD 0 0)) (o + 1) (w.getD 1 0)) (o + 2) (w.getD 2 0))
    (o + 3) (w.getD 3 0)

/-- Body of the expansion loop of `AES_set_key` for index `i`; `rtmp` is the offset of
the pointer `rtmp` into `Rcon`.  Returns the new `rtmp` and the new `ks`. -/
def setKeyStep (g : Tables) (words i rtmp : Nat) (ks : Nat → Nat) : Nat × (Nat → Nat) :=
  let tmp := ks (i - 1)
  let r1 : Nat × Nat :=
    if i % words = 0 then
      let tmp2 := u32 (g.aes_sbox.getD (tmp &&& 0xff) 0 <<< 8)
      let tmp2 := tmp2 ||| u32 (g.aes_sbox.getD ((tmp >>> 8) &&& 0xff) 0 <<< 16)
      let tmp2 := tmp2 ||| u32 (g.aes_sbox.getD ((tmp >>> 16) &&& 0xff) 0 <<< 24)
      let tmp2 := tmp2 ||| g.aes_sbox.getD (tmp >>> 24) 0
      (tmp2 ^^^ u32 (Rcon.getD rtmp 0 <<< 24), rtmp + 1)
    else (tmp, rtmp)
  let tmp := r1.1
  let tmp :=
    if words = 8 ∧ i % words = 4 then
      let tmp2 := g.aes_sbox.getD (tmp &&& 0xff) 0
      let tmp2 := tmp2 ||| u32 (g.aes_sbox.getD ((tmp >>> 8) &&& 0xff) 0 <<< 8)
      let tmp2 := tmp2 ||| u32 (g.aes_sbox.getD ((tmp >>> 16) &&& 0xff) 0 <<< 16)
      let tmp2 := tmp2 ||| u32 (g.aes_sbox.getD (tmp >>> 24) 0 <<< 24)
      tmp2
    else tmp
  (r1.2, upd ks i (ks (i - words) ^^^ tmp))

/-- The loop `for (i = words; i < 4 * (ctx->rounds+1); i++)` of `AES_set_key`:
`n` iterations starting at index `i`. -/
def setKeyLoop (g : Tables) (words : Nat) : Nat → Nat → Nat → (Nat → Nat) → (Nat → Nat)
  | 0, _, _, ks => ks
  | n + 1, i, rtmp, ks =>
    setKeyLoop g words n (i + 1) (setKeyStep g words i rtmp ks).1
      (setKeyStep g words i rtmp ks).2

/-- Function `AES_set_key`. -/
def AES_set_key (g : Tables) (ctx : AES_CTX) (key : List Nat) (mode : Nat) : AES_CTX :=
  if mode = AES_MODE_128 then
    let ks := storeWords ctx.ks 0 (AES_hncpy32 key 0)
    { rounds := 10, key_size := 4, ks := setKeyLoop g 4 (4 * (10 + 1) - 4) 4 0 ks }
  else if mode = AES_MODE_256 then
    let ks := storeWords ctx.ks 4 (AES_hncpy32 key 4)
    let ks := storeWords ks 0 (AES_hncpy32 key 0)
    { rounds := 14, key_size := 8, ks := setKeyLoop g 8 (4 * (14 + 1) - 8) 8 0 ks }
  else ctx

/-- The loop `for (i = ctx->rounds*4; i > 4; i--)` of `AES_convert_key`: `n` iterations,
`k` is the offset of the pointer `k` into `ks`. -/
def convertLoop : Nat → Nat → (Nat → Nat) → (Nat → Nat)
  | 0, _, ks => ks
  | n + 1, k, ks => convertLoop n (k + 1) (upd ks k (inv_mix_col (ks k)))

/-- Function `AES_convert_key`. -/
def AES_convert_key (ctx : AES_CTX) : AES_CTX :=
  { ctx with ks := convertLoop (ctx.rounds * 4 - 4) 4 ctx.ks }

/-! ## Block transforms -/

/-- The word `(a0 << 24) | (a1 << 16) | (a2 << 8) | a3` of `uint32_t` operands. -/
def pack (a0 a1 a2 a3 : Nat) : Nat :=
  u32 (a0 <<< 24) ||| u32 (a1 <<< 16) ||| u32 (a2 <<< 8) ||| a3

/-- Body of the row loop of `AES_encrypt`: the value stored in `tmp[row]`. -/
def encRow (g : Tables) (rounds curr_rnd : Nat) (data : List Nat) (row : Nat) : Nat :=
  let a0 := g.aes_sbox.getD ((data.getD (row % 4) 0 >>> 24) &&& 0xFF) 0
  let a1 := g.aes_sbox.getD ((data.getD ((row + 1) % 4) 0 >>> 16) &&& 0xFF) 0
  let a2 := g.aes_sbox.getD ((data.getD ((row + 2) % 4) 0 >>> 8) &&& 0xFF) 0
  let a3 := g.aes_sbox.getD (data.getD ((row + 3) % 4) 0 &&& 0xFF) 0
  if curr_rnd < rounds - 1 then
    let tmp1 := a0 ^^^ a1 ^^^ a2 ^^^ a3
    let old_a0 := a0
    let a0 := a0 ^^^ (tmp1 ^^^ AES_xtime (a0 ^^^ a1))
    let a1 := a1 ^^^ (tmp1 ^^^ AES_xtime (a1 ^^^ a2))
    let a2 := a2 ^^^ (tmp1 ^^^ AES_xtime (a2 ^^^ a3))
    let a3 := a3 ^^^ (tmp1 ^^^ AES_xtime (a3 ^^^ old_a0))
    pack a0 a1 a2 a3
  else pack a0 a1 a2 a3

/-- One iteration of the round loop of `AES_encrypt`; `k` is the offset of the pointer
`k` into `ks` on entry. -/
def encRound (g : Tables) (ctx : AES_CTX) (curr_rnd k : Nat) (data : List Nat) : List Nat :=
  let tmp := [encRow g ctx.rounds curr_rnd data 0, encRow g ctx.rounds curr_rnd data 1,
              encRow g ctx.rounds curr_rnd data 2, encRow g ctx.rounds curr_rnd data 3]
  [tmp.getD 0 0 ^^^ ctx.ks k, tmp.getD 1 0 ^^^ ctx.ks (k + 1),
   tmp.getD 2 0 ^^^ ctx.ks (k + 2), tmp.getD 3 0 ^^^ ctx.ks (k + 3)]

/-- The round loop of `AES_encrypt`: `n` iterations from round `curr_rnd`. -/
def encRounds (g : Tables) (ctx : AES_CTX) : Nat → Nat → Nat → List Nat → List Nat
  | 0, _, _, data => data
  | n + 1, curr_rnd, k, data =>
    encRounds g ctx n (curr_rnd + 1) (k + 4) (encRound g ctx curr_rnd k data)

/-- Function `AES_encrypt` on the four words of `data`. -/
def AES_encrypt (g : Tables) (ctx : AES_CTX) (data : List Nat) : List Nat :=
  let data := [data.getD 0 0 ^^^ ctx.ks 0, data.getD 1 0 ^^^ ctx.ks 1,
               data.getD 2 0 ^^^ ctx.ks 2, data.getD 3 0 ^^^ ctx.ks 3]
  encRounds g ctx ctx.rounds 0 4 data

/-- Body of the row loop of `AES_decrypt`: the value stored in `tmp[row-1]`. -/
def decRow (g : Tables) (rounds curr_rnd : Nat) (data : List Nat) (row : Nat) : Nat :=
  let a0 := g.aes_isbox.getD ((data.getD ((row + 3) % 4) 0 >>> 24) &&& 0xFF) 0
  let a1 := g.aes_isbox.getD ((data.getD ((row + 2) % 4) 0 >>> 16) &&& 0xFF) 0
  let a2 := g.aes_isbox.getD ((data.getD ((row + 1) % 4) 0 >>> 8) &&& 0xFF) 0
  let a3 := g.aes_isbox.getD (data.getD (row % 4) 0 &&& 0xFF) 0
  if curr_rnd < rounds - 1 then
    let xt0 := AES_xtime (a0 ^^^ a1)
    let xt1 := AES_xtime (a1 ^^^ a2)
    let xt2 := AES_xtime (a2 ^^^ a3)
    let xt3 := AES_xtime (a3 ^^^ a0)
    let xt4 := AES_xtime (xt0 ^^^ xt1)
    let xt5 := AES_xtime (xt1 ^^^ xt2)
    let xt6 := AES_xtime (xt4 ^^^ xt5)
    let xt0 := xt0 ^^^ (a1 ^^^ a2 ^^^ a3 ^^^ xt4 ^^^ xt6)
    let xt1 := xt1 ^^^ (a0 ^^^ a2 ^^^ a3 ^^^ xt5 ^^^ xt6)
    let xt2 := xt2 ^^^ (a0 ^^^ a1 ^^^ a3 ^^^ xt4 ^^^ xt6)
    let xt3 := xt3 ^^^ (a0 ^^^ a1 ^^^ a2 ^^^ xt5 ^^^ xt6)
    pack xt0 xt1 xt2 xt3
  else pack a0 a1 a2 a3

/-- One iteration of the round loop of `AES_decrypt`; `k` is the offset of the pointer
`k` into `ks` on entry (it is decremented before each read). -/
def decRound (g : Tables) (ctx : AES_CTX) (curr_rnd k : Nat) (data : List Nat) : List Nat :=
  let tmp := [decRow g ctx.rounds curr_rnd data 1, decRow g ctx.rounds curr_rnd data 2,
              decRow g ctx.rounds curr_rnd data 3, decRow g ctx.rounds curr_rnd data 4]
  [tmp.getD 0 0 ^^^ ctx.ks (k - 4), tmp.getD 1 0 ^^^ ctx.ks (k - 3),
   tmp.getD 2 0 ^^^ ctx.ks (k - 2), tmp.getD 3 0 ^^^ ctx.ks (k - 1)]

/-- The round loop of `AES_decrypt`: `n` iterations from round `curr_rnd`. -/
def decRounds (g : Tables) (ctx : AES_CTX) : Nat → Nat → Nat → List Nat → List Nat
  | 0, _, _, data => data
  | n + 1, curr_rnd, k, data =>
    decRounds g ctx n (curr_rnd + 1) (k - 4) (decRound g ctx curr_rnd k data)

/-- Function `AES_decrypt` on the four words of `data`. -/
def AES_decrypt (g : Tables) (ctx : AES_CTX) (data : List Nat) : List Nat :=
  let k := (ctx.rounds + 1) * 4
  let data := [data.getD 0 0 ^^^ ctx.ks (k - 4), data.getD 1 0 ^^^ ctx.ks (k - 3),
               data.getD 2 0 ^^^ ctx.ks (k - 2), data.getD 3 0 ^^^ ctx.ks (k - 1)]
  decRounds g ctx ctx.rounds 0 (k - 4) data

/-- Function `AES_Encrypt`: `g` is the prior content of the global tables and `ctx` the
prior content of the local `AES_CTX ctx`; returns the tables left behind and the 16 bytes
left in `data`. -/
def AES_Encrypt (g : Tables) (ctx : AES_CTX) (data key : List Nat) : Tables × List Nat :=
  let buf := [ntohl (load32 data 0), ntohl (load32 data 1),
              ntohl (load32 data 2), ntohl (load32 data 3)]
  let g := AES_generateSBox g
  let ctx := AES_set_key g ctx key AES_MODE_128
  let buf := AES_encrypt g ctx buf
  (g, store32 (htonl (buf.getD 0 0)) ++ store32 (htonl (buf.getD 1 0)) ++
      store32 (htonl (buf.getD 2 0)) ++ store32 (htonl (buf.getD 3 0)))

/-- Function `AES_Decrypt`, with the same conventions as `AES_Encrypt`. -/
def AES_Decrypt (g : Tables) (ctx : AES_CTX) (data key : List Nat) : Tables × List Nat :=
  let buf := AES_hncpy32 data 0
  let g := AES_generateSBox g
  let ctx := AES_set_key g ctx key AES_MODE_128
  let ctx := AES_convert_key ctx
  let buf := AES_decrypt g ctx buf
  (g, store32 (htonl (buf.getD 0 0)) ++ store32 (htonl (buf.getD 1 0)) ++
      store32 (htonl (buf.getD 2 0)) ++ store32 (htonl (buf.getD 3 0)))


/-! ## Auxiliary definitions for the statements and proofs -/

/-- The 32-bit word whose bytes are `a0 a1 a2 a3`, most significant first. -/
def W (a0 a1 a2 a3 : Nat) : Nat := 2 ^ 8 * (2 ^ 8 * (2 ^ 8 * a0 + a1) + a2) + a3

/-- Byte 0 (most significant) of a 32-bit word. -/
def B0 (w : Nat) : Nat := w / 2 ^ 24 % 256
/-- Byte 1 of a 32-bit word. -/
def B1 (w : Nat) : Nat := w / 2 ^ 16 % 256
/-- Byte 2 of a 32-bit word. -/
def B2 (w : Nat) : Nat := w / 2 ^ 8 % 256
/-- Byte 3 (least significant) of a 32-bit word. -/
def B3 (w : Nat) : Nat := w % 256

/-- Multiplication by 9 in GF(2^8) through doublings. -/
def m9 (b : Nat) : Nat := AES_xtime (AES_xtime (AES_xtime b)) ^^^ b
/-- Multiplication by 11 in GF(2^8) through doublings. -/
def m11 (b : Nat) : Nat := AES_xtime (AES_xtime (AES_xtime b)) ^^^ AES_xtime b ^^^ b
/-- Multiplication by 13 in GF(2^8) through doublings. -/
def m13 (b : Nat) : Nat :=
  AES_xtime (AES_xtime (AES_xtime b)) ^^^ AES_xtime (AES_xtime b) ^^^ b
/-- Multiplication by 14 in GF(2^8) through doublings. -/
def m14 (b : Nat) : Nat :=
  AES_xtime (AES_xtime (AES_xtime b)) ^^^ AES_xtime (AES_xtime b) ^^^ AES_xtime b

/-- The 256 values that `AES_generateSBox` leaves in `aes_sbox`. -/
def sboxTable : List Nat :=
  [0x63, 0x7c, 0x77, 0x7b, 0xf2, 0x6b, 0x6f, 0xc5, 0x30, 0x01, 0x67, 0x2b, 0xfe, 0xd7, 0xab, 0x76,
   0xca, 0x82, 0xc9, 0x7d, 0xfa, 0x59, 0x47, 0xf0, 0xad, 0xd4, 0xa2, 0xaf, 0x9c, 0xa4, 0x72, 0xc0,
   0xb7, 0xfd, 0x93, 0x26, 0x36, 0x3f, 0xf7, 0xcc, 0x34, 0xa5, 0xe5, 0xf1, 0x71, 0xd8, 0x31, 0x15,
   0x04, 0xc7, 0x23, 0xc3, 0x18, 0x96, 0x05, 0x9a, 0x07, 0x12, 0x80, 0xe2, 0xeb, 0x27, 0xb2, 0x75,
   0x09, 0x83, 0x2c, 0x1a, 0x1b, 0x6e, 0x5a, 0xa0, 0x52, 0x3b, 0xd6, 0xb3, 0x29, 0xe3, 0x2f, 0x84,
   0x53, 0xd1, 0x00, 0xed, 0x20, 0xfc, 0xb1, 0x5b, 0x6a, 0xcb, 0xbe, 0x39, 0x4a, 0x4c, 0x58, 0xcf,
   0xd0, 0xef, 0xaa, 0xfb, 0x43, 0x4d, 0x33, 0x85, 0x45, 0xf9, 0x02, 0x7f, 0x50, 0x3c, 0x9f, 0xa8,
   0x51, 0xa3, 0x40, 0x8f, 0x92, 0x9d, 0x38, 0xf5, 0xbc, 0xb6, 0xda, 0x21, 0x10, 0xff, 0xf3, 0xd2,
   0xcd, 0x0c, 0x13, 0xec, 0x5f, 0x97, 0x44, 0x17, 0xc4, 0xa7, 0x7e, 0x3d, 0x64, 0x5d, 0x19, 0x73,
   0x60, 0x81, 0x4f, 0xdc, 0x22, 0x2a, 0x90, 0x88, 0x46, 0xee, 0xb8, 0x14, 0xde, 0x5e, 0x0b, 0xdb,
   0xe0, 0x32, 0x3a, 0x0a, 0x49, 0x06, 0x24, 0x5c, 0xc2, 0xd3, 0xac, 0x62, 0x91, 0x95, 0xe4, 0x79,
   0xe7, 0xc8, 0x37, 0x6d, 0x8d, 0xd5, 0x4e, 0xa9, 0x6c, 0x56, 0xf4, 0xea, 0x65, 0x7a, 0xae, 0x08,
   0xba, 0x78, 0x25, 0x2e, 0x1c, 0xa6, 0xb4, 0xc6, 0xe8, 0xdd, 0x74, 0x1f, 0x4b, 0xbd, 0x8b, 0x8a,
   0x70, 0x3e, 0xb5, 0x66, 0x48, 0x03, 0xf6, 0x0e, 0x61, 0x35, 0x57, 0xb9, 0x86, 0xc1, 0x1d, 0x9e,
   0xe1, 0xf8, 0x98, 0x11, 0x69, 0xd9, 0x8e, 0x94, 0x9b, 0x1e, 0x87, 0xe9, 0xce, 0x55, 0x28, 0xdf,
   0x8c, 0xa1, 0x89, 0x0d, 0xbf, 0xe6, 0x42, 0x68, 0x41, 0x99, 0x2d, 0x0f, 0xb0, 0x54, 0xbb, 0x16]

/-- The 256 values that `AES_generateSBox` leaves in `aes_isbox`. -/
def isboxTable : List Nat :=
  [0x52, 0x09, 0x6a, 0xd5, 0x30, 0x36, 0xa5, 0x38, 0xbf, 0x40, 0xa3, 0x9e, 0x81, 0xf3, 0xd7, 0xfb,
   0x7c, 0xe3, 0x39, 0x82, 0x9b, 0x2f, 0xff, 0x87, 0x34, 0x8e, 0x43, 0x44, 0xc4, 0xde, 0xe9, 0xcb,
   0x54, 0x7b, 0x94, 0x32, 0xa6, 0xc2, 0x23, 0x3d, 0xee, 0x4c, 0x95, 0x0b, 0x42, 0xfa, 0xc3, 0x4e,
   0x08, 0x2e, 0xa1, 0x66, 0x28, 0xd9, 0x24, 0xb2, 0x76, 0x5b, 0xa2, 0x49, 0x6d, 0x8b, 0xd1, 0x25,
   0x72, 0xf8, 0xf6, 0x64, 0x86, 0x68, 0x98, 0x16, 0xd4, 0xa4, 0x5c, 0xcc, 0x5d, 0x65, 0xb6, 0x92,
   0x6c, 0x70, 0x48, 0x50, 0xfd, 0xed, 0xb9, 0xda, 0x5e, 0x15, 0x46, 0x57, 0xa7, 0x8d, 0x9d, 0x84,
   0x90, 0xd8, 0xab, 0x00, 0x8c, 0xbc, 0xd3, 0x0a, 0xf7, 0xe4, 0x58, 0x05, 0xb8, 0xb3, 0x45, 0x06,
   0xd0, 0x2c, 0x1e, 0x8f, 0xca, 0x3f, 0x0f, 0x02, 0xc1, 0xaf, 0xbd, 0x03, 0x01, 0x13, 0x8a, 0x6b,
   0x3a, 0x91, 0x11, 0x41, 0x4f, 0x67, 0xdc, 0xea, 0x97, 0xf2, 0xcf, 0xce, 0xf0, 0xb4, 0xe6, 0x73,
   0x96, 0xac, 0x74, 0x22, 0xe7, 0xad, 0x35, 0x85, 0xe2, 0xf9, 0x37, 0xe8, 0x1c, 0x75, 0xdf, 0x6e,
   0x47, 0xf1, 0x1a, 0x71, 0x1d, 0x29, 0xc5, 0x89, 0x6f, 0xb7, 0x62, 0x0e, 0xaa, 0x18, 0xbe, 0x1b,
   0xfc, 0x56, 0x3e, 0x4b, 0xc6, 0xd2, 0x79, 0x20, 0x9a, 0xdb, 0xc0, 0xfe, 0x78, 0xcd, 0x5a, 0xf4,
   0x1f, 0xdd, 0xa8, 0x33, 0x88, 0x07, 0xc7, 0x31, 0xb1, 0x12, 0x10, 0x59, 0x27, 0x80, 0xec, 0x5f,
   0x60, 0x51, 0x7f, 0xa9, 0x19, 0xb5, 0x4a, 0x0d, 0x2d, 0xe5, 0x7a, 0x9f, 0x93, 0xc9, 0x9c, 0xef,
   0xa0, 0xe0, 0x3b, 0x4d, 0xae, 0x2a, 0xf5, 0xb0, 0xc8, 0xeb, 0xbb, 0x3c, 0x83, 0x53, 0x99, 0x61,
   0x17, 0x2b, 0x04, 0x7e, 0xba, 0x77, 0xd6, 0x26, 0xe1, 0x69, 0x14, 0x63, 0x55, 0x21, 0x0c, 0x7d]

/-- The global tables after `AES_generateSBox`. -/
def genTables : Tables := { aes_sbox := sboxTable, aes_isbox := isboxTable }

/-- The global tables with every entry zero. -/
def zeroTables : Tables :=
  { aes_sbox := List.replicate 256 0, aes_isbox := List.replicate 256 0 }

/-- A sequence of array assignments `s[i] = v`, applied in order. -/
def setMany (s : List Nat) (ws : List (Nat × Nat)) : List Nat :=
  ws.foldl (fun s w => s.set w.1 w.2) s

/-- The assignments made by `sboxLoop`. -/
def sboxWrites (t : List Nat) : Nat → Nat → List (Nat × Nat)
  | 0, _ => []
  | n + 1, i =>
    let x := t.getD (255 - i) 0
    let x := x ||| u32 (x <<< 8)
    let x := x ^^^ ((x >>> 4) ^^^ (x >>> 5) ^^^ (x >>> 6) ^^^ (x >>> 7))
    (t.getD i 0, (x ^^^ 0x63) &&& 0xFF) :: sboxWrites t n (i + 1)

/-- The assignments made by `isboxLoop`. -/
def isboxWrites (sbox : List Nat) : Nat → Nat → List (Nat × Nat)
  | 0, _ => []
  | n + 1, i => (sbox.getD i 0, i) :: isboxWrites sbox n (i + 1)

/-- Bit mask of the indices assigned by a sequence of assignments. -/
def writeMask (ws : List (Nat × Nat)) : Nat :=
  ws.foldr (fun w m => m ||| (1 <<< w.1)) 0

/-- One output byte of the column mix: `2*a0 + 3*a1 + a2 + a3` in GF(2^8). -/
def mc0 (a0 a1 a2 a3 : Nat) : Nat :=
  AES_xtime a0 ^^^ (AES_xtime a1 ^^^ a1) ^^^ a2 ^^^ a3

/-- One output byte of the inverse column mix: `14*b0 + 11*b1 + 13*b2 + 9*b3` in GF(2^8). -/
def imc0 (b0 b1 b2 b3 : Nat) : Nat := m14 b0 ^^^ m11 b1 ^^^ m13 b2 ^^^ m9 b3

/-- Column mix of a word. -/
def mixW (w : Nat) : Nat :=
  W (mc0 (B0 w) (B1 w) (B2 w) (B3 w)) (mc0 (B1 w) (B2 w) (B3 w) (B0 w))
    (mc0 (B2 w) (B3 w) (B0 w) (B1 w)) (mc0 (B3 w) (B0 w) (B1 w) (B2 w))

/-- Inverse column mix of a word. -/
def imixW (w : Nat) : Nat :=
  W (imc0 (B0 w) (B1 w) (B2 w) (B3 w)) (imc0 (B1 w) (B2 w) (B3 w) (B0 w))
    (imc0 (B2 w) (B3 w) (B0 w) (B1 w)) (imc0 (B3 w) (B0 w) (B1 w) (B2 w))

/-- The word of the table values at byte 0 of `x0`, byte 1 of `x1`, byte 2 of `x2` and
byte 3 of `x3`. -/
def subq (t : List Nat) (x0 x1 x2 x3 : Nat) : Nat :=
  W (t.getD (B0 x0) 0) (t.getD (B1 x1) 0) (t.getD (B2 x2) 0) (t.getD (B3 x3) 0)

/-- Byte substitution and row shift of `AES_encrypt` on a block of four words. -/
def SS (g : Tables) (d : List Nat) : List Nat :=
  [subq g.aes_sbox (d.getD 0 0) (d.getD 1 0) (d.getD 2 0) (d.getD 3 0),
   subq g.aes_sbox (d.getD 1 0) (d.getD 2 0) (d.getD 3 0) (d.getD 0 0),
   subq g.aes_sbox (d.getD 2 0) (d.getD 3 0) (d.getD 0 0) (d.getD 1 0),
   subq g.aes_sbox (d.getD 3 0) (d.getD 0 0) (d.getD 1 0) (d.getD 2 0)]

/-- Inverse byte substitution and row shift of `AES_decrypt` on a block of four words. -/
def ISS (g : Tables) (d : List Nat) : List Nat :=
  [subq g.aes_isbox (d.getD 0 0) (d.getD 3 0) (d.getD 2 0) (d.getD 1 0),
   subq g.aes_isbox (d.getD 1 0) (d.getD 0 0) (d.getD 3 0) (d.getD 2 0),
   subq g.aes_isbox (d.getD 2 0) (d.getD 1 0) (d.getD 0 0) (d.getD 3 0),
   subq g.aes_isbox (d.getD 3 0) (d.getD 2 0) (d.getD 1 0) (d.getD 0 0)]

/-- Addition of the four round-key words `ks[k .. k+3]` to a block. -/
def XK (ks : Nat → Nat) (k : Nat) (d : List Nat) : List Nat :=
  [d.getD 0 0 ^^^ ks k, d.getD 1 0 ^^^ ks (k + 1), d.getD 2 0 ^^^ ks (k + 2),
   d.getD 3 0 ^^^ ks (k + 3)]

/-- A block of four 32-bit words. -/
def Block (d : List Nat) : Prop := d.length = 4 ∧ ∀ x ∈ d, x < 2 ^ 32

/-- The tables hold bytes and `aes_isbox` undoes `aes_sbox`. -/
def TablesOK (g : Tables) : Prop :=
  ∀ x < 256, g.aes_sbox.getD x 0 < 256 ∧ g.aes_isbox.getD x 0 < 256 ∧
    g.aes_isbox.getD (g.aes_sbox.getD x 0) 0 = x

/-- The block of `AES_encrypt` after the pre-round key addition and `r` rounds. -/
def encState (g : Tables) (ctx : AES_CTX) (data : List Nat) : Nat → List Nat
  | 0 => XK ctx.ks 0 data
  | r + 1 => encRound g ctx r (4 * (r + 1)) (encState g ctx data r)

/-- Rotation of a 32-bit word to the left by one byte. -/
def RotWord (w : Nat) : Nat := w * 2 ^ 8 % 2 ^ 32 + w / 2 ^ 24

/-- Application of a byte table to each of the four bytes of a word. -/
def SubWord (t : List Nat) (w : Nat) : Nat :=
  W (t.getD (B0 w) 0) (t.getD (B1 w) 0) (t.getD (B2 w) 0) (t.getD (B3 w) 0)

/-- The big-endian 32-bit word of the bytes `4j .. 4j+3` of a buffer. -/
def beWord (p : List Nat) (j : Nat) : Nat :=
  W (p.getD (4 * j) 0) (p.getD (4 * j + 1) 0) (p.getD (4 * j + 2) 0) (p.getD (4 * j + 3) 0)

/-- The word `tmp` of the key schedule recurrence at index `i`, from the previous word. -/
def keyTmp (t : List Nat) (words i prev : Nat) : Nat :=
  if i % words = 0 then SubWord t (RotWord prev) ^^^ (Rcon.getD (i / words - 1) 0 <<< 24)
  else if words = 8 ∧ i % 8 = 4 then SubWord t prev
  else prev

/-- The four big-endian words of a 16-byte block. -/
def wordsOfBytes (p : List Nat) : List Nat := [beWord p 0, beWord p 1, beWord p 2, beWord p 3]

/-- The 16 bytes of four words, most significant byte of each word first. -/
def bytesOfWords (d : List Nat) : List Nat :=
  [B0 (d.getD 0 0), B1 (d.getD 0 0), B2 (d.getD 0 0), B3 (d.getD 0 0),
   B0 (d.getD 1 0), B1 (d.getD 1 0), B2 (d.getD 1 0), B3 (d.getD 1 0),
   B0 (d.getD 2 0), B1 (d.getD 2 0), B2 (d.getD 2 0), B3 (d.getD 2 0),
   B0 (d.getD 3 0), B1 (d.getD 3 0), B2 (d.getD 3 0), B3 (d.getD 3 0)]

/-- A buffer of exactly 16 bytes. -/
def Bytes16 (p : List Nat) : Prop := p.length = 16 ∧ ∀ b ∈ p, b < 256

/-- A context with no rounds, key size zero and all round-key words zero. -/
def zeroCtx : AES_CTX := { rounds := 0, key_size := 0, ks := fun _ => 0 }

/-- The 32-bit word of a word of four bytes, first byte most significant. -/
def wordOf (w : List Nat) : Nat := W (w.getD 0 0) (w.getD 1 0) (w.getD 2 0) (w.getD 3 0)

/-- Key of the first test vector: `000102030405060708090a0b0c0d0e0f`. -/
def tv1_key : List Nat :=
  [0x00, 0x01, 0x02, 0x03, 0x04, 0x05, 0x06, 0x07, 0x08, 0x09, 0x0a, 0x0b, 0x0c, 0x0d, 0x0e, 0x0f]

/-- Plaintext of the first test vector: `00112233445566778899aabbccddeeff`. -/
def tv1_plain : List Nat :=
  [0x00, 0x11, 0x22, 0x33, 0x44, 0x55, 0x66, 0x77, 0x88, 0x99, 0xaa, 0xbb, 0xcc, 0xdd, 0xee, 0xff]

/-- Ciphertext of the first test vector: `69c4e0d86a7b0430d8cdb78070b4c55a`. -/
def tv1_cipher : List Nat :=
  [0x69, 0xc4, 0xe0, 0xd8, 0x6a, 0x7b, 0x04, 0x30, 0xd8, 0xcd, 0xb7, 0x80, 0x70, 0xb4, 0xc5, 0x5a]

/-- The all-zero block of 16 bytes. -/
def zero16 : List Nat := [0, 0, 0, 0, 0, 0, 0, 0, 0, 0, 0, 0, 0, 0, 0, 0]

/-- Ciphertext of the all-zero block under the all-zero key:
`66e94bd4ef8a2c3b884cfa59ca342b2e`. -/
def tv2_cipher : List Nat :=
  [0x66, 0xe9, 0x4b, 0xd4, 0xef, 0x8a, 0x2c, 0x3b, 0x88, 0x4c, 0xfa, 0x59, 0xca, 0x34, 0x2b, 0x2e]

/-- A context with ten rounds whose round-key word `i` holds the value `i`. -/
def sampleCtx : AES_CTX := { rounds := 10, key_size := 4, ks := fun i => i }

/-- The MixColumn statements of `AES_encrypt` (branch `curr_rnd < rounds - 1`): the values of
`a0`, `a1`, `a2`, `a3` after the four updates. -/
def encMixColumn (a0 a1 a2 a3 : Nat) : List Nat :=
  let tmp1 := a0 ^^^ a1 ^^^ a2 ^^^ a3
  let old_a0 := a0
  let a0 := a0 ^^^ (tmp1 ^^^ AES_xtime (a0 ^^^ a1))
  let a1 := a1 ^^^ (tmp1 ^^^ AES_xtime (a1 ^^^ a2))
  let a2 := a2 ^^^ (tmp1 ^^^ AES_xtime (a2 ^^^ a3))
  let a3 := a3 ^^^ (tmp1 ^^^ AES_xtime (a3 ^^^ old_a0))
  [a0, a1, a2, a3]

/-- The inverse MixColumn statements of `AES_decrypt` (branch `curr_rnd < rounds - 1`): the
values of `xt0`, `xt1`, `xt2`, `xt3` that are packed into `tmp[row-1]`. -/
def decMixColumn (a0 a1 a2 a3 : Nat) : List Nat :=
  let xt0 := AES_xtime (a0 ^^^ a1)
  let xt1 := AES_xtime (a1 ^^^ a2)
  let xt2 := AES_xtime (a2 ^^^ a3)
  let xt3 := AES_xtime (a3 ^^^ a0)
  let xt4 := AES_xtime (xt0 ^^^ xt1)
  let xt5 := AES_xtime (xt1 ^^^ xt2)
  let xt6 := AES_xtime (xt4 ^^^ xt5)
  let xt0 := xt0 ^^^ (a1 ^^^ a2 ^^^ a3 ^^^ xt4 ^^^ xt6)
  let xt1 := xt1 ^^^ (a0 ^^^ a2 ^^^ a3 ^^^ xt5 ^^^ xt6)
  let xt2 := xt2 ^^^ (a0 ^^^ a1 ^^^ a3 ^^^ xt4 ^^^ xt6)
  let xt3 := xt3 ^^^ (a0 ^^^ a1 ^^^ a2 ^^^ xt5 ^^^ xt6)
  [xt0, xt1, xt2, xt3]

/-- The word `(x0 << 24) | (x1 << 16) | (x2 << 8) | x3` of four values held in a list. -/
def packList (m : List Nat) : Nat := pack (m.getD 0 0) (m.getD 1 0) (m.getD 2 0) (m.getD 3 0)



/-- The block of `AES_decrypt` after the pre-round key addition and `r` rounds. -/
def decState (g : Tables) (ctx : AES_CTX) (data : List Nat) : Nat → List Nat
  | 0 => XK ctx.ks (4 * ctx.rounds) data
  | r + 1 => decRound g ctx r (4 * (ctx.rounds - r)) (decState g ctx data r)



/-- The 32-byte key `000102...1e1f` of the AES-256 example of FIPS-197, appendix C.3. -/
def tv3_key : List Nat :=
  [0x00, 0x01, 0x02, 0x03, 0x04, 0x05, 0x06, 0x07, 0x08, 0x09, 0x0a, 0x0b, 0x0c, 0x0d, 0x0e, 0x0f,
   0x10, 0x11, 0x12, 0x13, 0x14, 0x15, 0x16, 0x17, 0x18, 0x19, 0x1a, 0x1b, 0x1c, 0x1d, 0x1e, 0x1f]

/-- The big-endian words of the block `00112233445566778899aabbccddeeff`. -/
def tv3_plain : List Nat := [0x00112233, 0x44556677, 0x8899aabb, 0xccddeeff]

/-- The big-endian words of the block `8ea2b7ca516745bfeafc49904b496089`. -/
def tv3_cipher : List Nat := [0x8ea2b7ca, 0x516745bf, 0xeafc4990, 0x4b496089]



/-- The errors a call could report to its caller.  `aes.c` declares no error value; the name
`InvalidKeySize` is the one the specification gives to the report of an unsupported key-size
selector. -/
inductive AesError
  | InvalidKeySize
deriving DecidableEq

/-- What the caller of `AES_set_key` observes.  The function is declared `void`, takes no
status argument and sets no global status, and its `default:` branch is a plain `return`:
every call returns normally, with the context that the call leaves behind. -/
def AES_set_key_call (g : Tables) (ctx : AES_CTX) (key : List Nat) (mode : Nat) :
    Except AesError AES_CTX :=
  Except.ok (AES_set_key g ctx key mode)

/-! ## Array accesses

The functions below list, in program order, the array elements that `AES_set_key`,
`AES_convert_key`, `AES_encrypt` and `AES_decrypt` read and write.  They follow the same
loops as the functions above and take the values that decide an index (the round-key words,
the data words) from them. -/

/-- The arrays that the key and block functions index: `ctx->ks`, `Rcon`, the two tables,
the key buffer seen as `uint32_t` words, and the block buffers `data` and `tmp`. -/
inductive Arr
  | ks
  | Rcon
  | aes_sbox
  | aes_isbox
  | key
  | data
  | tmp
deriving DecidableEq

/-- One array access: a read or a write of the element at an index. -/
inductive Access
  | read (a : Arr) (i : Nat)
  | write (a : Arr) (i : Nat)
deriving DecidableEq

/-- The array of an access. -/
def Access.arr : Access → Arr
  | Access.read a _ => a
  | Access.write a _ => a

/-- The index of an access. -/
def Access.idx : Access → Nat
  | Access.read _ i => i
  | Access.write _ i => i

/-- The indices at which a trace reads the array `a`, in program order. -/
def readsOf (a : Arr) (tr : List Access) : List Nat :=
  tr.filterMap (fun x =>
    match x with
    | Access.read b i => if b = a then some i else none
    | Access.write _ _ => none)

/-- Accesses of `AES_hncpy32` as called by `AES_set_key`: `dst` is the offset of the
destination in `ctx->ks`, `src` the offset of the source in the key buffer, in words. -/
def AES_hncpy32_trace (dst src : Nat) : List Access :=
  [Access.read Arr.key src, Access.write Arr.ks dst,
   Access.read Arr.key (src + 1), Access.write Arr.ks (dst + 1),
   Access.read Arr.key (src + 2), Access.write Arr.ks (dst + 2),
   Access.read Arr.key (src + 3), Access.write Arr.ks (dst + 3)]

/-- Accesses of the body of the expansion loop of `AES_set_key` for index `i`. -/
def setKeyStep_trace (g : Tables) (words i rtmp : Nat) (ks : Nat → Nat) : List Access :=
  let tmp := ks (i - 1)
  let t0 := [Access.read Arr.ks (i - 1)]
  let t1 :=
    if i % words = 0 then
      [Access.read Arr.aes_sbox (tmp &&& 0xff),
       Access.read Arr.aes_sbox ((tmp >>> 8) &&& 0xff),
       Access.read Arr.aes_sbox ((tmp >>> 16) &&& 0xff),
       Access.read Arr.aes_sbox (tmp >>> 24),
       Access.read Arr.Rcon rtmp]
    else []
  let tmp :=
    if i % words = 0 then
      let tmp2 := u32 (g.aes_sbox.getD (tmp &&& 0xff) 0 <<< 8)
      let tmp2 := tmp2 ||| u32 (g.aes_sbox.getD ((tmp >>> 8) &&& 0xff) 0 <<< 16)
      let tmp2 := tmp2 ||| u32 (g.aes_sbox.getD ((tmp >>> 16) &&& 0xff) 0 <<< 24)
      let tmp2 := tmp2 ||| g.aes_sbox.getD (tmp >>> 24) 0
      tmp2 ^^^ u32 (Rcon.getD rtmp 0 <<< 24)
    else tmp
  let t2 :=
    if words = 8 ∧ i % words = 4 then
      [Access.read Arr.aes_sbox (tmp &&& 0xff),
       Access.read Arr.aes_sbox ((tmp >>> 8) &&& 0xff),
       Access.read Arr.aes_sbox ((tmp >>> 16) &&& 0xff),
       Access.read Arr.aes_sbox (tmp >>> 24)]
    else []
  t0 ++ t1 ++ t2 ++ [Access.read Arr.ks (i - words), Access.write Arr.ks i]

/-- Accesses of the expansion loop of `AES_set_key`: `n` iterations starting at index `i`. -/
def setKeyLoop_trace (g : Tables) (words : Nat) : Nat → Nat → Nat → (Nat → Nat) → List Access
  | 0, _, _, _ => []
  | n + 1, i, rtmp, ks =>
    setKeyStep_trace g words i rtmp ks ++
      setKeyLoop_trace g words n (i + 1) (setKeyStep g words i rtmp ks).1
        (setKeyStep g words i rtmp ks).2

/-- Accesses of `AES_set_key`. -/
def AES_set_key_trace (g : Tables) (ctx : AES_CTX) (key : List Nat) (mode : Nat) :
    List Access :=
  if mode = AES_MODE_128 then
    let ks := storeWords ctx.ks 0 (AES_hncpy32 key 0)
    AES_hncpy32_trace 0 0 ++ setKeyLoop_trace g 4 (4 * (10 + 1) - 4) 4 0 ks
  else if mode = AES_MODE_256 then
    let ks := storeWords ctx.ks 4 (AES_hncpy32 key 4)
    let ks := storeWords ks 0 (AES_hncpy32 key 0)
    AES_hncpy32_trace 4 4 ++ AES_hncpy32_trace 0 0 ++
      setKeyLoop_trace g 8 (4 * (14 + 1) - 8) 8 0 ks
  else []

/-- Accesses of the loop of `AES_convert_key`: `n` iterations, pointer `k` at offset `k`. -/
def convertLoop_trace : Nat → Nat → List Access
  | 0, _ => []
  | n + 1, k => Access.read Arr.ks k :: Access.write Arr.ks k :: convertLoop_trace n (k + 1)

/-- Accesses of `AES_convert_key`. -/
def AES_convert_key_trace (ctx : AES_CTX) : List Access :=
  convertLoop_trace (ctx.rounds * 4 - 4) 4

/-- Accesses of the body of the row loop of `AES_encrypt`. -/
def encRow_trace (data : List Nat) (row : Nat) : List Access :=
  [Access.read Arr.data (row % 4),
   Access.read Arr.aes_sbox ((data.getD (row % 4) 0 >>> 24) &&& 0xFF),
   Access.read Arr.data ((row + 1) % 4),
   Access.read Arr.aes_sbox ((data.getD ((row + 1) % 4) 0 >>> 16) &&& 0xFF),
   Access.read Arr.data ((row + 2) % 4),
   Access.read Arr.aes_sbox ((data.getD ((row + 2) % 4) 0 >>> 8) &&& 0xFF),
   Access.read Arr.data ((row + 3) % 4),
   Access.read Arr.aes_sbox (data.getD ((row + 3) % 4) 0 &&& 0xFF),
   Access.write Arr.tmp row]

/-- Accesses of a key addition `data[row] = tmp[row] ^ *k` at offset `k`. -/
def addKey_trace (row k : Nat) : List Access :=
  [Access.read Arr.tmp row, Access.read Arr.ks k, Access.write Arr.data row]

/-- Accesses of a pre-round key addition `data[row] ^= *k` at offset `k`. -/
def preKey_trace (row k : Nat) : List Access :=
  [Access.read Arr.data row, Access.read Arr.ks k, Access.write Arr.data row]

/-- Accesses of one iteration of the round loop of `AES_encrypt`. -/
def encRound_trace (k : Nat) (data : List Nat) : List Access :=
  encRow_trace data 0 ++ encRow_trace data 1 ++ encRow_trace data 2 ++ encRow_trace data 3 ++
    (addKey_trace 0 k ++ addKey_trace 1 (k + 1) ++ addKey_trace 2 (k + 2) ++
      addKey_trace 3 (k + 3))

/-- Accesses of the round loop of `AES_encrypt`: `n` iterations from round `curr_rnd`. -/
def encRounds_trace (g : Tables) (ctx : AES_CTX) : Nat → Nat → Nat → List Nat → List Access
  | 0, _, _, _ => []
  | n + 1, curr_rnd, k, data =>
    encRound_trace k data ++
      encRounds_trace g ctx n (curr_rnd + 1) (k + 4) (encRound g ctx curr_rnd k data)

/-- Accesses of `AES_encrypt`. -/
def AES_encrypt_trace (g : Tables) (ctx : AES_CTX) (data : List Nat) : List Access :=
  let pre := preKey_trace 0 0 ++ preKey_trace 1 1 ++ preKey_trace 2 2 ++ preKey_trace 3 3
  let data := [data.getD 0 0 ^^^ ctx.ks 0, data.getD 1 0 ^^^ ctx.ks 1,
               data.getD 2 0 ^^^ ctx.ks 2, data.getD 3 0 ^^^ ctx.ks 3]
  pre ++ encRounds_trace g ctx ctx.rounds 0 4 data

/-- Accesses of the body of the row loop of `AES_decrypt`. -/
def decRow_trace (data : List Nat) (row : Nat) : List Access :=
  [Access.read Arr.data ((row + 3) % 4),
   Access.read Arr.aes_isbox ((data.getD ((row + 3) % 4) 0 >>> 24) &&& 0xFF),
   Access.read Arr.data ((row + 2) % 4),
   Access.read Arr.aes_isbox ((data.getD ((row + 2) % 4) 0 >>> 16) &&& 0xFF),
   Access.read Arr.data ((row + 1) % 4),
   Access.read Arr.aes_isbox ((data.getD ((row + 1) % 4) 0 >>> 8) &&& 0xFF),
   Access.read Arr.data (row % 4),
   Access.read Arr.aes_isbox (data.getD (row % 4) 0 &&& 0xFF),
   Access.write Arr.tmp (row - 1)]

/-- Accesses of one iteration of the round loop of `AES_decrypt`; `k` is the offset of the
pointer `k` on entry. -/
def decRound_trace (k : Nat) (data : List Nat) : List Access :=
  decRow_trace data 4 ++ decRow_trace data 3 ++ decRow_trace data 2 ++ decRow_trace data 1 ++
    (addKey_trace 3 (k - 1) ++ addKey_trace 2 (k - 2) ++ addKey_trace 1 (k - 3) ++
      addKey_trace 0 (k - 4))

/-- Accesses of the round loop of `AES_decrypt`: `n` iterations from round `curr_rnd`. -/
def decRounds_trace (g : Tables) (ctx : AES_CTX) : Nat → Nat → Nat → List Nat → List Access
  | 0, _, _, _ => []
  | n + 1, curr_rnd, k, data =>
    decRound_trace k data ++
      decRounds_trace g ctx n (curr_rnd + 1) (k - 4) (decRound g ctx curr_rnd k data)

/-- Accesses of `AES_decrypt`. -/
def AES_decrypt_trace (g : Tables) (ctx : AES_CTX) (data : List Nat) : List Access :=
  let k := (ctx.rounds + 1) * 4
  let pre := preKey_trace 3 (k - 1) ++ preKey_trace 2 (k - 2) ++ preKey_trace 1 (k - 3) ++
    preKey_trace 0 (k - 4)
  let data := [data.getD 0 0 ^^^ ctx.ks (k - 4), data.getD 1 0 ^^^ ctx.ks (k - 3),
               data.getD 2 0 ^^^ ctx.ks (k - 2), data.getD 3 0 ^^^ ctx.ks (k - 1)]
  pre ++ decRounds_trace g ctx ctx.rounds 0 (k - 4) data

/-- The number of elements of each array that index safety allows a call to touch, for a key
of `words` words and `rounds` rounds: the first `4*(rounds+1)` round-key words, ten (mode
128) or seven (mode 256) round constants, the 256 entries of a table, the `words` words of
the key, and the four words of a block. -/
def limit (words rounds : Nat) : Arr → Nat
  | Arr.ks => 4 * (rounds + 1)
  | Arr.Rcon => if words = 4 then 10 else 7
  | Arr.aes_sbox => 256
  | Arr.aes_isbox => 256
  | Arr.key => words
  | Arr.data => 4
  | Arr.tmp => 4



/-- Value of the macro `AES_MAXROUNDS`; the array `ks` has `(AES_MAXROUNDS+1)*8` words. -/
def AES_MAXROUNDS : Nat := 14

/-- Every access of a trace stays below the limit of its array. -/
def InBounds (words rounds : Nat) (tr : List Access) : Prop :=
  ∀ a ∈ tr, a.idx < limit words rounds a.arr

end AesC

/-! ## The standard: FIPS-197 for AES-128, on bytes -/

namespace Fips197

/-- Product of two polynomials over GF(2), given by their coefficient bits; the second has
degree below 8: the sum over `i < 8` of `b_i * (a * x^i)`. -/
def polyMul (a b : Nat) : Nat :=
  (b % 2) * a ^^^ (b / 2 % 2) * (a * 2) ^^^ (b / 4 % 2) * (a * 4) ^^^ (b / 8 % 2) * (a * 8) ^^^
    (b / 16 % 2) * (a * 16) ^^^ (b / 32 % 2) * (a * 32) ^^^ (b / 64 % 2) * (a * 64) ^^^
    (b / 128 % 2) * (a * 128)

/-- Cancellation of the coefficient of `x^i` (for `8 ≤ i`) by a multiple of
`x^8 + x^4 + x^3 + x + 1`. -/
def polyRed (i p : Nat) : Nat := p ^^^ (p / 2 ^ i % 2) * (0x11B * 2 ^ (i - 8))

/-- Remainder of a polynomial of degree below 15 modulo `x^8 + x^4 + x^3 + x + 1`. -/
def polyMod (p : Nat) : Nat :=
  polyRed 8 (polyRed 9 (polyRed 10 (polyRed 11 (polyRed 12 (polyRed 13 (polyRed 14 p))))))

/-- Multiplication in GF(2^8) modulo `x^8 + x^4 + x^3 + x + 1`. -/
def gfMul (a b : Nat) : Nat := polyMod (polyMul a b)

/-- Multiplicative inverse in GF(2^8), with 0 mapped to 0: the power `a^254`, computed as
`a^2 * a^4 * a^8 * a^16 * a^32 * a^64 * a^128`. -/
def gfInv (a : Nat) : Nat :=
  let a2 := gfMul a a
  let a4 := gfMul a2 a2
  let a8 := gfMul a4 a4
  let a16 := gfMul a8 a8
  let a32 := gfMul a16 a16
  let a64 := gfMul a32 a32
  let a128 := gfMul a64 a64
  gfMul a2 (gfMul a4 (gfMul a8 (gfMul a16 (gfMul a32 (gfMul a64 a128)))))

/-- Rotation of a byte to the left. -/
def rotl8 (b n : Nat) : Nat := (b <<< n ||| b >>> (8 - n)) % 256

/-- The affine transformation of the S-box without its constant. -/
def affine (b : Nat) : Nat := b ^^^ rotl8 b 1 ^^^ rotl8 b 2 ^^^ rotl8 b 3 ^^^ rotl8 b 4

/-- The S-box of FIPS-197 by its definition. -/
def SBox (x : Nat) : Nat := affine (gfInv x) ^^^ 0x63

/-- Entry `s[r,c]` of a state stored column by column: `s[r,c] = in[r + 4c]`. -/
def sAt (s : List Nat) (r c : Nat) : Nat := s.getD (r + 4 * c) 0

/-- The state with entries `f r c`, stored column by column. -/
def mkState (f : Nat → Nat → Nat) : List Nat :=
  [f 0 0, f 1 0, f 2 0, f 3 0, f 0 1, f 1 1, f 2 1, f 3 1,
   f 0 2, f 1 2, f 2 2, f 3 2, f 0 3, f 1 3, f 2 3, f 3 3]

/-- Transformation SubBytes. -/
def SubBytes (s : List Nat) : List Nat := mkState fun r c => SBox (sAt s r c)

/-- Transformation ShiftRows: row `r` is rotated to the left by `r` positions. -/
def ShiftRows (s : List Nat) : List Nat := mkState fun r c => sAt s r ((c + r) % 4)

/-- Entry `(r, k)` of the circulant matrix with first row `02 03 01 01`. -/
def mixCoeff (r k : Nat) : Nat := [2, 3, 1, 1].getD ((k + 4 - r) % 4) 0

/-- Transformation MixColumns: every column is multiplied by the circulant matrix. -/
def MixColumns (s : List Nat) : List Nat :=
  mkState fun r c =>
    gfMul (mixCoeff r 0) (sAt s 0 c) ^^^ gfMul (mixCoeff r 1) (sAt s 1 c) ^^^
      gfMul (mixCoeff r 2) (sAt s 2 c) ^^^ gfMul (mixCoeff r 3) (sAt s 3 c)

/-- Transformation AddRoundKey with the words `w[4*round .. 4*round+3]`. -/
def AddRoundKey (s : List Nat) (w : List (List Nat)) (round : Nat) : List Nat :=
  mkState fun r c => sAt s r c ^^^ (w.getD (4 * round + c) []).getD r 0

/-- Function RotWord on a word of four bytes. -/
def RotWord (w : List Nat) : List Nat := [w.getD 1 0, w.getD 2 0, w.getD 3 0, w.getD 0 0]

/-- Function SubWord on a word of four bytes. -/
def SubWord (w : List Nat) : List Nat :=
  [SBox (w.getD 0 0), SBox (w.getD 1 0), SBox (w.getD 2 0), SBox (w.getD 3 0)]

/-- Sum of two words of four bytes. -/
def xorWord (a b : List Nat) : List Nat :=
  [a.getD 0 0 ^^^ b.getD 0 0, a.getD 1 0 ^^^ b.getD 1 0, a.getD 2 0 ^^^ b.getD 2 0,
   a.getD 3 0 ^^^ b.getD 3 0]

/-- The round constant word `Rcon[i] = [x^(i-1), 0, 0, 0]`. -/
def rcon (i : Nat) : List Nat := [Nat.iterate (gfMul 2) (i - 1) 1, 0, 0, 0]

/-- The word of the key bytes `4i .. 4i+3`. -/
def keyWord (key : List Nat) (i : Nat) : List Nat :=
  [key.getD (4 * i) 0, key.getD (4 * i + 1) 0, key.getD (4 * i + 2) 0, key.getD (4 * i + 3) 0]

/-- One step of the key expansion: the word `w[i]` for `i` the number of words so far. -/
def expandStep (Nk : Nat) (w : List (List Nat)) : List (List Nat) :=
  let i := w.length
  let temp := w.getD (i - 1) []
  let temp :=
    if i % Nk = 0 then xorWord (SubWord (RotWord temp)) (rcon (i / Nk))
    else if 6 < Nk ∧ i % Nk = 4 then SubWord temp
    else temp
  w ++ [xorWord (w.getD (i - Nk) []) temp]

/-- Routine KeyExpansion: the words `w[0 .. 4*(Nr+1)-1]`. -/
def KeyExpansion (key : List Nat) (Nk Nr : Nat) : List (List Nat) :=
  Nat.iterate (expandStep Nk) (4 * (Nr + 1) - Nk) ((List.range Nk).map (keyWord key))

/-- The rounds `round, round+1, ...` of the cipher with MixColumns, `n` of them. -/
def cipherRounds (w : List (List Nat)) : Nat → Nat → List Nat → List Nat
  | 0, _, s => s
  | n + 1, round, s =>
    cipherRounds w n (round + 1) (AddRoundKey (MixColumns (ShiftRows (SubBytes s))) w round)

/-- The cipher of FIPS-197 for AES-128 (`Nk = 4`, `Nr = 10`) on a 16-byte block. -/
def Cipher (inp key : List Nat) : List Nat :=
  let w := KeyExpansion key 4 10
  let s := AddRoundKey inp w 0
  let s := cipherRounds w 9 1 s
  AddRoundKey (ShiftRows (SubBytes s)) w 10

end Fips197

namespace AesC

/-! ## Words as four byte lanes -/

theorem upd_same (a : Nat → Nat) (i v : Nat) : upd a i v i = v := by simp [upd]

theorem upd_other (a : Nat → Nat) {i j : Nat} (v : Nat) (h : j ≠ i) : upd a i v j = a j := by
  simp [upd, h]

theorem lane_xor (i a b c d : Nat) (hb : b < 2 ^ i) (hd : d < 2 ^ i) :
    (2 ^ i * a + b) ^^^ (2 ^ i * c + d) = 2 ^ i * (a ^^^ c) + (b ^^^ d) := by
  apply Nat.eq_of_testBit_eq
  intro j
  rw [Nat.testBit_xor, Nat.testBit_mul_pow_two_add _ hb, Nat.testBit_mul_pow_two_add _ hd,
    Nat.testBit_mul_pow_two_add _ (Nat.xor_lt_two_pow hb hd)]
  split <;> simp

theorem lane_and (i a b c d : Nat) (hb : b < 2 ^ i) (hd : d < 2 ^ i) :
    (2 ^ i * a + b) &&& (2 ^ i * c + d) = 2 ^ i * (a &&& c) + (b &&& d) := by
  apply Nat.eq_of_testBit_eq
  intro j
  rw [Nat.testBit_and, Nat.testBit_mul_pow_two_add _ hb, Nat.testBit_mul_pow_two_add _ hd,
    Nat.testBit_mul_pow_two_add _ (Nat.and_lt_two_pow _ hd)]
  split <;> simp

theorem lane_or (i a b c d : Nat) (hb : b < 2 ^ i) (hd : d < 2 ^ i) :
    (2 ^ i * a + b) ||| (2 ^ i * c + d) = 2 ^ i * (a ||| c) + (b ||| d) := by
  apply Nat.eq_of_testBit_eq
  intro j
  rw [Nat.testBit_or, Nat.testBit_mul_pow_two_add _ hb, Nat.testBit_mul_pow_two_add _ hd,
    Nat.testBit_mul_pow_two_add _ (Nat.or_lt_two_pow hb hd)]
  split <;> simp

theorem xor_lt_256 {a b : Nat} (ha : a < 256) (hb : b < 256) : a ^^^ b < 256 :=
  Nat.xor_lt_two_pow (n := 8) ha hb

theorem xor_lt_32 {a b : Nat} (ha : a < 2 ^ 32) (hb : b < 2 ^ 32) : a ^^^ b < 2 ^ 32 :=
  Nat.xor_lt_two_pow ha hb

theorem W_xor {a0 a1 a2 a3 b0 b1 b2 b3 : Nat} (h1 : a1 < 256) (h2 : a2 < 256) (h3 : a3 < 256)
    (k1 : b1 < 256) (k2 : b2 < 256) (k3 : b3 < 256) :
    W a0 a1 a2 a3 ^^^ W b0 b1 b2 b3 = W (a0 ^^^ b0) (a1 ^^^ b1) (a2 ^^^ b2) (a3 ^^^ b3) := by
  unfold W
  rw [lane_xor 8 _ _ _ _ h3 k3, lane_xor 8 _ _ _ _ h2 k2, lane_xor 8 _ _ _ _ h1 k1]

theorem W_and {a0 a1 a2 a3 b0 b1 b2 b3 : Nat} (h1 : a1 < 256) (h2 : a2 < 256) (h3 : a3 < 256)
    (k1 : b1 < 256) (k2 : b2 < 256) (k3 : b3 < 256) :
    W a0 a1 a2 a3 &&& W b0 b1 b2 b3 = W (a0 &&& b0) (a1 &&& b1) (a2 &&& b2) (a3 &&& b3) := by
  unfold W
  rw [lane_and 8 _ _ _ _ h3 k3, lane_and 8 _ _ _ _ h2 k2, lane_and 8 _ _ _ _ h1 k1]

theorem W_or {a0 a1 a2 a3 b0 b1 b2 b3 : Nat} (h1 : a1 < 256) (h2 : a2 < 256) (h3 : a3 < 256)
    (k1 : b1 < 256) (k2 : b2 < 256) (k3 : b3 < 256) :
    W a0 a1 a2 a3 ||| W b0 b1 b2 b3 = W (a0 ||| b0) (a1 ||| b1) (a2 ||| b2) (a3 ||| b3) := by
  unfold W
  rw [lane_or 8 _ _ _ _ h3 k3, lane_or 8 _ _ _ _ h2 k2, lane_or 8 _ _ _ _ h1 k1]

theorem W_lt {a0 a1 a2 a3 : Nat} (h0 : a0 < 256) (h1 : a1 < 256) (h2 : a2 < 256)
    (h3 : a3 < 256) : W a0 a1 a2 a3 < 2 ^ 32 := by
  unfold W; omega

theorem and_255 (x : Nat) : x &&& 255 = x % 256 := Nat.and_pow_two_sub_one_eq_mod x 8

theorem W_bytes {w : Nat} (h : w < 2 ^ 32) : W (B0 w) (B1 w) (B2 w) (B3 w) = w := by
  unfold W B0 B1 B2 B3; omega

theorem B0_lt (w : Nat) : B0 w < 256 := by unfold B0; omega
theorem B1_lt (w : Nat) : B1 w < 256 := by unfold B1; omega
theorem B2_lt (w : Nat) : B2 w < 256 := by unfold B2; omega
theorem B3_lt (w : Nat) : B3 w < 256 := by unfold B3; omega

theorem B0_W {a0 a1 a2 a3 : Nat} (h0 : a0 < 256) (h1 : a1 < 256) (h2 : a2 < 256)
    (h3 : a3 < 256) : B0 (W a0 a1 a2 a3) = a0 := by
  unfold W B0; omega
theorem B1_W {a0 a1 a2 a3 : Nat} (h1 : a1 < 256) (h2 : a2 < 256)
    (h3 : a3 < 256) : B1 (W a0 a1 a2 a3) = a1 := by
  unfold W B1; omega
theorem B2_W {a0 a1 a2 a3 : Nat} (h2 : a2 < 256)
    (h3 : a3 < 256) : B2 (W a0 a1 a2 a3) = a2 := by
  unfold W B2; omega
theorem B3_W {a0 a1 a2 a3 : Nat} (h3 : a3 < 256) : B3 (W a0 a1 a2 a3) = a3 := by
  unfold W B3; omega

theorem pack_eq_W {a0 a1 a2 a3 : Nat} (h0 : a0 < 256) (h1 : a1 < 256) (h2 : a2 < 256)
    (h3 : a3 < 256) : pack a0 a1 a2 a3 = W a0 a1 a2 a3 := by
  have e0 : u32 (a0 <<< 24) = W a0 0 0 0 := by
    unfold u32 W; rw [Nat.shiftLeft_eq]; omega
  have e1 : u32 (a1 <<< 16) = W 0 a1 0 0 := by
    unfold u32 W; rw [Nat.shiftLeft_eq]; omega
  have e2 : u32 (a2 <<< 8) = W 0 0 a2 0 := by
    unfold u32 W; rw [Nat.shiftLeft_eq]; omega
  have e3 : a3 = W 0 0 0 a3 := by unfold W; omega
  have s1 : W a0 0 0 0 ||| W 0 a1 0 0 = W a0 a1 0 0 := by
    rw [W_or (by omega) (by omega) (by omega) h1 (by omega) (by omega)]; simp
  have s2 : W a0 a1 0 0 ||| W 0 0 a2 0 = W a0 a1 a2 0 := by
    rw [W_or h1 (by omega) (by omega) (by omega) h2 (by omega)]; simp
  have s3 : W a0 a1 a2 0 ||| W 0 0 0 a3 = W a0 a1 a2 a3 := by
    rw [W_or h1 h2 (by omega) (by omega) (by omega) h3]; simp
  unfold pack
  rw [e0, e1, e2, s1, s2]
  conv => lhs; rw [e3]
  exact s3

/-- Byte extraction as written in the C code. -/
theorem shr24_and (w : Nat) : (w >>> 24) &&& 0xFF = B0 w := by
  rw [and_255, Nat.shiftRight_eq_div_pow]; rfl
theorem shr16_and (w : Nat) : (w >>> 16) &&& 0xFF = B1 w := by
  rw [and_255, Nat.shiftRight_eq_div_pow]; rfl
theorem shr8_and (w : Nat) : (w >>> 8) &&& 0xFF = B2 w := by
  rw [and_255, Nat.shiftRight_eq_div_pow]; rfl
theorem and_ff (w : Nat) : w &&& 0xFF = B3 w := by
  rw [and_255]; rfl
theorem B3_shr8 (w : Nat) : B3 (w >>> 8) = B2 w := by
  rw [Nat.shiftRight_eq_div_pow]; rfl
theorem B3_shr16 (w : Nat) : B3 (w >>> 16) = B1 w := by
  rw [Nat.shiftRight_eq_div_pow]; rfl
theorem B3_shr24 (w : Nat) : B3 (w >>> 24) = B0 w := by
  rw [Nat.shiftRight_eq_div_pow]; rfl
theorem shr24 {w : Nat} (h : w < 2 ^ 32) : w >>> 24 = B0 w := by
  rw [Nat.shiftRight_eq_div_pow]; unfold B0; omega

/-! ## Doubling in GF(2^8) -/

theorem xor_mod_two_pow (a b n : Nat) : (a ^^^ b) % 2 ^ n = a % 2 ^ n ^^^ b % 2 ^ n := by
  apply Nat.eq_of_testBit_eq
  intro j
  simp only [Nat.testBit_mod_two_pow, Nat.testBit_xor]
  cases decide (j < n) <;> simp

theorem xor_div_two_pow (a b n : Nat) : (a ^^^ b) / 2 ^ n = a / 2 ^ n ^^^ b / 2 ^ n := by
  apply Nat.eq_of_testBit_eq
  intro j
  simp only [← Nat.shiftRight_eq_div_pow, Nat.testBit_shiftRight, Nat.testBit_xor]

theorem xor_left_comm (a b c : Nat) : a ^^^ (b ^^^ c) = b ^^^ (a ^^^ c) := by
  rw [← Nat.xor_assoc, Nat.xor_comm a b, Nat.xor_assoc]

theorem two_mul_xor (a b : Nat) : 2 * (a ^^^ b) = 2 * a ^^^ 2 * b := by
  have h := lane_xor 1 a 0 b 0 (by omega) (by omega)
  simpa using h.symm

theorem and_128 (x : Nat) : x &&& 0x80 = 128 * (x / 128 % 2) := by
  have h := Nat.and_two_pow x 7
  have e : x.testBit 7 = decide (x / 128 % 2 = 1) := Nat.testBit_to_div_mod
  rw [show (0x80 : Nat) = 2 ^ 7 from rfl, h, e]
  rcases Nat.mod_two_eq_zero_or_one (x / 128) with h0 | h1
  · simp [h0]
  · simp [h1]

theorem AES_xtime_eq (x : Nat) :
    AES_xtime x = 2 * (x % 128) ^^^ 27 * (x / 128 % 2) := by
  unfold AES_xtime u8 u32
  rw [and_128, Nat.shiftLeft_eq]
  rcases Nat.mod_two_eq_zero_or_one (x / 128) with h0 | h1
  · rw [h0]; simp; omega
  · rw [h1]
    simp only [Nat.mul_one, ne_eq, OfNat.ofNat_ne_zero, not_false_eq_true, ↓reduceIte]
    rw [xor_mod_two_pow _ _ 8]
    have : x * 2 ^ 1 % 2 ^ 32 % 2 ^ 8 = 2 * (x % 128) := by omega
    rw [this]
    rfl

theorem AES_xtime_lt (x : Nat) : AES_xtime x < 256 := by
  unfold AES_xtime u8; omega

theorem AES_xtime_xor (x y : Nat) : AES_xtime (x ^^^ y) = AES_xtime x ^^^ AES_xtime y := by
  rw [AES_xtime_eq, AES_xtime_eq x, AES_xtime_eq y]
  have e1 : (x ^^^ y) % 128 = x % 128 ^^^ y % 128 := xor_mod_two_pow x y 7
  have e2 : (x ^^^ y) / 128 = x / 128 ^^^ y / 128 := xor_div_two_pow x y 7
  have e3 : (x / 128 ^^^ y / 128) % 2 = x / 128 % 2 ^^^ y / 128 % 2 :=
    xor_mod_two_pow (x / 128) (y / 128) 1
  rw [e1, e2, e3, two_mul_xor]
  have hx := Nat.mod_two_eq_zero_or_one (x / 128)
  have hy := Nat.mod_two_eq_zero_or_one (y / 128)
  rcases hx with hx | hx <;> rcases hy with hy | hy <;> rw [hx, hy] <;>
    simp only [Nat.xor_assoc, Nat.xor_comm, xor_left_comm, Nat.xor_self, Nat.xor_cancel_left,
      Nat.xor_zero, Nat.zero_xor, Nat.mul_zero, Nat.mul_one]

theorem AES_xtime_zero : AES_xtime 0 = 0 := by decide

/-! ## The word macros on byte lanes -/

theorem mul2_lane : ∀ a < 256, ∀ c < 2,
    ((2 * a % 256 + c) &&& 0xfe) ^^^ ((127 * (a / 128)) &&& 0x1b) = AES_xtime a := by
  decide!

theorem and_128_byte : ∀ a < 256, a &&& 0x80 = 128 * (a / 128) := by decide!

theorem mul2_W {a0 a1 a2 a3 : Nat} (h0 : a0 < 256) (h1 : a1 < 256) (h2 : a2 < 256)
    (h3 : a3 < 256) :
    mul2 (W a0 a1 a2 a3) = W (AES_xtime a0) (AES_xtime a1) (AES_xtime a2) (AES_xtime a3) := by
  have hmt : mt = W 0x80 0x80 0x80 0x80 := by decide
  have hmh : mh = W 0xfe 0xfe 0xfe 0xfe := by decide
  have hmm : mm = W 0x1b 0x1b 0x1b 0x1b := by decide
  have e1 : u32 (W a0 a1 a2 a3 + W a0 a1 a2 a3) =
      W (2 * a0 % 256 + a1 / 128) (2 * a1 % 256 + a2 / 128) (2 * a2 % 256 + a3 / 128)
        (2 * a3 % 256 + 0) := by
    unfold u32 W; omega
  have e2 : W a0 a1 a2 a3 &&& mt =
      W (128 * (a0 / 128)) (128 * (a1 / 128)) (128 * (a2 / 128)) (128 * (a3 / 128)) := by
    rw [hmt, W_and h1 h2 h3 (by omega) (by omega) (by omega), and_128_byte a0 h0,
      and_128_byte a1 h1, and_128_byte a2 h2, and_128_byte a3 h3]
  have e3 : u32 (W (128 * (a0 / 128)) (128 * (a1 / 128)) (128 * (a2 / 128)) (128 * (a3 / 128)) -
      (W (128 * (a0 / 128)) (128 * (a1 / 128)) (128 * (a2 / 128)) (128 * (a3 / 128)) >>> 7)) =
      W (127 * (a0 / 128)) (127 * (a1 / 128)) (127 * (a2 / 128)) (127 * (a3 / 128)) := by
    rw [Nat.shiftRight_eq_div_pow]
    unfold u32 W; omega
  unfold mul2
  simp only []
  rw [e2, e3, e1, hmh, hmm,
    W_and (by omega) (by omega) (by omega) (by omega) (by omega) (by omega),
    W_and (by omega) (by omega) (by omega) (by omega) (by omega) (by omega),
    W_xor (Nat.lt_of_le_of_lt Nat.and_le_right (by omega))
      (Nat.lt_of_le_of_lt Nat.and_le_right (by omega))
      (Nat.lt_of_le_of_lt Nat.and_le_right (by omega))
      (Nat.lt_of_le_of_lt Nat.and_le_right (by omega))
      (Nat.lt_of_le_of_lt Nat.and_le_right (by omega))
      (Nat.lt_of_le_of_lt Nat.and_le_right (by omega)),
    mul2_lane a0 h0 _ (by omega), mul2_lane a1 h1 _ (by omega), mul2_lane a2 h2 _ (by omega),
    mul2_lane a3 h3 0 (by omega)]

theorem rot1_W {a0 a1 a2 a3 : Nat} (h0 : a0 < 256) (h1 : a1 < 256) (h2 : a2 < 256)
    (h3 : a3 < 256) : rot1 (W a0 a1 a2 a3) = W a3 a0 a1 a2 := by
  have e1 : u32 (W a0 a1 a2 a3 <<< 24) = W a3 0 0 0 := by
    rw [Nat.shiftLeft_eq]; unfold u32 W; omega
  have e2 : W a0 a1 a2 a3 >>> 8 = W 0 a0 a1 a2 := by
    rw [Nat.shiftRight_eq_div_pow]; unfold W; omega
  unfold rot1
  rw [e1, e2, W_or (by omega) (by omega) (by omega) h0 h1 h2]
  simp

theorem rot2_W {a0 a1 a2 a3 : Nat} (h0 : a0 < 256) (h1 : a1 < 256) (h2 : a2 < 256)
    (h3 : a3 < 256) : rot2 (W a0 a1 a2 a3) = W a2 a3 a0 a1 := by
  have e1 : u32 (W a0 a1 a2 a3 <<< 16) = W a2 a3 0 0 := by
    rw [Nat.shiftLeft_eq]; unfold u32 W; omega
  have e2 : W a0 a1 a2 a3 >>> 16 = W 0 0 a0 a1 := by
    rw [Nat.shiftRight_eq_div_pow]; unfold W; omega
  unfold rot2
  rw [e1, e2, W_or h3 (by omega) (by omega) (by omega) h0 h1]
  simp

theorem rot3_W {a0 a1 a2 a3 : Nat} (h0 : a0 < 256) (h1 : a1 < 256) (h2 : a2 < 256)
    (h3 : a3 < 256) : rot3 (W a0 a1 a2 a3) = W a1 a2 a3 a0 := by
  have e1 : u32 (W a0 a1 a2 a3 <<< 8) = W a1 a2 a3 0 := by
    rw [Nat.shiftLeft_eq]; unfold u32 W; omega
  have e2 : W a0 a1 a2 a3 >>> 24 = W 0 0 0 a0 := by
    rw [Nat.shiftRight_eq_div_pow]; unfold W; omega
  unfold rot3
  rw [e1, e2, W_or h2 h3 (by omega) (by omega) (by omega) h0]
  simp

theorem m9_lt (b : Nat) (h : b < 256) : m9 b < 256 :=
  xor_lt_256 (AES_xtime_lt _) h
theorem m11_lt (b : Nat) (h : b < 256) : m11 b < 256 :=
  xor_lt_256 (xor_lt_256 (AES_xtime_lt _) (AES_xtime_lt _)) h
theorem m13_lt (b : Nat) (h : b < 256) : m13 b < 256 :=
  xor_lt_256 (xor_lt_256 (AES_xtime_lt _) (AES_xtime_lt _)) h
theorem m14_lt (b : Nat) : m14 b < 256 :=
  xor_lt_256 (xor_lt_256 (AES_xtime_lt _) (AES_xtime_lt _)) (AES_xtime_lt _)

theorem inv_mix_col_W {b0 b1 b2 b3 : Nat} (h0 : b0 < 256) (h1 : b1 < 256) (h2 : b2 < 256)
    (h3 : b3 < 256) :
    inv_mix_col (W b0 b1 b2 b3) =
      W (imc0 b0 b1 b2 b3) (imc0 b1 b2 b3 b0) (imc0 b2 b3 b0 b1) (imc0 b3 b0 b1 b2) := by
  have x0 := AES_xtime_lt b0
  have x1 := AES_xtime_lt b1
  have x2 := AES_xtime_lt b2
  have x3 := AES_xtime_lt b3
  have y0 := AES_xtime_lt (AES_xtime b0)
  have y1 := AES_xtime_lt (AES_xtime b1)
  have y2 := AES_xtime_lt (AES_xtime b2)
  have y3 := AES_xtime_lt (AES_xtime b3)
  have z0 := AES_xtime_lt (AES_xtime (AES_xtime b0))
  have z1 := AES_xtime_lt (AES_xtime (AES_xtime b1))
  have z2 := AES_xtime_lt (AES_xtime (AES_xtime b2))
  have z3 := AES_xtime_lt (AES_xtime (AES_xtime b3))
  unfold inv_mix_col
  simp only []
  rw [mul2_W h0 h1 h2 h3, mul2_W x0 x1 x2 x3, mul2_W y0 y1 y2 y3]
  have f9 : W b0 b1 b2 b3 ^^^ W (AES_xtime (AES_xtime (AES_xtime b0)))
      (AES_xtime (AES_xtime (AES_xtime b1))) (AES_xtime (AES_xtime (AES_xtime b2)))
      (AES_xtime (AES_xtime (AES_xtime b3))) = W (m9 b0) (m9 b1) (m9 b2) (m9 b3) := by
    rw [W_xor h1 h2 h3 z1 z2 z3]
    simp only [m9, Nat.xor_comm]
  rw [f9]
  have n0 := m9_lt b0 h0
  have n1 := m9_lt b1 h1
  have n2 := m9_lt b2 h2
  have n3 := m9_lt b3 h3
  have f8 : W (AES_xtime b0) (AES_xtime b1) (AES_xtime b2) (AES_xtime b3) ^^^
      W (AES_xtime (AES_xtime b0)) (AES_xtime (AES_xtime b1)) (AES_xtime (AES_xtime b2))
        (AES_xtime (AES_xtime b3)) ^^^
      W (AES_xtime (AES_xtime (AES_xtime b0))) (AES_xtime (AES_xtime (AES_xtime b1)))
        (AES_xtime (AES_xtime (AES_xtime b2))) (AES_xtime (AES_xtime (AES_xtime b3))) =
      W (m14 b0) (m14 b1) (m14 b2) (m14 b3) := by
    rw [W_xor x1 x2 x3 y1 y2 y3, W_xor (xor_lt_256 x1 y1) (xor_lt_256 x2 y2)
      (xor_lt_256 x3 y3) z1 z2 z3]
    simp only [m14, Nat.xor_assoc, Nat.xor_comm, xor_left_comm]
  rw [f8]
  have f2 : W (AES_xtime b0) (AES_xtime b1) (AES_xtime b2) (AES_xtime b3) ^^^
      W (m9 b0) (m9 b1) (m9 b2) (m9 b3) = W (m11 b0) (m11 b1) (m11 b2) (m11 b3) := by
    rw [W_xor x1 x2 x3 n1 n2 n3]
    simp only [m9, m11, Nat.xor_assoc, Nat.xor_comm, xor_left_comm]
  have f4 : W (AES_xtime (AES_xtime b0)) (AES_xtime (AES_xtime b1)) (AES_xtime (AES_xtime b2))
        (AES_xtime (AES_xtime b3)) ^^^
      W (m9 b0) (m9 b1) (m9 b2) (m9 b3) = W (m13 b0) (m13 b1) (m13 b2) (m13 b3) := by
    rw [W_xor y1 y2 y3 n1 n2 n3]
    simp only [m9, m13, Nat.xor_assoc, Nat.xor_comm, xor_left_comm]
  rw [f2, f4, rot3_W (m11_lt b0 h0) (m11_lt b1 h1) (m11_lt b2 h2) (m11_lt b3 h3),
    rot2_W (m13_lt b0 h0) (m13_lt b1 h1) (m13_lt b2 h2) (m13_lt b3 h3),
    rot1_W n0 n1 n2 n3,
    W_xor (m14_lt _) (m14_lt _) (m14_lt _) (m11_lt b2 h2) (m11_lt b3 h3) (m11_lt b0 h0),
    W_xor (xor_lt_256 (m14_lt _) (m11_lt b2 h2)) (xor_lt_256 (m14_lt _) (m11_lt b3 h3))
      (xor_lt_256 (m14_lt _) (m11_lt b0 h0)) (m13_lt b3 h3) (m13_lt b0 h0) (m13_lt b1 h1),
    W_xor (xor_lt_256 (xor_lt_256 (m14_lt _) (m11_lt b2 h2)) (m13_lt b3 h3))
      (xor_lt_256 (xor_lt_256 (m14_lt _) (m11_lt b3 h3)) (m13_lt b0 h0))
      (xor_lt_256 (xor_lt_256 (m14_lt _) (m11_lt b0 h0)) (m13_lt b1 h1)) n0 n1 n2]
  simp only [imc0, Nat.xor_assoc, Nat.xor_comm, xor_left_comm]

/-! ## Table generation -/

theorem setMany_indep (ws : List (Nat × Nat)) : ∀ (s s' : List Nat), s.length = s'.length →
    ∀ j, (j ∈ ws.map Prod.fst ∨ s[j]? = s'[j]?) → (setMany s ws)[j]? = (setMany s' ws)[j]? := by
  induction ws with
  | nil => intro s s' _ j h; simpa [setMany] using h
  | cons w ws ih =>
    intro s s' hl j h
    have e : ∀ t : List Nat, setMany t (w :: ws) = setMany (t.set w.1 w.2) ws := fun _ => rfl
    rw [e, e]
    apply ih _ _ (by simp [hl])
    by_cases hj : w.1 = j
    · right; simp [List.getElem?_set, hj, hl]
    · rcases h with h | h
      · left
        simp only [List.map_cons, List.mem_cons] at h
        rcases h with h | h
        · exact absurd h.symm hj
        · exact h
      · right; simp [List.getElem?_set, hj, h]

theorem setMany_eq (ws : List (Nat × Nat)) (s s' : List Nat) (hs : s.length = 256)
    (hs' : s'.length = 256) (hw : ∀ j < 256, j ∈ ws.map Prod.fst) :
    setMany s ws = setMany s' ws := by
  apply List.ext_getElem?
  intro j
  apply setMany_indep ws s s' (by rw [hs, hs'])
  by_cases hj : j < 256
  · exact Or.inl (hw j hj)
  · right
    rw [List.getElem?_eq_none (by omega), List.getElem?_eq_none (by omega)]

theorem sboxLoop_eq (t : List Nat) : ∀ n i s, sboxLoop t n i s = setMany s (sboxWrites t n i) := by
  intro n
  induction n with
  | zero => intro i s; rfl
  | succ n ih => intro i s; simp only [sboxLoop, sboxWrites]; rw [ih]; rfl

theorem isboxLoop_eq (sb : List Nat) :
    ∀ n i s, isboxLoop sb n i s = setMany s (isboxWrites sb n i) := by
  intro n
  induction n with
  | zero => intro i s; rfl
  | succ n ih => intro i s; simp only [isboxLoop, isboxWrites]; rw [ih]; rfl

theorem setMany_cons (s : List Nat) (w : Nat × Nat) (ws : List (Nat × Nat)) :
    setMany (s.set w.1 w.2) ws = setMany s (w :: ws) := rfl

theorem sbox_zero :
    setMany (List.replicate 256 0) ((0, 0x63) :: sboxWrites (genT 256 1) 255 0) = sboxTable := by
  decide!

theorem isbox_zero :
    setMany (List.replicate 256 0) (isboxWrites sboxTable 256 0) = isboxTable := by
  decide!

theorem writeMask_testBit (ws : List (Nat × Nat)) (j : Nat) :
    (writeMask ws).testBit j = true → j ∈ ws.map Prod.fst := by
  induction ws with
  | nil => simp [writeMask]
  | cons w ws ih =>
    intro h
    have e : writeMask (w :: ws) = writeMask ws ||| (1 <<< w.1) := rfl
    rw [e, Nat.testBit_or, Nat.one_shiftLeft, Nat.testBit_two_pow] at h
    simp only [List.map_cons, List.mem_cons]
    rcases Bool.or_eq_true_iff.mp h with h | h
    · exact Or.inr (ih h)
    · exact Or.inl (of_decide_eq_true h).symm

theorem cover_of_mask (ws : List (Nat × Nat)) (h : writeMask ws = 2 ^ 256 - 1) :
    ∀ j < 256, j ∈ ws.map Prod.fst := by
  intro j hj
  apply writeMask_testBit
  rw [h, Nat.testBit_two_pow_sub_one]
  exact decide_eq_true hj

theorem sbox_mask :
    writeMask ((0, 0x63) :: sboxWrites (genT 256 1) 255 0) = 2 ^ 256 - 1 := by
  decide!

theorem isbox_mask : writeMask (isboxWrites sboxTable 256 0) = 2 ^ 256 - 1 := by
  decide!

theorem sbox_cover :
    ∀ j < 256, j ∈ (((0, 0x63) :: sboxWrites (genT 256 1) 255 0).map Prod.fst) :=
  cover_of_mask _ sbox_mask

theorem isbox_cover : ∀ j < 256, j ∈ ((isboxWrites sboxTable 256 0).map Prod.fst) :=
  cover_of_mask _ isbox_mask

theorem replicate_len : (List.replicate 256 0).length = 256 := List.length_replicate 256 0

theorem AES_generateSBox_eq (g : Tables) (h1 : g.aes_sbox.length = 256)
    (h2 : g.aes_isbox.length = 256) : AES_generateSBox g = genTables := by
  have e1 : sboxLoop (genT 256 1) 255 0 (g.aes_sbox.set 0 0x63) = sboxTable :=
    (sboxLoop_eq (genT 256 1) 255 0 (g.aes_sbox.set 0 0x63)).trans
      ((setMany_cons g.aes_sbox (0, 0x63) (sboxWrites (genT 256 1) 255 0)).trans
        ((setMany_eq ((0, 0x63) :: sboxWrites (genT 256 1) 255 0) g.aes_sbox
          (List.replicate 256 0) h1 replicate_len sbox_cover).trans sbox_zero))
  have e2 : isboxLoop sboxTable 256 0 g.aes_isbox = isboxTable :=
    (isboxLoop_eq sboxTable 256 0 g.aes_isbox).trans
      ((setMany_eq (isboxWrites sboxTable 256 0) g.aes_isbox
          (List.replicate 256 0) h2 replicate_len isbox_cover).trans isbox_zero)
  have e3 : AES_generateSBox g =
      { aes_sbox := sboxLoop (genT 256 1) 255 0 (g.aes_sbox.set 0 0x63),
        aes_isbox := isboxLoop (sboxLoop (genT 256 1) 255 0 (g.aes_sbox.set 0 0x63)) 256 0
          g.aes_isbox } := rfl
  rw [e3, e1, e2]
  rfl

/-! ## Column mixing -/

theorem mc0_lt {a0 a1 a2 a3 : Nat} (h1 : a1 < 256) (h2 : a2 < 256) (h3 : a3 < 256) :
    mc0 a0 a1 a2 a3 < 256 :=
  xor_lt_256 (xor_lt_256 (xor_lt_256 (AES_xtime_lt _) (xor_lt_256 (AES_xtime_lt _) h1)) h2) h3

theorem imc0_lt {b0 b1 b2 b3 : Nat} (h1 : b1 < 256) (h2 : b2 < 256) (h3 : b3 < 256) :
    imc0 b0 b1 b2 b3 < 256 :=
  xor_lt_256 (xor_lt_256 (xor_lt_256 (m14_lt _) (m11_lt _ h1)) (m13_lt _ h2)) (m9_lt _ h3)

/-- The byte update written in `AES_encrypt` is the column mix. -/
theorem enc_mix_byte (a0 a1 a2 a3 : Nat) :
    a0 ^^^ ((a0 ^^^ a1 ^^^ a2 ^^^ a3) ^^^ AES_xtime (a0 ^^^ a1)) = mc0 a0 a1 a2 a3 := by
  simp only [mc0, AES_xtime_xor, Nat.xor_assoc, Nat.xor_comm, xor_left_comm, Nat.xor_self,
    Nat.xor_cancel_left, Nat.xor_zero, Nat.zero_xor]

theorem enc_mix_byte1 (a0 a1 a2 a3 : Nat) :
    a1 ^^^ ((a0 ^^^ a1 ^^^ a2 ^^^ a3) ^^^ AES_xtime (a1 ^^^ a2)) = mc0 a1 a2 a3 a0 := by
  simp only [mc0, AES_xtime_xor, Nat.xor_assoc, Nat.xor_comm, xor_left_comm, Nat.xor_self,
    Nat.xor_cancel_left, Nat.xor_zero, Nat.zero_xor]

theorem enc_mix_byte2 (a0 a1 a2 a3 : Nat) :
    a2 ^^^ ((a0 ^^^ a1 ^^^ a2 ^^^ a3) ^^^ AES_xtime (a2 ^^^ a3)) = mc0 a2 a3 a0 a1 := by
  simp only [mc0, AES_xtime_xor, Nat.xor_assoc, Nat.xor_comm, xor_left_comm, Nat.xor_self,
    Nat.xor_cancel_left, Nat.xor_zero, Nat.zero_xor]

theorem enc_mix_byte3 (a0 a1 a2 a3 : Nat) :
    a3 ^^^ ((a0 ^^^ a1 ^^^ a2 ^^^ a3) ^^^ AES_xtime (a3 ^^^ a0)) = mc0 a3 a0 a1 a2 := by
  simp only [mc0, AES_xtime_xor, Nat.xor_assoc, Nat.xor_comm, xor_left_comm, Nat.xor_self,
    Nat.xor_cancel_left, Nat.xor_zero, Nat.zero_xor]

/-- The byte computed by the inline inverse mix of `AES_decrypt`. -/
theorem dec_mix_byte (a0 a1 a2 a3 : Nat) :
    AES_xtime (a0 ^^^ a1) ^^^ (a1 ^^^ a2 ^^^ a3 ^^^
      AES_xtime (AES_xtime (a0 ^^^ a1) ^^^ AES_xtime (a1 ^^^ a2)) ^^^
      AES_xtime (AES_xtime (AES_xtime (a0 ^^^ a1) ^^^ AES_xtime (a1 ^^^ a2)) ^^^
        AES_xtime (AES_xtime (a1 ^^^ a2) ^^^ AES_xtime (a2 ^^^ a3)))) = imc0 a0 a1 a2 a3 := by
  simp only [imc0, m9, m11, m13, m14, AES_xtime_xor, Nat.xor_assoc, Nat.xor_comm, xor_left_comm,
    Nat.xor_self, Nat.xor_cancel_left, Nat.xor_zero, Nat.zero_xor]

theorem dec_mix_byte1 (a0 a1 a2 a3 : Nat) :
    AES_xtime (a1 ^^^ a2) ^^^ (a0 ^^^ a2 ^^^ a3 ^^^
      AES_xtime (AES_xtime (a1 ^^^ a2) ^^^ AES_xtime (a2 ^^^ a3)) ^^^
      AES_xtime (AES_xtime (AES_xtime (a0 ^^^ a1) ^^^ AES_xtime (a1 ^^^ a2)) ^^^
        AES_xtime (AES_xtime (a1 ^^^ a2) ^^^ AES_xtime (a2 ^^^ a3)))) = imc0 a1 a2 a3 a0 := by
  simp only [imc0, m9, m11, m13, m14, AES_xtime_xor, Nat.xor_assoc, Nat.xor_comm, xor_left_comm,
    Nat.xor_self, Nat.xor_cancel_left, Nat.xor_zero, Nat.zero_xor]

theorem dec_mix_byte2 (a0 a1 a2 a3 : Nat) :
    AES_xtime (a2 ^^^ a3) ^^^ (a0 ^^^ a1 ^^^ a3 ^^^
      AES_xtime (AES_xtime (a0 ^^^ a1) ^^^ AES_xtime (a1 ^^^ a2)) ^^^
      AES_xtime (AES_xtime (AES_xtime (a0 ^^^ a1) ^^^ AES_xtime (a1 ^^^ a2)) ^^^
        AES_xtime (AES_xtime (a1 ^^^ a2) ^^^ AES_xtime (a2 ^^^ a3)))) = imc0 a2 a3 a0 a1 := by
  simp only [imc0, m9, m11, m13, m14, AES_xtime_xor, Nat.xor_assoc, Nat.xor_comm, xor_left_comm,
    Nat.xor_self, Nat.xor_cancel_left, Nat.xor_zero, Nat.zero_xor]

theorem dec_mix_byte3 (a0 a1 a2 a3 : Nat) :
    AES_xtime (a3 ^^^ a0) ^^^ (a0 ^^^ a1 ^^^ a2 ^^^
      AES_xtime (AES_xtime (a1 ^^^ a2) ^^^ AES_xtime (a2 ^^^ a3)) ^^^
      AES_xtime (AES_xtime (AES_xtime (a0 ^^^ a1) ^^^ AES_xtime (a1 ^^^ a2)) ^^^
        AES_xtime (AES_xtime (a1 ^^^ a2) ^^^ AES_xtime (a2 ^^^ a3)))) = imc0 a3 a0 a1 a2 := by
  simp only [imc0, m9, m11, m13, m14, AES_xtime_xor, Nat.xor_assoc, Nat.xor_comm, xor_left_comm,
    Nat.xor_self, Nat.xor_cancel_left, Nat.xor_zero, Nat.zero_xor]

theorem m9_xor (a b : Nat) : m9 (a ^^^ b) = m9 a ^^^ m9 b := by
  simp only [m9, AES_xtime_xor]; ac_rfl

theorem m11_xor (a b : Nat) : m11 (a ^^^ b) = m11 a ^^^ m11 b := by
  simp only [m11, AES_xtime_xor]; ac_rfl

theorem m13_xor (a b : Nat) : m13 (a ^^^ b) = m13 a ^^^ m13 b := by
  simp only [m13, AES_xtime_xor]; ac_rfl

theorem m14_xor (a b : Nat) : m14 (a ^^^ b) = m14 a ^^^ m14 b := by
  simp only [m14, AES_xtime_xor]; ac_rfl

theorem imc0_xor (a0 a1 a2 a3 b0 b1 b2 b3 : Nat) :
    imc0 (a0 ^^^ b0) (a1 ^^^ b1) (a2 ^^^ b2) (a3 ^^^ b3) =
      imc0 a0 a1 a2 a3 ^^^ imc0 b0 b1 b2 b3 := by
  simp only [imc0, m9_xor, m11_xor, m13_xor, m14_xor]; ac_rfl

theorem imc0_unit0 (a : Nat) : imc0 (AES_xtime a) a a (AES_xtime a ^^^ a) = a := by
  simp only [imc0, m9, m11, m13, m14, AES_xtime_xor, Nat.xor_assoc, Nat.xor_comm,
    xor_left_comm, Nat.xor_self, Nat.xor_cancel_left, Nat.xor_zero, Nat.zero_xor]

theorem imc0_unit1 (a : Nat) : imc0 (AES_xtime a ^^^ a) (AES_xtime a) a a = 0 := by
  simp only [imc0, m9, m11, m13, m14, AES_xtime_xor, Nat.xor_assoc, Nat.xor_comm,
    xor_left_comm, Nat.xor_self, Nat.xor_cancel_left, Nat.xor_zero, Nat.zero_xor]

theorem imc0_unit2 (a : Nat) : imc0 a (AES_xtime a ^^^ a) (AES_xtime a) a = 0 := by
  simp only [imc0, m9, m11, m13, m14, AES_xtime_xor, Nat.xor_assoc, Nat.xor_comm,
    xor_left_comm, Nat.xor_self, Nat.xor_cancel_left, Nat.xor_zero, Nat.zero_xor]

theorem imc0_unit3 (a : Nat) : imc0 a a (AES_xtime a ^^^ a) (AES_xtime a) = 0 := by
  simp only [imc0, m9, m11, m13, m14, AES_xtime_xor, Nat.xor_assoc, Nat.xor_comm,
    xor_left_comm, Nat.xor_self, Nat.xor_cancel_left, Nat.xor_zero, Nat.zero_xor]

theorem imc0_mc0 (a0 a1 a2 a3 : Nat) :
    imc0 (mc0 a0 a1 a2 a3) (mc0 a1 a2 a3 a0) (mc0 a2 a3 a0 a1) (mc0 a3 a0 a1 a2) = a0 := by
  have c0 : mc0 a0 a1 a2 a3 = AES_xtime a0 ^^^ (AES_xtime a1 ^^^ a1) ^^^ a2 ^^^ a3 := rfl
  have c1 : mc0 a1 a2 a3 a0 = a0 ^^^ AES_xtime a1 ^^^ (AES_xtime a2 ^^^ a2) ^^^ a3 := by
    unfold mc0; ac_rfl
  have c2 : mc0 a2 a3 a0 a1 = a0 ^^^ a1 ^^^ AES_xtime a2 ^^^ (AES_xtime a3 ^^^ a3) := by
    unfold mc0; ac_rfl
  have c3 : mc0 a3 a0 a1 a2 = (AES_xtime a0 ^^^ a0) ^^^ a1 ^^^ a2 ^^^ AES_xtime a3 := by
    unfold mc0; ac_rfl
  rw [c0, c1, c2, c3, imc0_xor, imc0_xor, imc0_xor, imc0_unit0, imc0_unit1, imc0_unit2,
    imc0_unit3]
  simp

/-! ## Rounds on blocks of four words -/

theorem B0_xor (x y : Nat) : B0 (x ^^^ y) = B0 x ^^^ B0 y := by
  unfold B0; rw [xor_div_two_pow, show (256 : Nat) = 2 ^ 8 from rfl, xor_mod_two_pow]
theorem B1_xor (x y : Nat) : B1 (x ^^^ y) = B1 x ^^^ B1 y := by
  unfold B1; rw [xor_div_two_pow, show (256 : Nat) = 2 ^ 8 from rfl, xor_mod_two_pow]
theorem B2_xor (x y : Nat) : B2 (x ^^^ y) = B2 x ^^^ B2 y := by
  unfold B2; rw [xor_div_two_pow, show (256 : Nat) = 2 ^ 8 from rfl, xor_mod_two_pow]
theorem B3_xor (x y : Nat) : B3 (x ^^^ y) = B3 x ^^^ B3 y := by
  unfold B3; rw [show (256 : Nat) = 2 ^ 8 from rfl, xor_mod_two_pow]

theorem imixW_xor (x y : Nat) : imixW (x ^^^ y) = imixW x ^^^ imixW y := by
  unfold imixW
  rw [W_xor (imc0_lt (B2_lt _) (B3_lt _) (B0_lt _)) (imc0_lt (B3_lt _) (B0_lt _) (B1_lt _))
    (imc0_lt (B0_lt _) (B1_lt _) (B2_lt _)) (imc0_lt (B2_lt _) (B3_lt _) (B0_lt _))
    (imc0_lt (B3_lt _) (B0_lt _) (B1_lt _)) (imc0_lt (B0_lt _) (B1_lt _) (B2_lt _))]
  simp only [B0_xor, B1_xor, B2_xor, B3_xor, imc0_xor]

theorem mixW_lt (x : Nat) : mixW x < 2 ^ 32 :=
  W_lt (mc0_lt (B1_lt _) (B2_lt _) (B3_lt _)) (mc0_lt (B2_lt _) (B3_lt _) (B0_lt _))
    (mc0_lt (B3_lt _) (B0_lt _) (B1_lt _)) (mc0_lt (B0_lt _) (B1_lt _) (B2_lt _))

theorem imixW_lt (x : Nat) : imixW x < 2 ^ 32 :=
  W_lt (imc0_lt (B1_lt _) (B2_lt _) (B3_lt _)) (imc0_lt (B2_lt _) (B3_lt _) (B0_lt _))
    (imc0_lt (B3_lt _) (B0_lt _) (B1_lt _)) (imc0_lt (B0_lt _) (B1_lt _) (B2_lt _))

theorem imixW_mixW {x : Nat} (h : x < 2 ^ 32) : imixW (mixW x) = x := by
  have c0 := @mc0_lt (B0 x) _ _ _ (B1_lt x) (B2_lt x) (B3_lt x)
  have c1 := @mc0_lt (B1 x) _ _ _ (B2_lt x) (B3_lt x) (B0_lt x)
  have c2 := @mc0_lt (B2 x) _ _ _ (B3_lt x) (B0_lt x) (B1_lt x)
  have c3 := @mc0_lt (B3 x) _ _ _ (B0_lt x) (B1_lt x) (B2_lt x)
  unfold imixW
  simp only [mixW, B0_W c0 c1 c2 c3, B1_W c1 c2 c3, B2_W c2 c3, B3_W c3, imc0_mc0]
  exact W_bytes h

theorem inv_mix_col_eq {x : Nat} (h : x < 2 ^ 32) : inv_mix_col x = imixW x := by
  conv_lhs => rw [← W_bytes h]
  rw [inv_mix_col_W (B0_lt x) (B1_lt x) (B2_lt x) (B3_lt x)]
  rfl

theorem block_cases {d : List Nat} (h : Block d) :
    ∃ d0 d1 d2 d3, d = [d0, d1, d2, d3] ∧ d0 < 2 ^ 32 ∧ d1 < 2 ^ 32 ∧ d2 < 2 ^ 32 ∧
      d3 < 2 ^ 32 := by
  obtain ⟨hl, hb⟩ := h
  match d, hl with
  | [d0, d1, d2, d3], _ =>
    exact ⟨d0, d1, d2, d3, rfl, hb d0 (by simp), hb d1 (by simp), hb d2 (by simp),
      hb d3 (by simp)⟩

theorem block_mk {d0 d1 d2 d3 : Nat} (h0 : d0 < 2 ^ 32) (h1 : d1 < 2 ^ 32) (h2 : d2 < 2 ^ 32)
    (h3 : d3 < 2 ^ 32) : Block [d0, d1, d2, d3] := by
  refine ⟨rfl, ?_⟩
  intro x hx
  simp only [List.mem_cons, List.mem_singleton, List.not_mem_nil, or_false] at hx
  rcases hx with rfl | rfl | rfl | rfl <;> assumption

theorem subq_lt {t : List Nat} (ht : ∀ x < 256, t.getD x 0 < 256) (x0 x1 x2 x3 : Nat) :
    subq t x0 x1 x2 x3 < 2 ^ 32 :=
  W_lt (ht _ (B0_lt _)) (ht _ (B1_lt _)) (ht _ (B2_lt _)) (ht _ (B3_lt _))

theorem SS_block {g : Tables} (hg : TablesOK g) (d : List Nat) : Block (SS g d) :=
  block_mk (subq_lt (fun x hx => (hg x hx).1) _ _ _ _) (subq_lt (fun x hx => (hg x hx).1) _ _ _ _)
    (subq_lt (fun x hx => (hg x hx).1) _ _ _ _) (subq_lt (fun x hx => (hg x hx).1) _ _ _ _)

theorem ISS_block {g : Tables} (hg : TablesOK g) (d : List Nat) : Block (ISS g d) :=
  block_mk (subq_lt (fun x hx => (hg x hx).2.1) _ _ _ _)
    (subq_lt (fun x hx => (hg x hx).2.1) _ _ _ _)
    (subq_lt (fun x hx => (hg x hx).2.1) _ _ _ _) (subq_lt (fun x hx => (hg x hx).2.1) _ _ _ _)

theorem XK_block {ks : Nat → Nat} {k : Nat} {d : List Nat} (hd : Block d)
    (hk : ∀ j < 4, ks (k + j) < 2 ^ 32) : Block (XK ks k d) := by
  obtain ⟨d0, d1, d2, d3, rfl, h0, h1, h2, h3⟩ := block_cases hd
  exact block_mk (xor_lt_32 h0 (hk 0 (by omega))) (xor_lt_32 h1 (hk 1 (by omega)))
    (xor_lt_32 h2 (hk 2 (by omega))) (xor_lt_32 h3 (hk 3 (by omega)))

theorem map_block {f : Nat → Nat} (hf : ∀ x, f x < 2 ^ 32) {d : List Nat} (hd : Block d) :
    Block (d.map f) := by
  obtain ⟨d0, d1, d2, d3, rfl, -⟩ := block_cases hd
  exact block_mk (hf _) (hf _) (hf _) (hf _)

theorem ISS_SS {g : Tables} (hg : TablesOK g) {d : List Nat} (hd : Block d) :
    ISS g (SS g d) = d := by
  obtain ⟨d0, d1, d2, d3, rfl, h0, h1, h2, h3⟩ := block_cases hd
  have hs : ∀ x < 256, g.aes_sbox.getD x 0 < 256 := fun x hx => (hg x hx).1
  have hi : ∀ x < 256, g.aes_isbox.getD (g.aes_sbox.getD x 0) 0 = x := fun x hx => (hg x hx).2.2
  simp only [ISS, SS, List.getD_cons_zero, List.getD_cons_succ, subq,
    B0_W (hs _ (B0_lt _)) (hs _ (B1_lt _)) (hs _ (B2_lt _)) (hs _ (B3_lt _)),
    B1_W (hs _ (B1_lt _)) (hs _ (B2_lt _)) (hs _ (B3_lt _)),
    B2_W (hs _ (B2_lt _)) (hs _ (B3_lt _)), B3_W (hs _ (B3_lt _)),
    hi _ (B0_lt _), hi _ (B1_lt _), hi _ (B2_lt _), hi _ (B3_lt _),
    W_bytes h0, W_bytes h1, W_bytes h2, W_bytes h3]

theorem mixW_subq {t : List Nat} (ht : ∀ x < 256, t.getD x 0 < 256) (x0 x1 x2 x3 : Nat) :
    mixW (subq t x0 x1 x2 x3) =
      W (mc0 (t.getD (B0 x0) 0) (t.getD (B1 x1) 0) (t.getD (B2 x2) 0) (t.getD (B3 x3) 0))
        (mc0 (t.getD (B1 x1) 0) (t.getD (B2 x2) 0) (t.getD (B3 x3) 0) (t.getD (B0 x0) 0))
        (mc0 (t.getD (B2 x2) 0) (t.getD (B3 x3) 0) (t.getD (B0 x0) 0) (t.getD (B1 x1) 0))
        (mc0 (t.getD (B3 x3) 0) (t.getD (B0 x0) 0) (t.getD (B1 x1) 0) (t.getD (B2 x2) 0)) := by
  have h0 := ht _ (B0_lt x0)
  have h1 := ht _ (B1_lt x1)
  have h2 := ht _ (B2_lt x2)
  have h3 := ht _ (B3_lt x3)
  unfold mixW subq
  rw [B0_W h0 h1 h2 h3, B1_W h1 h2 h3, B2_W h2 h3, B3_W h3]

theorem imixW_subq {t : List Nat} (ht : ∀ x < 256, t.getD x 0 < 256) (x0 x1 x2 x3 : Nat) :
    imixW (subq t x0 x1 x2 x3) =
      W (imc0 (t.getD (B0 x0) 0) (t.getD (B1 x1) 0) (t.getD (B2 x2) 0) (t.getD (B3 x3) 0))
        (imc0 (t.getD (B1 x1) 0) (t.getD (B2 x2) 0) (t.getD (B3 x3) 0) (t.getD (B0 x0) 0))
        (imc0 (t.getD (B2 x2) 0) (t.getD (B3 x3) 0) (t.getD (B0 x0) 0) (t.getD (B1 x1) 0))
        (imc0 (t.getD (B3 x3) 0) (t.getD (B0 x0) 0) (t.getD (B1 x1) 0) (t.getD (B2 x2) 0)) := by
  have h0 := ht _ (B0_lt x0)
  have h1 := ht _ (B1_lt x1)
  have h2 := ht _ (B2_lt x2)
  have h3 := ht _ (B3_lt x3)
  unfold imixW subq
  rw [B0_W h0 h1 h2 h3, B1_W h1 h2 h3, B2_W h2 h3, B3_W h3]

theorem encRow_eq {g : Tables} (hs : ∀ x < 256, g.aes_sbox.getD x 0 < 256)
    (rounds r : Nat) (d : List Nat) (row : Nat) :
    encRow g rounds r d row =
      if r < rounds - 1 then
        mixW (subq g.aes_sbox (d.getD (row % 4) 0) (d.getD ((row + 1) % 4) 0)
          (d.getD ((row + 2) % 4) 0) (d.getD ((row + 3) % 4) 0))
      else subq g.aes_sbox (d.getD (row % 4) 0) (d.getD ((row + 1) % 4) 0)
          (d.getD ((row + 2) % 4) 0) (d.getD ((row + 3) % 4) 0) := by
  have h0 := hs _ (B0_lt (d.getD (row % 4) 0))
  have h1 := hs _ (B1_lt (d.getD ((row + 1) % 4) 0))
  have h2 := hs _ (B2_lt (d.getD ((row + 2) % 4) 0))
  have h3 := hs _ (B3_lt (d.getD ((row + 3) % 4) 0))
  unfold encRow
  simp only [shr24_and, shr16_and, shr8_and]
  rw [and_ff, enc_mix_byte, enc_mix_byte1, enc_mix_byte2, enc_mix_byte3, mixW_subq hs,
    pack_eq_W (mc0_lt h1 h2 h3) (mc0_lt h2 h3 h0) (mc0_lt h3 h0 h1) (mc0_lt h0 h1 h2),
    pack_eq_W h0 h1 h2 h3]
  rfl

theorem decRow_eq {g : Tables} (hs : ∀ x < 256, g.aes_isbox.getD x 0 < 256)
    (rounds r : Nat) (d : List Nat) (row : Nat) :
    decRow g rounds r d row =
      if r < rounds - 1 then
        imixW (subq g.aes_isbox (d.getD ((row + 3) % 4) 0) (d.getD ((row + 2) % 4) 0)
          (d.getD ((row + 1) % 4) 0) (d.getD (row % 4) 0))
      else subq g.aes_isbox (d.getD ((row + 3) % 4) 0) (d.getD ((row + 2) % 4) 0)
          (d.getD ((row + 1) % 4) 0) (d.getD (row % 4) 0) := by
  have h0 := hs _ (B0_lt (d.getD ((row + 3) % 4) 0))
  have h1 := hs _ (B1_lt (d.getD ((row + 2) % 4) 0))
  have h2 := hs _ (B2_lt (d.getD ((row + 1) % 4) 0))
  have h3 := hs _ (B3_lt (d.getD (row % 4) 0))
  unfold decRow
  simp only [shr24_and, shr16_and, shr8_and]
  rw [and_ff, dec_mix_byte, dec_mix_byte1, dec_mix_byte2, dec_mix_byte3, imixW_subq hs,
    pack_eq_W (imc0_lt h1 h2 h3) (imc0_lt h2 h3 h0) (imc0_lt h3 h0 h1) (imc0_lt h0 h1 h2),
    pack_eq_W h0 h1 h2 h3]
  rfl

theorem encRound_eq {g : Tables} (hg : TablesOK g) (ctx : AES_CTX) (r k : Nat) (d : List Nat) :
    encRound g ctx r k d =
      XK ctx.ks k (if r < ctx.rounds - 1 then (SS g d).map mixW else SS g d) := by
  have hs : ∀ x < 256, g.aes_sbox.getD x 0 < 256 := fun x hx => (hg x hx).1
  unfold encRound
  simp only [encRow_eq hs]
  by_cases hr : r < ctx.rounds - 1
  · simp only [hr, if_true]; rfl
  · simp only [hr, if_false]; rfl

theorem decRound_eq {g : Tables} (hg : TablesOK g) (ctx : AES_CTX) (r k : Nat) (d : List Nat)
    (hk : 4 ≤ k) :
    decRound g ctx r k d =
      XK ctx.ks (k - 4) (if r < ctx.rounds - 1 then (ISS g d).map imixW else ISS g d) := by
  have hs : ∀ x < 256, g.aes_isbox.getD x 0 < 256 := fun x hx => (hg x hx).2.1
  have e3 : k - 3 = k - 4 + 1 := by omega
  have e2 : k - 2 = k - 4 + 2 := by omega
  have e1 : k - 1 = k - 4 + 3 := by omega
  unfold decRound
  simp only [decRow_eq hs]
  rw [e1, e2, e3]
  by_cases hr : r < ctx.rounds - 1
  · simp only [hr, if_true]; rfl
  · simp only [hr, if_false]; rfl

/-! ## Decryption undoes encryption on word blocks -/

theorem convertLoop_spec : ∀ (n k : Nat) (ks : Nat → Nat) (j : Nat),
    convertLoop n k ks j = if k ≤ j ∧ j < k + n then inv_mix_col (ks j) else ks j := by
  intro n
  induction n with
  | zero =>
    intro k ks j
    have h : ¬ (k ≤ j ∧ j < k + 0) := by omega
    rw [if_neg h]; rfl
  | succ n ih =>
    intro k ks j
    rw [convertLoop, ih]
    by_cases hj : j = k
    · subst hj
      have h1 : ¬ (j + 1 ≤ j ∧ j < j + 1 + n) := by omega
      have h2 : j ≤ j ∧ j < j + (n + 1) := by omega
      rw [if_neg h1, if_pos h2, upd_same]
    · rw [upd_other _ _ hj]
      by_cases h : k ≤ j ∧ j < k + (n + 1)
      · have h1 : k + 1 ≤ j ∧ j < k + 1 + n := by omega
        rw [if_pos h, if_pos h1]
      · have h1 : ¬ (k + 1 ≤ j ∧ j < k + 1 + n) := by omega
        rw [if_neg h, if_neg h1]

theorem AES_convert_key_ks (ctx : AES_CTX) (j : Nat) :
    (AES_convert_key ctx).ks j =
      if 4 ≤ j ∧ j < 4 + (ctx.rounds * 4 - 4) then inv_mix_col (ctx.ks j) else ctx.ks j :=
  convertLoop_spec _ _ _ _

theorem encRounds_state (g : Tables) (ctx : AES_CTX) (data : List Nat) :
    ∀ n cur, encRounds g ctx n cur (4 * (cur + 1)) (encState g ctx data cur) =
      encState g ctx data (cur + n) := by
  intro n
  induction n with
  | zero => intro cur; rfl
  | succ n ih =>
    intro cur
    rw [encRounds, show 4 * (cur + 1) + 4 = 4 * (cur + 1 + 1) by omega,
      show encRound g ctx cur (4 * (cur + 1)) (encState g ctx data cur) =
        encState g ctx data (cur + 1) from rfl, ih,
      show cur + 1 + n = cur + (n + 1) by omega]

theorem AES_encrypt_state (g : Tables) (ctx : AES_CTX) (data : List Nat) :
    AES_encrypt g ctx data = encState g ctx data ctx.rounds := by
  have h := encRounds_state g ctx data ctx.rounds 0
  rw [show 0 + ctx.rounds = ctx.rounds from Nat.zero_add _] at h
  rw [← h]
  rfl

theorem encState_block {g : Tables} (hg : TablesOK g) (ctx : AES_CTX) {data : List Nat}
    (hd : Block data) (hk : ∀ j, j < 4 * (ctx.rounds + 1) → ctx.ks j < 2 ^ 32) :
    ∀ r, r ≤ ctx.rounds → Block (encState g ctx data r) := by
  intro r
  induction r with
  | zero =>
    intro _
    exact XK_block hd (fun j hj => hk _ (by omega))
  | succ r ih =>
    intro hr
    rw [encState, encRound_eq hg]
    apply XK_block
    · by_cases h : r < ctx.rounds - 1
      · rw [if_pos h]; exact map_block mixW_lt (SS_block hg _)
      · rw [if_neg h]; exact SS_block hg _
    · intro j hj; exact hk _ (by omega)

theorem xor_xor_cancel (a b : Nat) : a ^^^ b ^^^ b = a := by
  rw [Nat.xor_assoc, Nat.xor_self, Nat.xor_zero]

theorem XK_cancel {ks ks' : Nat → Nat} {k : Nat} {d : List Nat} (hd : Block d)
    (h : ∀ j < 4, ks' (k + j) = ks (k + j)) : XK ks' k (XK ks k d) = d := by
  obtain ⟨d0, d1, d2, d3, rfl, -⟩ := block_cases hd
  have h0 := h 0 (by omega)
  rw [Nat.add_zero] at h0
  simp only [XK, List.getD_cons_zero, List.getD_cons_succ, h0, h 1 (by omega), h 2 (by omega),
    h 3 (by omega), xor_xor_cancel]

theorem round_cancel {ks ks' : Nat → Nat} {k : Nat} {e : List Nat} (he : Block e)
    (h : ∀ j < 4, ks' (k + j) = imixW (ks (k + j))) :
    XK ks' k ((XK ks k (e.map mixW)).map imixW) = e := by
  obtain ⟨e0, e1, e2, e3, rfl, h0, h1, h2, h3⟩ := block_cases he
  have k0 := h 0 (by omega)
  rw [Nat.add_zero] at k0
  simp only [XK, List.map_cons, List.map_nil, List.getD_cons_zero, List.getD_cons_succ, k0,
    h 1 (by omega), h 2 (by omega), h 3 (by omega), imixW_xor, imixW_mixW h0, imixW_mixW h1,
    imixW_mixW h2, imixW_mixW h3, xor_xor_cancel]

theorem decRounds_undo {g : Tables} (hg : TablesOK g) (ctx : AES_CTX) {data : List Nat}
    (hd : Block data) (hk : ∀ j, j < 4 * (ctx.rounds + 1) → ctx.ks j < 2 ^ 32) :
    ∀ n cur, cur + n + 1 = ctx.rounds →
      decRounds g (AES_convert_key ctx) (n + 1) cur (4 * (n + 1))
        (SS g (encState g ctx data n)) = data := by
  intro n
  induction n with
  | zero =>
    intro cur hc
    have hr : ¬ (cur < (AES_convert_key ctx).rounds - 1) := by
      show ¬ (cur < ctx.rounds - 1)
      omega
    rw [decRounds, decRounds, decRound_eq hg _ _ _ _ (by omega), if_neg hr,
      ISS_SS hg (encState_block hg ctx hd hk 0 (by omega))]
    apply XK_cancel hd
    intro j hj
    rw [AES_convert_key_ks, if_neg (by omega)]
  | succ n ih =>
    intro cur hc
    have hr : cur < (AES_convert_key ctx).rounds - 1 := by
      show cur < ctx.rounds - 1
      omega
    have hn : n < ctx.rounds - 1 := by omega
    rw [decRounds, decRound_eq hg _ _ _ _ (by omega), if_pos hr,
      ISS_SS hg (encState_block hg ctx hd hk (n + 1) (by omega)),
      show 4 * (n + 1 + 1) - 4 = 4 * (n + 1) by omega]
    have e : encState g ctx data (n + 1) =
        XK ctx.ks (4 * (n + 1)) ((SS g (encState g ctx data n)).map mixW) := by
      rw [encState, encRound_eq hg, if_pos hn]
    rw [e, round_cancel (SS_block hg _)]
    · exact ih (cur + 1) (by omega)
    · intro j hj
      rw [AES_convert_key_ks, if_pos (by omega), inv_mix_col_eq (hk _ (by omega))]

/-- On any context with at least one round and 32-bit round keys, `AES_decrypt` with the
converted key schedule undoes `AES_encrypt`. -/
theorem AES_decrypt_encrypt {g : Tables} (hg : TablesOK g) (ctx : AES_CTX) {data : List Nat}
    (hd : Block data) (hR : 1 ≤ ctx.rounds)
    (hk : ∀ j, j < 4 * (ctx.rounds + 1) → ctx.ks j < 2 ^ 32) :
    AES_decrypt g (AES_convert_key ctx) (AES_encrypt g ctx data) = data := by
  obtain ⟨n, hn⟩ : ∃ n, ctx.rounds = n + 1 := ⟨ctx.rounds - 1, by omega⟩
  have hr : ¬ (n < ctx.rounds - 1) := by omega
  have e : encState g ctx data (n + 1) = XK ctx.ks (4 * (n + 1)) (SS g (encState g ctx data n)) := by
    rw [encState, encRound_eq hg, if_neg hr]
  have hpre : XK (AES_convert_key ctx).ks (4 * (n + 1))
      (XK ctx.ks (4 * (n + 1)) (SS g (encState g ctx data n))) =
      SS g (encState g ctx data n) := by
    apply XK_cancel (SS_block hg _)
    intro j hj
    rw [AES_convert_key_ks, if_neg (by omega)]
  have hdec : ∀ x : List Nat, AES_decrypt g (AES_convert_key ctx) x =
      decRounds g (AES_convert_key ctx) (n + 1) 0 (4 * (n + 1))
        (XK (AES_convert_key ctx).ks (4 * (n + 1)) x) := by
    intro x
    unfold AES_decrypt
    have e1 : (AES_convert_key ctx).rounds = n + 1 := hn
    simp only [e1]
    have a1 : (n + 1 + 1) * 4 - 4 = 4 * (n + 1) := by omega
    have a2 : (n + 1 + 1) * 4 - 3 = 4 * (n + 1) + 1 := by omega
    have a3 : (n + 1 + 1) * 4 - 2 = 4 * (n + 1) + 2 := by omega
    have a4 : (n + 1 + 1) * 4 - 1 = 4 * (n + 1) + 3 := by omega
    rw [a1, a2, a3, a4]
    rfl
  rw [AES_encrypt_state, hn, e, hdec, hpre]
  exact decRounds_undo hg ctx hd hk n 0 (by omega)

/-! ## Byte buffers and words -/

theorem htonl_lt (A : Nat) : htonl A < 2 ^ 32 := by
  unfold htonl
  have h1 : (u32 A &&& 0xff000000) >>> 24 < 2 ^ 32 := by
    rw [Nat.shiftRight_eq_div_pow]
    have := @Nat.and_le_right (u32 A) 0xff000000
    omega
  have h2 : (u32 A &&& 0x00ff0000) >>> 8 < 2 ^ 32 := by
    rw [Nat.shiftRight_eq_div_pow]
    have := @Nat.and_le_right (u32 A) 0x00ff0000
    omega
  have h3 : ∀ x, u32 x < 2 ^ 32 := fun x => Nat.mod_lt _ (by decide)
  exact Nat.or_lt_two_pow (Nat.or_lt_two_pow (Nat.or_lt_two_pow h1 h2) (h3 _)) (h3 _)

theorem htonl_W {a0 a1 a2 a3 : Nat} (h0 : a0 < 256) (h1 : a1 < 256) (h2 : a2 < 256)
    (h3 : a3 < 256) : htonl (W a0 a1 a2 a3) = W a3 a2 a1 a0 := by
  have e : u32 (W a0 a1 a2 a3) = W a0 a1 a2 a3 := Nat.mod_eq_of_lt (W_lt h0 h1 h2 h3)
  have m1 : (0xff000000 : Nat) = W 0xff 0 0 0 := by decide
  have m2 : (0x00ff0000 : Nat) = W 0 0xff 0 0 := by decide
  have m3 : (0x0000ff00 : Nat) = W 0 0 0xff 0 := by decide
  have m4 : (0x000000ff : Nat) = W 0 0 0 0xff := by decide
  have b : ∀ a < 256, a &&& 0xff = a := by
    intro a ha; rw [and_255]; exact Nat.mod_eq_of_lt ha
  have p1 : (W a0 a1 a2 a3 &&& 0xff000000) >>> 24 = W 0 0 0 a0 := by
    rw [m1, W_and h1 h2 h3 (by omega) (by omega) (by omega), b a0 h0,
      Nat.shiftRight_eq_div_pow]
    simp only [Nat.and_zero]; unfold W; omega
  have p2 : (W a0 a1 a2 a3 &&& 0x00ff0000) >>> 8 = W 0 0 a1 0 := by
    rw [m2, W_and h1 h2 h3 (by omega) (by omega) (by omega), b a1 h1,
      Nat.shiftRight_eq_div_pow]
    simp only [Nat.and_zero]; unfold W; omega
  have p3 : u32 ((W a0 a1 a2 a3 &&& 0x0000ff00) <<< 8) = W 0 a2 0 0 := by
    rw [m3, W_and h1 h2 h3 (by omega) (by omega) (by omega), b a2 h2, Nat.shiftLeft_eq]
    simp only [Nat.and_zero]; unfold u32 W; omega
  have p4 : u32 ((W a0 a1 a2 a3 &&& 0x000000ff) <<< 24) = W a3 0 0 0 := by
    rw [m4, W_and h1 h2 h3 (by omega) (by omega) (by omega), b a3 h3, Nat.shiftLeft_eq]
    simp only [Nat.and_zero]; unfold u32 W; omega
  unfold htonl
  rw [e, p1, p2, p3, p4, W_or (by omega) (by omega) h0 (by omega) h1 (by omega),
    W_or (by simp) (by simpa using h1) (by simpa using h0) h2 (by omega) (by omega),
    W_or (by simpa using h2) (by simpa using h1) (by simpa using h0) (by omega) (by omega)
      (by omega)]
  simp

theorem le_word {b0 b1 b2 b3 : Nat} (h0 : b0 < 256) (h1 : b1 < 256) (h2 : b2 < 256)
    (_ : b3 < 256) : b0 ||| (b1 <<< 8) ||| (b2 <<< 16) ||| (b3 <<< 24) = W b3 b2 b1 b0 := by
  have e0 : b0 = W 0 0 0 b0 := by unfold W; omega
  have e1 : b1 <<< 8 = W 0 0 b1 0 := by rw [Nat.shiftLeft_eq]; unfold W; omega
  have e2 : b2 <<< 16 = W 0 b2 0 0 := by rw [Nat.shiftLeft_eq]; unfold W; omega
  have e3 : b3 <<< 24 = W b3 0 0 0 := by rw [Nat.shiftLeft_eq]; unfold W; omega
  have s1 : W 0 0 0 b0 ||| W 0 0 b1 0 = W 0 0 b1 b0 := by
    rw [W_or (by omega) (by omega) h0 (by omega) h1 (by omega)]; simp
  have s2 : W 0 0 b1 b0 ||| W 0 b2 0 0 = W 0 b2 b1 b0 := by
    rw [W_or (by omega) h1 h0 h2 (by omega) (by omega)]; simp
  have s3 : W 0 b2 b1 b0 ||| W b3 0 0 0 = W b3 b2 b1 b0 := by
    rw [W_or h2 h1 h0 (by omega) (by omega) (by omega)]; simp
  rw [e1, e2, e3]
  conv => lhs; arg 1; arg 1; arg 1; rw [e0]
  rw [s1, s2, s3]

theorem load32_eq (p : List Nat) (i : Nat) (h0 : p.getD (4 * i) 0 < 256)
    (h1 : p.getD (4 * i + 1) 0 < 256) (h2 : p.getD (4 * i + 2) 0 < 256)
    (h3 : p.getD (4 * i + 3) 0 < 256) :
    load32 p i = W (p.getD (4 * i + 3) 0) (p.getD (4 * i + 2) 0) (p.getD (4 * i + 1) 0)
      (p.getD (4 * i) 0) :=
  le_word h0 h1 h2 h3

theorem htonl_load32 (p : List Nat) (i : Nat) (h0 : p.getD (4 * i) 0 < 256)
    (h1 : p.getD (4 * i + 1) 0 < 256) (h2 : p.getD (4 * i + 2) 0 < 256)
    (h3 : p.getD (4 * i + 3) 0 < 256) : htonl (load32 p i) = beWord p i := by
  rw [load32_eq p i h0 h1 h2 h3, htonl_W h3 h2 h1 h0]; rfl

theorem store32_htonl {w : Nat} (h : w < 2 ^ 32) :
    store32 (htonl w) = [B0 w, B1 w, B2 w, B3 w] := by
  conv_lhs => rw [← W_bytes h]
  rw [htonl_W (B0_lt w) (B1_lt w) (B2_lt w) (B3_lt w)]
  unfold store32
  rw [shr24_and, shr16_and, shr8_and, and_ff, B0_W (B3_lt w) (B2_lt w) (B1_lt w) (B0_lt w),
    B1_W (B2_lt w) (B1_lt w) (B0_lt w), B2_W (B1_lt w) (B0_lt w), B3_W (B0_lt w)]

/-! ## Key schedule -/

theorem Rcon_lt (k : Nat) : Rcon.getD k 0 < 256 := by
  by_cases h : k < 12
  · interval_cases k <;> decide
  · rw [List.getD_eq_default _ _ (by simp [Rcon]; omega)]; omega

theorem RotWord_eq {w : Nat} (h : w < 2 ^ 32) : RotWord w = W (B1 w) (B2 w) (B3 w) (B0 w) := by
  unfold RotWord W B0 B1 B2 B3; omega

theorem SubWord_lt {t : List Nat} (ht : ∀ x, t.getD x 0 < 256) (w : Nat) :
    SubWord t w < 2 ^ 32 := W_lt (ht _) (ht _) (ht _) (ht _)

theorem rcon_shift_lt (k : Nat) : Rcon.getD k 0 <<< 24 < 2 ^ 32 := by
  have := Rcon_lt k
  rw [Nat.shiftLeft_eq]; omega

theorem keyTmp_lt {t : List Nat} (ht : ∀ x, t.getD x 0 < 256) (words i : Nat) {prev : Nat}
    (h : prev < 2 ^ 32) : keyTmp t words i prev < 2 ^ 32 := by
  unfold keyTmp
  split
  · exact xor_lt_32 (SubWord_lt ht _) (rcon_shift_lt _)
  · split
    · exact SubWord_lt ht _
    · exact h

theorem or_perm1 (x1 x2 x3 x4 : Nat) : x1 ||| x2 ||| x3 ||| x4 = x3 ||| x2 ||| x1 ||| x4 := by
  ac_rfl

theorem or_perm2 (x1 x2 x3 x4 : Nat) : x1 ||| x2 ||| x3 ||| x4 = x4 ||| x3 ||| x2 ||| x1 := by
  ac_rfl

theorem setKeyStep_fst (g : Tables) (words i rtmp : Nat) (ks : Nat → Nat) :
    (setKeyStep g words i rtmp ks).1 = if i % words = 0 then rtmp + 1 else rtmp := by
  unfold setKeyStep
  by_cases h : i % words = 0 <;> simp [h]

theorem setKeyStep_snd {g : Tables} (hs : ∀ x, g.aes_sbox.getD x 0 < 256)
    (words i rtmp : Nat) (ks : Nat → Nat) (hp : ks (i - 1) < 2 ^ 32)
    (hr : i % words = 0 → rtmp = i / words - 1) :
    (setKeyStep g words i rtmp ks).2 =
      upd ks i (ks (i - words) ^^^ keyTmp g.aes_sbox words i (ks (i - 1))) := by
  have e1 : u32 (g.aes_sbox.getD (B3 (ks (i - 1))) 0 <<< 8) |||
      u32 (g.aes_sbox.getD (B2 (ks (i - 1))) 0 <<< 16) |||
      u32 (g.aes_sbox.getD (B1 (ks (i - 1))) 0 <<< 24) |||
      g.aes_sbox.getD (B0 (ks (i - 1))) 0 =
      SubWord g.aes_sbox (RotWord (ks (i - 1))) := by
    rw [RotWord_eq hp]
    unfold SubWord
    rw [B0_W (B1_lt _) (B2_lt _) (B3_lt _) (B0_lt _), B1_W (B2_lt _) (B3_lt _) (B0_lt _),
      B2_W (B3_lt _) (B0_lt _), B3_W (B0_lt _)]
    exact (or_perm1 _ _ _ _).trans (pack_eq_W (hs _) (hs _) (hs _) (hs _))
  have e2 : g.aes_sbox.getD (B3 (ks (i - 1))) 0 |||
      u32 (g.aes_sbox.getD (B2 (ks (i - 1))) 0 <<< 8) |||
      u32 (g.aes_sbox.getD (B1 (ks (i - 1))) 0 <<< 16) |||
      u32 (g.aes_sbox.getD (B0 (ks (i - 1))) 0 <<< 24) =
      SubWord g.aes_sbox (ks (i - 1)) := by
    unfold SubWord
    exact (or_perm2 _ _ _ _).trans (pack_eq_W (hs _) (hs _) (hs _) (hs _))
  have e3 : ∀ k, u32 (Rcon.getD k 0 <<< 24) = Rcon.getD k 0 <<< 24 :=
    fun k => Nat.mod_eq_of_lt (rcon_shift_lt k)
  unfold setKeyStep keyTmp
  by_cases h0 : i % words = 0
  · have h1 : ¬ (words = 8 ∧ i % words = 4) := by omega
    simp only [if_pos h0, if_neg h1]
    simp only [and_ff, B3_shr8, B3_shr16, shr24 hp, e1, e3, hr h0]
  · by_cases h1 : words = 8 ∧ i % words = 4
    · have h2 : words = 8 ∧ i % 8 = 4 := by
        obtain ⟨a, b⟩ := h1
        subst a
        exact ⟨rfl, b⟩
      simp only [if_neg h0, if_pos h1, if_pos h2]
      simp only [and_ff, B3_shr8, B3_shr16, shr24 hp, e2]
    · have h2 : ¬ (words = 8 ∧ i % 8 = 4) := by
        intro ⟨a, b⟩
        subst a
        exact h1 ⟨rfl, b⟩
      simp only [if_neg h0, if_neg h1, if_neg h2]

theorem setKeyLoop_spec {g : Tables} (hs : ∀ x, g.aes_sbox.getD x 0 < 256) {words : Nat}
    (hw : words = 4 ∨ words = 8) :
    ∀ (n i rtmp : Nat) (ks : Nat → Nat), words ≤ i → rtmp = (i - 1) / words →
      (∀ j < i, ks j < 2 ^ 32) →
      (∀ j, j < i → setKeyLoop g words n i rtmp ks j = ks j) ∧
      (∀ j, i + n ≤ j → setKeyLoop g words n i rtmp ks j = ks j) ∧
      (∀ j, j < i + n → setKeyLoop g words n i rtmp ks j < 2 ^ 32) ∧
      (∀ j, i ≤ j → j < i + n → setKeyLoop g words n i rtmp ks j =
        setKeyLoop g words n i rtmp ks (j - words) ^^^
          keyTmp g.aes_sbox words j (setKeyLoop g words n i rtmp ks (j - 1))) := by
  intro n
  induction n with
  | zero =>
    intro i rtmp ks _ _ hb
    refine ⟨fun j _ => rfl, fun j _ => rfl, fun j hj => hb j (by omega), ?_⟩
    intro j h1 h2
    omega
  | succ n ih =>
    intro i rtmp ks hi hr hb
    have hp : ks (i - 1) < 2 ^ 32 := hb _ (by omega)
    have hq : ks (i - words) < 2 ^ 32 := hb _ (by omega)
    have hsnd := setKeyStep_snd hs words i rtmp ks hp
      (by intro h; rw [hr]; rcases hw with rfl | rfl <;> omega)
    have hfst : (setKeyStep g words i rtmp ks).1 = (i + 1 - 1) / words := by
      rw [setKeyStep_fst, hr]
      rcases hw with rfl | rfl <;> split <;> omega
    have hv : ks (i - words) ^^^ keyTmp g.aes_sbox words i (ks (i - 1)) < 2 ^ 32 :=
      xor_lt_32 hq (keyTmp_lt hs _ _ hp)
    have hb1 : ∀ j < i + 1, (setKeyStep g words i rtmp ks).2 j < 2 ^ 32 := by
      intro j hj
      rw [hsnd]
      by_cases e : j = i
      · rw [e, upd_same]; exact hv
      · rw [upd_other _ _ e]; exact hb j (by omega)
    obtain ⟨a1, a2, a3, a4⟩ := ih (i + 1) _ _ (by omega) hfst hb1
    have lo : ∀ j, j < i → setKeyLoop g words (n + 1) i rtmp ks j = ks j := by
      intro j hj
      rw [setKeyLoop, a1 j (by omega), hsnd, upd_other _ _ (by omega)]
    have at_i : setKeyLoop g words (n + 1) i rtmp ks i =
        ks (i - words) ^^^ keyTmp g.aes_sbox words i (ks (i - 1)) := by
      rw [setKeyLoop, a1 i (by omega), hsnd, upd_same]
    refine ⟨lo, ?_, ?_, ?_⟩
    · intro j hj
      rw [setKeyLoop, a2 j (by omega), hsnd, upd_other _ _ (by omega)]
    · intro j hj
      rw [setKeyLoop]
      exact a3 j (by omega)
    · intro j h1 h2
      by_cases e : j = i
      · subst e
        rw [at_i, lo (j - words) (by rcases hw with rfl | rfl <;> omega),
          lo (j - 1) (by omega)]
      · rw [setKeyLoop]
        exact a4 j (by omega) (by omega)

theorem storeWords_get (ks : Nat → Nat) (o : Nat) (w : List Nat) (j : Nat) :
    storeWords ks o w j =
      if j = o + 3 then w.getD 3 0 else if j = o + 2 then w.getD 2 0
      else if j = o + 1 then w.getD 1 0 else if j = o then w.getD 0 0 else ks j := rfl

theorem storeWords_other (ks : Nat → Nat) (o : Nat) (w : List Nat) {j : Nat}
    (h : j < o ∨ o + 4 ≤ j) : storeWords ks o w j = ks j := by
  unfold storeWords
  rw [upd_other _ _ (by omega), upd_other _ _ (by omega), upd_other _ _ (by omega),
    upd_other _ _ (by omega)]

theorem init128 (ks : Nat → Nat) (key : List Nat) :
    (∀ j < 4, storeWords ks 0 (AES_hncpy32 key 0) j = htonl (load32 key j)) ∧
    (∀ j, 4 ≤ j → storeWords ks 0 (AES_hncpy32 key 0) j = ks j) := by
  constructor
  · intro j hj
    rw [storeWords_get]
    interval_cases j <;> rfl
  · intro j hj
    exact storeWords_other ks 0 _ (Or.inr (by omega))

theorem init256 (ks : Nat → Nat) (key : List Nat) :
    (∀ j < 8, storeWords (storeWords ks 4 (AES_hncpy32 key 4)) 0 (AES_hncpy32 key 0) j =
      htonl (load32 key j)) ∧
    (∀ j, 8 ≤ j →
      storeWords (storeWords ks 4 (AES_hncpy32 key 4)) 0 (AES_hncpy32 key 0) j = ks j) := by
  constructor
  · intro j hj
    rw [storeWords_get, storeWords_get]
    interval_cases j <;> rfl
  · intro j hj
    rw [storeWords_other _ 0 _ (Or.inr (by omega)), storeWords_other ks 4 _ (Or.inr hj)]

/-- What `AES_set_key` leaves in the context, for the two supported modes. -/
theorem AES_set_key_spec {g : Tables} (hs : ∀ x, g.aes_sbox.getD x 0 < 256) (ctx : AES_CTX)
    (key : List Nat) (mode words rounds : Nat)
    (hm : (mode = AES_MODE_128 ∧ words = 4 ∧ rounds = 10) ∨
      (mode = AES_MODE_256 ∧ words = 8 ∧ rounds = 14)) :
    (AES_set_key g ctx key mode).rounds = rounds ∧
    (AES_set_key g ctx key mode).key_size = words ∧
    (∀ j < words, (AES_set_key g ctx key mode).ks j = htonl (load32 key j)) ∧
    (∀ j, 4 * (rounds + 1) ≤ j → (AES_set_key g ctx key mode).ks j = ctx.ks j) ∧
    (∀ j, j < 4 * (rounds + 1) → (AES_set_key g ctx key mode).ks j < 2 ^ 32) ∧
    (∀ j, words ≤ j → j < 4 * (rounds + 1) → (AES_set_key g ctx key mode).ks j =
      (AES_set_key g ctx key mode).ks (j - words) ^^^
        keyTmp g.aes_sbox words j ((AES_set_key g ctx key mode).ks (j - 1))) := by
  rcases hm with ⟨rfl, rfl, rfl⟩ | ⟨rfl, rfl, rfl⟩
  · obtain ⟨i1, i2⟩ := init128 ctx.ks key
    obtain ⟨a1, a2, a3, a4⟩ := setKeyLoop_spec hs (Or.inl rfl) 40 4 0
      (storeWords ctx.ks 0 (AES_hncpy32 key 0)) (by omega) (by decide)
      (fun j hj => by rw [i1 j hj]; exact htonl_lt _)
    have e : (AES_set_key g ctx key AES_MODE_128).ks =
        setKeyLoop g 4 40 4 0 (storeWords ctx.ks 0 (AES_hncpy32 key 0)) := rfl
    rw [e]
    refine ⟨rfl, rfl, ?_, ?_, ?_, ?_⟩
    · intro j hj; rw [a1 j hj, i1 j hj]
    · intro j hj; rw [a2 j (by omega), i2 j (by omega)]
    · intro j hj; exact a3 j (by omega)
    · intro j h1 h2; exact a4 j h1 (by omega)
  · obtain ⟨i1, i2⟩ := init256 ctx.ks key
    obtain ⟨a1, a2, a3, a4⟩ := setKeyLoop_spec hs (Or.inr rfl) 52 8 0
      (storeWords (storeWords ctx.ks 4 (AES_hncpy32 key 4)) 0 (AES_hncpy32 key 0))
      (by omega) (by decide) (fun j hj => by rw [i1 j hj]; exact htonl_lt _)
    have e : (AES_set_key g ctx key AES_MODE_256).ks =
        setKeyLoop g 8 52 8 0
          (storeWords (storeWords ctx.ks 4 (AES_hncpy32 key 4)) 0 (AES_hncpy32 key 0)) := rfl
    rw [e]
    refine ⟨rfl, rfl, ?_, ?_, ?_, ?_⟩
    · intro j hj; rw [a1 j hj, i1 j hj]
    · intro j hj; rw [a2 j (by omega), i2 j (by omega)]
    · intro j hj; exact a3 j (by omega)
    · intro j h1 h2; exact a4 j h1 (by omega)

/-- The words assigned by `AES_set_key` do not depend on the prior content of the context. -/
theorem AES_set_key_indep {g : Tables} (hs : ∀ x, g.aes_sbox.getD x 0 < 256)
    (ctx1 ctx2 : AES_CTX) (key : List Nat) (mode words rounds : Nat)
    (hm : (mode = AES_MODE_128 ∧ words = 4 ∧ rounds = 10) ∨
      (mode = AES_MODE_256 ∧ words = 8 ∧ rounds = 14)) :
    ∀ j, j < 4 * (rounds + 1) →
      (AES_set_key g ctx1 key mode).ks j = (AES_set_key g ctx2 key mode).ks j := by
  obtain ⟨-, -, b1, -, -, b4⟩ := AES_set_key_spec hs ctx1 key mode words rounds hm
  obtain ⟨-, -, c1, -, -, c4⟩ := AES_set_key_spec hs ctx2 key mode words rounds hm
  have hw : 1 ≤ words := by rcases hm with ⟨-, rfl, -⟩ | ⟨-, rfl, -⟩ <;> omega
  intro j
  induction j using Nat.strong_induction_on with
  | _ j ih =>
    intro hj
    by_cases h : j < words
    · rw [b1 j h, c1 j h]
    · rw [b4 j (by omega) hj, c4 j (by omega) hj, ih (j - words) (by omega) (by omega),
        ih (j - 1) (by omega) (by omega)]

/-! ## The block transforms read only `rounds` and the first `4*(rounds+1)` key words -/

theorem encRound_congr (g : Tables) {c1 c2 : AES_CTX} (hr : c1.rounds = c2.rounds)
    (r k : Nat) (d : List Nat) (hk : ∀ j < 4, c1.ks (k + j) = c2.ks (k + j)) :
    encRound g c1 r k d = encRound g c2 r k d := by
  have h0 := hk 0 (by omega)
  rw [Nat.add_zero] at h0
  unfold encRound
  rw [hr, h0, hk 1 (by omega), hk 2 (by omega), hk 3 (by omega)]

theorem encRounds_congr (g : Tables) {c1 c2 : AES_CTX} (hr : c1.rounds = c2.rounds) {K : Nat}
    (hk : ∀ j < K, c1.ks j = c2.ks j) :
    ∀ n r k d, k + 4 * n ≤ K → encRounds g c1 n r k d = encRounds g c2 n r k d := by
  intro n
  induction n with
  | zero => intro r k d _; rfl
  | succ n ih =>
    intro r k d h
    rw [encRounds, encRounds, encRound_congr g hr r k d (fun j hj => hk _ (by omega)),
      ih _ _ _ (by omega)]

theorem AES_encrypt_congr (g : Tables) {c1 c2 : AES_CTX} (hr : c1.rounds = c2.rounds)
    (hk : ∀ j < 4 * (c1.rounds + 1), c1.ks j = c2.ks j) (d : List Nat) :
    AES_encrypt g c1 d = AES_encrypt g c2 d := by
  unfold AES_encrypt
  rw [← hr, hk 0 (by omega), hk 1 (by omega), hk 2 (by omega), hk 3 (by omega)]
  exact encRounds_congr g hr hk _ _ _ _ (by omega)

theorem decRound_congr (g : Tables) {c1 c2 : AES_CTX} (hr : c1.rounds = c2.rounds)
    (r k : Nat) (d : List Nat) (h4 : 4 ≤ k) (hk : ∀ j < k, c1.ks j = c2.ks j) :
    decRound g c1 r k d = decRound g c2 r k d := by
  unfold decRound
  rw [hr, hk (k - 4) (by omega), hk (k - 3) (by omega), hk (k - 2) (by omega),
    hk (k - 1) (by omega)]

theorem decRounds_congr (g : Tables) {c1 c2 : AES_CTX} (hr : c1.rounds = c2.rounds) :
    ∀ n r k d, 4 * n ≤ k → (∀ j < k, c1.ks j = c2.ks j) →
      decRounds g c1 n r k d = decRounds g c2 n r k d := by
  intro n
  induction n with
  | zero => intro r k d _ _; rfl
  | succ n ih =>
    intro r k d h hk
    rw [decRounds, decRounds, decRound_congr g hr r k d (by omega) hk,
      ih _ _ _ (by omega) (fun j hj => hk j (by omega))]

theorem AES_decrypt_congr (g : Tables) {c1 c2 : AES_CTX} (hr : c1.rounds = c2.rounds)
    (hk : ∀ j < 4 * (c1.rounds + 1), c1.ks j = c2.ks j) (d : List Nat) :
    AES_decrypt g c1 d = AES_decrypt g c2 d := by
  unfold AES_decrypt
  simp only []
  rw [← hr, hk _ (by omega), hk ((c1.rounds + 1) * 4 - 3) (by omega),
    hk ((c1.rounds + 1) * 4 - 2) (by omega), hk ((c1.rounds + 1) * 4 - 1) (by omega)]
  exact decRounds_congr g hr _ _ _ _ (by omega) (fun j hj => hk j (by omega))

theorem AES_convert_key_congr {c1 c2 : AES_CTX} (hr : c1.rounds = c2.rounds) {K : Nat}
    (hk : ∀ j < K, c1.ks j = c2.ks j) :
    ∀ j < K, (AES_convert_key c1).ks j = (AES_convert_key c2).ks j := by
  intro j hj
  rw [AES_convert_key_ks, AES_convert_key_ks, hr, hk j hj]

/-! ## The generated tables -/

theorem genTables_inv : ∀ x < 256,
    (sboxTable.getD x 0 < 256 ∧ isboxTable.getD x 0 < 256 ∧
      isboxTable.getD (sboxTable.getD x 0) 0 = x) ∧
    sboxTable.getD (isboxTable.getD x 0) 0 = x := by
  decide!

theorem genTables_ok : TablesOK genTables := fun x hx => (genTables_inv x hx).1

theorem sbox_isbox : ∀ x < 256, sboxTable.getD (isboxTable.getD x 0) 0 = x :=
  fun x hx => (genTables_inv x hx).2

theorem sboxTable_length : sboxTable.length = 256 := by decide!

theorem isboxTable_length : isboxTable.length = 256 := by decide!

theorem genTables_sbox_lt (x : Nat) : genTables.aes_sbox.getD x 0 < 256 := by
  by_cases h : x < 256
  · exact (genTables_ok x h).1
  · have hl : genTables.aes_sbox.length = 256 := sboxTable_length
    rw [List.getD_eq_default _ _ (by omega)]
    omega

/-! ## The public entry points on bytes -/

theorem getD_lt {p : List Nat} (h : ∀ b ∈ p, b < 256) (i : Nat) : p.getD i 0 < 256 := by
  by_cases hi : i < p.length
  · rw [List.getD_eq_getElem _ _ hi]; exact h _ (List.getElem_mem hi)
  · rw [List.getD_eq_default _ _ (by omega)]; omega

theorem beWord_lt {p : List Nat} (h : ∀ b ∈ p, b < 256) (i : Nat) : beWord p i < 2 ^ 32 :=
  W_lt (getD_lt h _) (getD_lt h _) (getD_lt h _) (getD_lt h _)

theorem wordsOfBytes_block {p : List Nat} (h : ∀ b ∈ p, b < 256) : Block (wordsOfBytes p) :=
  block_mk (beWord_lt h 0) (beWord_lt h 1) (beWord_lt h 2) (beWord_lt h 3)

theorem bytesOfWords_bytes (d : List Nat) : Bytes16 (bytesOfWords d) := by
  refine ⟨rfl, ?_⟩
  intro b hb
  simp only [bytesOfWords, List.mem_cons, List.mem_singleton, List.not_mem_nil, or_false] at hb
  rcases hb with h | h | h | h | h | h | h | h | h | h | h | h | h | h | h | h <;> rw [h] <;>
    first | exact B0_lt _ | exact B1_lt _ | exact B2_lt _ | exact B3_lt _

theorem wordsOfBytes_bytesOfWords {d : List Nat} (h : Block d) :
    wordsOfBytes (bytesOfWords d) = d := by
  obtain ⟨d0, d1, d2, d3, rfl, h0, h1, h2, h3⟩ := block_cases h
  simp only [wordsOfBytes, beWord, bytesOfWords, List.getD_cons_zero, List.getD_cons_succ,
    Nat.mul_zero, Nat.zero_add, Nat.mul_one, Nat.reduceMul, Nat.reduceAdd, W_bytes h0,
    W_bytes h1, W_bytes h2, W_bytes h3]

theorem bytesOfWords_wordsOfBytes {p : List Nat} (h : Bytes16 p) :
    bytesOfWords (wordsOfBytes p) = p := by
  obtain ⟨hl, hb⟩ := h
  match p, hl with
  | [p0, p1, p2, p3, p4, p5, p6, p7, p8, p9, p10, p11, p12, p13, p14, p15], _ =>
    have b0 := hb p0 (by simp)
    have b1 := hb p1 (by simp)
    have b2 := hb p2 (by simp)
    have b3 := hb p3 (by simp)
    have b4 := hb p4 (by simp)
    have b5 := hb p5 (by simp)
    have b6 := hb p6 (by simp)
    have b7 := hb p7 (by simp)
    have b8 := hb p8 (by simp)
    have b9 := hb p9 (by simp)
    have b10 := hb p10 (by simp)
    have b11 := hb p11 (by simp)
    have b12 := hb p12 (by simp)
    have b13 := hb p13 (by simp)
    have b14 := hb p14 (by simp)
    have b15 := hb p15 (by simp)
    simp only [wordsOfBytes, beWord, bytesOfWords, List.getD_cons_zero, List.getD_cons_succ,
      Nat.mul_zero, Nat.zero_add, Nat.mul_one, Nat.reduceMul, Nat.reduceAdd,
      B0_W b0 b1 b2 b3, B1_W b1 b2 b3, B2_W b2 b3, B3_W b3,
      B0_W b4 b5 b6 b7, B1_W b5 b6 b7, B2_W b6 b7, B3_W b7,
      B0_W b8 b9 b10 b11, B1_W b9 b10 b11, B2_W b10 b11, B3_W b11,
      B0_W b12 b13 b14 b15, B1_W b13 b14 b15, B2_W b14 b15, B3_W b15]

theorem store_words {d : List Nat} (h : Block d) :
    store32 (htonl (d.getD 0 0)) ++ store32 (htonl (d.getD 1 0)) ++
      store32 (htonl (d.getD 2 0)) ++ store32 (htonl (d.getD 3 0)) = bytesOfWords d := by
  obtain ⟨d0, d1, d2, d3, rfl, h0, h1, h2, h3⟩ := block_cases h
  simp only [List.getD_cons_zero, List.getD_cons_succ, store32_htonl h0, store32_htonl h1,
    store32_htonl h2, store32_htonl h3]
  rfl

theorem load_words {p : List Nat} (h : ∀ b ∈ p, b < 256) :
    AES_hncpy32 p 0 = wordsOfBytes p := by
  unfold AES_hncpy32 wordsOfBytes
  rw [htonl_load32 p 0 (getD_lt h _) (getD_lt h _) (getD_lt h _) (getD_lt h _),
    htonl_load32 p (0 + 1) (getD_lt h _) (getD_lt h _) (getD_lt h _) (getD_lt h _),
    htonl_load32 p (0 + 2) (getD_lt h _) (getD_lt h _) (getD_lt h _) (getD_lt h _),
    htonl_load32 p (0 + 3) (getD_lt h _) (getD_lt h _) (getD_lt h _) (getD_lt h _)]

theorem mode128 : (AES_MODE_128 = AES_MODE_128 ∧ 4 = 4 ∧ 10 = 10) ∨
    (AES_MODE_128 = AES_MODE_256 ∧ 4 = 8 ∧ 10 = 14) := Or.inl ⟨rfl, rfl, rfl⟩

theorem mode256 : (AES_MODE_256 = AES_MODE_128 ∧ 8 = 4 ∧ 14 = 10) ∨
    (AES_MODE_256 = AES_MODE_256 ∧ 8 = 8 ∧ 14 = 14) := Or.inr ⟨rfl, rfl, rfl⟩

theorem setKey128_rounds (g : Tables) (ctx : AES_CTX) (key : List Nat) :
    (AES_set_key g ctx key AES_MODE_128).rounds = 10 := rfl

theorem setKey128_lt (ctx : AES_CTX) (key : List Nat) :
    ∀ j, j < 4 * ((AES_set_key genTables ctx key AES_MODE_128).rounds + 1) →
      (AES_set_key genTables ctx key AES_MODE_128).ks j < 2 ^ 32 :=
  (AES_set_key_spec genTables_sbox_lt ctx key AES_MODE_128 4 10 mode128).2.2.2.2.1

theorem encrypt_block (ctx : AES_CTX) (key : List Nat) {d : List Nat} (hd : Block d) :
    Block (AES_encrypt genTables (AES_set_key genTables ctx key AES_MODE_128) d) := by
  rw [AES_encrypt_state]
  exact encState_block genTables_ok _ hd (setKey128_lt ctx key) _ (Nat.le_refl _)

theorem AES_Encrypt_eq (g : Tables) (h1 : g.aes_sbox.length = 256)
    (h2 : g.aes_isbox.length = 256) (ctx : AES_CTX) (data key : List Nat)
    (hd : ∀ b ∈ data, b < 256) :
    AES_Encrypt g ctx data key =
      (genTables, bytesOfWords (AES_encrypt genTables
        (AES_set_key genTables ctx key AES_MODE_128) (wordsOfBytes data))) := by
  have e := load_words hd
  unfold AES_hncpy32 at e
  unfold AES_Encrypt ntohl
  simp only [AES_generateSBox_eq g h1 h2]
  rw [e, store_words (encrypt_block ctx key (wordsOfBytes_block hd))]

theorem decRounds_block {g : Tables} (hg : TablesOK g) (ctx : AES_CTX) :
    ∀ n r k d, 4 * n ≤ k → (∀ j < k, ctx.ks j < 2 ^ 32) → Block d →
      Block (decRounds g ctx n r k d) := by
  intro n
  induction n with
  | zero => intro r k d _ _ hd; exact hd
  | succ n ih =>
    intro r k d h hk hd
    rw [decRounds]
    apply ih _ _ _ (by omega) (fun j hj => hk j (by omega))
    rw [decRound_eq hg _ _ _ _ (by omega)]
    apply XK_block
    · by_cases hr : r < ctx.rounds - 1
      · rw [if_pos hr]; exact map_block imixW_lt (ISS_block hg _)
      · rw [if_neg hr]; exact ISS_block hg _
    · intro j hj; exact hk _ (by omega)

theorem AES_decrypt_block {g : Tables} (hg : TablesOK g) (ctx : AES_CTX)
    (hk : ∀ j < 4 * (ctx.rounds + 1), ctx.ks j < 2 ^ 32) {d : List Nat} (hd : Block d) :
    Block (AES_decrypt g ctx d) := by
  have e : AES_decrypt g ctx d =
      decRounds g ctx ctx.rounds 0 (4 * ctx.rounds) (XK ctx.ks (4 * ctx.rounds) d) := by
    unfold AES_decrypt
    simp only []
    rw [show (ctx.rounds + 1) * 4 - 4 = 4 * ctx.rounds by omega,
      show (ctx.rounds + 1) * 4 - 3 = 4 * ctx.rounds + 1 by omega,
      show (ctx.rounds + 1) * 4 - 2 = 4 * ctx.rounds + 2 by omega,
      show (ctx.rounds + 1) * 4 - 1 = 4 * ctx.rounds + 3 by omega]
    rfl
  rw [e]
  exact decRounds_block hg ctx _ _ _ _ (Nat.le_refl _) (fun j hj => hk j (by omega))
    (XK_block hd (fun j hj => hk _ (by omega)))

theorem inv_mix_col_lt {x : Nat} (h : x < 2 ^ 32) : inv_mix_col x < 2 ^ 32 := by
  rw [inv_mix_col_eq h]; exact imixW_lt x

theorem convert_lt (ctx : AES_CTX) {K : Nat} (hk : ∀ j < K, ctx.ks j < 2 ^ 32) :
    ∀ j < K, (AES_convert_key ctx).ks j < 2 ^ 32 := by
  intro j hj
  rw [AES_convert_key_ks]
  split
  · exact inv_mix_col_lt (hk j hj)
  · exact hk j hj

theorem AES_Decrypt_eq (g : Tables) (h1 : g.aes_sbox.length = 256)
    (h2 : g.aes_isbox.length = 256) (ctx : AES_CTX) (data key : List Nat)
    (hd : ∀ b ∈ data, b < 256) :
    AES_Decrypt g ctx data key =
      (genTables, bytesOfWords (AES_decrypt genTables
        (AES_convert_key (AES_set_key genTables ctx key AES_MODE_128))
        (wordsOfBytes data))) := by
  unfold AES_Decrypt
  simp only [AES_generateSBox_eq g h1 h2]
  have hk : ∀ j < 4 * ((AES_convert_key (AES_set_key genTables ctx key AES_MODE_128)).rounds + 1),
      (AES_convert_key (AES_set_key genTables ctx key AES_MODE_128)).ks j < 2 ^ 32 :=
    convert_lt _ (setKey128_lt ctx key)
  rw [load_words hd, store_words (AES_decrypt_block genTables_ok _ hk (wordsOfBytes_block hd))]

theorem setKey128_indep (c1 c2 : AES_CTX) (key : List Nat) :
    ∀ j < 4 * ((AES_set_key genTables c1 key AES_MODE_128).rounds + 1),
      (AES_set_key genTables c1 key AES_MODE_128).ks j =
        (AES_set_key genTables c2 key AES_MODE_128).ks j := by
  intro j hj
  rw [setKey128_rounds] at hj
  exact AES_set_key_indep genTables_sbox_lt c1 c2 key AES_MODE_128 4 10 mode128 j hj

/-- The result of `AES_Encrypt` does not depend on the prior tables and context. -/
theorem AES_Encrypt_indep (g1 g2 : Tables) (c1 c2 : AES_CTX) (data key : List Nat)
    (a1 : g1.aes_sbox.length = 256) (a2 : g1.aes_isbox.length = 256)
    (b1 : g2.aes_sbox.length = 256) (b2 : g2.aes_isbox.length = 256) :
    AES_Encrypt g1 c1 data key = AES_Encrypt g2 c2 data key := by
  have hr : (AES_set_key genTables c1 key AES_MODE_128).rounds =
      (AES_set_key genTables c2 key AES_MODE_128).rounds :=
    (setKey128_rounds genTables c1 key).trans (setKey128_rounds genTables c2 key).symm
  have e := AES_encrypt_congr genTables hr (setKey128_indep c1 c2 key)
  unfold AES_Encrypt
  simp only [AES_generateSBox_eq g1 a1 a2, AES_generateSBox_eq g2 b1 b2, e]

/-- The result of `AES_Decrypt` does not depend on the prior tables and context. -/
theorem AES_Decrypt_indep (g1 g2 : Tables) (c1 c2 : AES_CTX) (data key : List Nat)
    (a1 : g1.aes_sbox.length = 256) (a2 : g1.aes_isbox.length = 256)
    (b1 : g2.aes_sbox.length = 256) (b2 : g2.aes_isbox.length = 256) :
    AES_Decrypt g1 c1 data key = AES_Decrypt g2 c2 data key := by
  have hr : (AES_set_key genTables c1 key AES_MODE_128).rounds =
      (AES_set_key genTables c2 key AES_MODE_128).rounds :=
    (setKey128_rounds genTables c1 key).trans (setKey128_rounds genTables c2 key).symm
  have hr2 : (AES_convert_key (AES_set_key genTables c1 key AES_MODE_128)).rounds =
      (AES_convert_key (AES_set_key genTables c2 key AES_MODE_128)).rounds := hr
  have hk : ∀ j < 4 * ((AES_convert_key (AES_set_key genTables c1 key AES_MODE_128)).rounds + 1),
      (AES_convert_key (AES_set_key genTables c1 key AES_MODE_128)).ks j =
        (AES_convert_key (AES_set_key genTables c2 key AES_MODE_128)).ks j :=
    AES_convert_key_congr hr (setKey128_indep c1 c2 key)
  have e := AES_decrypt_congr genTables hr2 hk
  unfold AES_Decrypt
  simp only [AES_generateSBox_eq g1 a1 a2, AES_generateSBox_eq g2 b1 b2, e]

/-- Decryption of an encrypted block gives the block back, for any prior tables and
contexts of the two calls. -/
theorem roundtrip (g1 g2 : Tables) (c1 c2 : AES_CTX) (P K : List Nat)
    (a1 : g1.aes_sbox.length = 256) (a2 : g1.aes_isbox.length = 256)
    (b1 : g2.aes_sbox.length = 256) (b2 : g2.aes_isbox.length = 256) (hP : Bytes16 P) :
    (AES_Decrypt g2 c2 (AES_Encrypt g1 c1 P K).2 K).2 = P := by
  rw [AES_Decrypt_indep g2 g1 c2 c1 _ K b1 b2 a1 a2, AES_Encrypt_eq g1 a1 a2 c1 P K hP.2]
  simp only []
  rw [AES_Decrypt_eq g1 a1 a2 c1 _ K (bytesOfWords_bytes _).2]
  simp only []
  rw [wordsOfBytes_bytesOfWords (encrypt_block c1 K (wordsOfBytes_block hP.2)),
    AES_decrypt_encrypt genTables_ok _ (wordsOfBytes_block hP.2)
      (show 1 ≤ 10 by omega) (setKey128_lt c1 K), bytesOfWords_wordsOfBytes hP]

theorem zeroTables_len : zeroTables.aes_sbox.length = 256 ∧ zeroTables.aes_isbox.length = 256 :=
  ⟨List.length_replicate _ _, List.length_replicate _ _⟩

theorem tv_bytes : Bytes16 tv1_plain ∧ Bytes16 tv1_key ∧ Bytes16 zero16 :=
  ⟨⟨rfl, by decide⟩, ⟨rfl, by decide⟩, ⟨rfl, by decide⟩⟩

theorem kat_words1 :
    bytesOfWords (AES_encrypt genTables (AES_set_key genTables zeroCtx tv1_key AES_MODE_128)
      (wordsOfBytes tv1_plain)) = tv1_cipher := by
  decide!

theorem kat_words2 :
    bytesOfWords (AES_encrypt genTables (AES_set_key genTables zeroCtx zero16 AES_MODE_128)
      (wordsOfBytes zero16)) = tv2_cipher := by
  decide!

theorem kat_enc1 : (AES_Encrypt zeroTables zeroCtx tv1_plain tv1_key).2 = tv1_cipher := by
  rw [AES_Encrypt_eq zeroTables zeroTables_len.1 zeroTables_len.2 zeroCtx tv1_plain tv1_key
    tv_bytes.1.2]
  exact kat_words1

theorem kat_enc2 : (AES_Encrypt zeroTables zeroCtx zero16 zero16).2 = tv2_cipher := by
  rw [AES_Encrypt_eq zeroTables zeroTables_len.1 zeroTables_len.2 zeroCtx zero16 zero16
    tv_bytes.2.2.2]
  exact kat_words2

/-! ## Frame and prior-independence of the key scheduler, for any tables -/

theorem setKeyStep_snd_other (g : Tables) (words i rtmp : Nat) (ks : Nat → Nat) {j : Nat}
    (h : j ≠ i) : (setKeyStep g words i rtmp ks).2 j = ks j := by
  unfold setKeyStep
  exact upd_other _ _ h

theorem setKeyStep_congr (g : Tables) (words i rtmp : Nat) (ks1 ks2 : Nat → Nat)
    (h1 : ks1 (i - 1) = ks2 (i - 1)) (h2 : ks1 (i - words) = ks2 (i - words)) :
    (setKeyStep g words i rtmp ks1).1 = (setKeyStep g words i rtmp ks2).1 ∧
    (setKeyStep g words i rtmp ks1).2 i = (setKeyStep g words i rtmp ks2).2 i := by
  unfold setKeyStep
  simp only [upd_same, h1, h2, and_self]

theorem setKeyLoop_frame (g : Tables) (words : Nat) :
    ∀ (n i rtmp : Nat) (ks : Nat → Nat) (j : Nat), (j < i ∨ i + n ≤ j) →
      setKeyLoop g words n i rtmp ks j = ks j := by
  intro n
  induction n with
  | zero => intro i rtmp ks j _; rfl
  | succ n ih =>
    intro i rtmp ks j h
    rw [setKeyLoop, ih _ _ _ j (by omega), setKeyStep_snd_other g words i rtmp ks (by omega)]

theorem setKeyLoop_congr (g : Tables) {words : Nat} (hw : 1 ≤ words) :
    ∀ (n i rtmp : Nat) (ks1 ks2 : Nat → Nat), words ≤ i → (∀ j < i, ks1 j = ks2 j) →
      ∀ j < i + n, setKeyLoop g words n i rtmp ks1 j = setKeyLoop g words n i rtmp ks2 j := by
  intro n
  induction n with
  | zero => intro i rtmp ks1 ks2 _ h j hj; exact h j (by omega)
  | succ n ih =>
    intro i rtmp ks1 ks2 hi h j hj
    obtain ⟨e1, e2⟩ := setKeyStep_congr g words i rtmp ks1 ks2 (h _ (by omega)) (h _ (by omega))
    rw [setKeyLoop, setKeyLoop, e1]
    apply ih (i + 1) _ _ _ (by omega) _ j (by omega)
    intro k hk
    by_cases e : k = i
    · rw [e]; exact e2
    · rw [setKeyStep_snd_other g words i rtmp ks1 e, setKeyStep_snd_other g words i rtmp ks2 e]
      exact h k (by omega)

theorem setKey128_frame (g : Tables) (ctx : AES_CTX) (key : List Nat) :
    ∀ j, 44 ≤ j → (AES_set_key g ctx key AES_MODE_128).ks j = ctx.ks j := by
  intro j hj
  have e : (AES_set_key g ctx key AES_MODE_128).ks =
      setKeyLoop g 4 40 4 0 (storeWords ctx.ks 0 (AES_hncpy32 key 0)) := rfl
  rw [e, setKeyLoop_frame g 4 40 4 0 _ j (by omega), (init128 ctx.ks key).2 j (by omega)]

theorem setKey256_frame (g : Tables) (ctx : AES_CTX) (key : List Nat) :
    ∀ j, 60 ≤ j → (AES_set_key g ctx key AES_MODE_256).ks j = ctx.ks j := by
  intro j hj
  have e : (AES_set_key g ctx key AES_MODE_256).ks =
      setKeyLoop g 8 52 8 0
        (storeWords (storeWords ctx.ks 4 (AES_hncpy32 key 4)) 0 (AES_hncpy32 key 0)) := rfl
  rw [e, setKeyLoop_frame g 8 52 8 0 _ j (by omega), (init256 ctx.ks key).2 j (by omega)]

theorem setKey128_assigned (g : Tables) (c1 c2 : AES_CTX) (key : List Nat) :
    ∀ j, j < 44 → (AES_set_key g c1 key AES_MODE_128).ks j =
      (AES_set_key g c2 key AES_MODE_128).ks j := by
  intro j hj
  have e : ∀ c : AES_CTX, (AES_set_key g c key AES_MODE_128).ks =
      setKeyLoop g 4 40 4 0 (storeWords c.ks 0 (AES_hncpy32 key 0)) := fun _ => rfl
  rw [e, e]
  apply setKeyLoop_congr g (by omega) 40 4 0 _ _ (by omega) _ j (by omega)
  intro k hk
  rw [(init128 c1.ks key).1 k hk, (init128 c2.ks key).1 k hk]

theorem setKey256_assigned (g : Tables) (c1 c2 : AES_CTX) (key : List Nat) :
    ∀ j, j < 60 → (AES_set_key g c1 key AES_MODE_256).ks j =
      (AES_set_key g c2 key AES_MODE_256).ks j := by
  intro j hj
  have e : ∀ c : AES_CTX, (AES_set_key g c key AES_MODE_256).ks =
      setKeyLoop g 8 52 8 0
        (storeWords (storeWords c.ks 4 (AES_hncpy32 key 4)) 0 (AES_hncpy32 key 0)) :=
    fun _ => rfl
  rw [e, e]
  apply setKeyLoop_congr g (by omega) 52 8 0 _ _ (by omega) _ j (by omega)
  intro k hk
  rw [(init256 c1.ks key).1 k hk, (init256 c2.ks key).1 k hk]

/-! ## Products by the constants of the column mixes -/

theorem gfMul_consts : ∀ b < 256,
    Fips197.gfMul 1 b = b ∧ Fips197.gfMul 2 b = AES_xtime b ∧
    Fips197.gfMul 3 b = (AES_xtime b ^^^ b) ∧
    Fips197.gfMul 9 b = m9 b ∧ Fips197.gfMul 11 b = m11 b ∧ Fips197.gfMul 13 b = m13 b ∧
    Fips197.gfMul 14 b = m14 b := by
  decide!

theorem sbox_spec : ∀ x < 256,
    sboxTable.getD x 0 = Fips197.SBox x ∧
    (0 < x → Fips197.gfMul x (Fips197.gfInv x) = 1 ∧ Fips197.gfInv x < 256) := by
  decide!

theorem sbox_def (x : Nat) (hx : x < 256) (h0 : 0 < x) :
    Fips197.gfMul x (Fips197.gfInv x) = 1 ∧ Fips197.gfInv x < 256 ∧
    sboxTable.getD x 0 = Fips197.affine (Fips197.gfInv x) ^^^ 0x63 :=
  ⟨((sbox_spec x hx).2 h0).1, ((sbox_spec x hx).2 h0).2, (sbox_spec x hx).1⟩

theorem sbox_perm : sboxTable.Perm (List.range 256) := by
  have sub : List.range 256 ⊆ sboxTable := by
    intro j hj
    have hj' : j < 256 := List.mem_range.mp hj
    have hi : isboxTable.getD j 0 < sboxTable.length := by
      rw [sboxTable_length]; exact (genTables_ok j hj').2.1
    rw [← sbox_isbox j hj', List.getD_eq_getElem _ _ hi]
    exact List.getElem_mem hi
  exact ((List.subperm_of_subset (List.nodup_range 256) sub).perm_of_length_le
    (by rw [sboxTable_length, List.length_range])).symm

open Fips197

/-! ## Agreement with FIPS-197 -/

theorem SBox_table (x : Nat) (hx : x < 256) : sboxTable.getD x 0 = SBox x :=
  (sbox_spec x hx).1

theorem SBox_lt {x : Nat} (h : x < 256) : SBox x < 256 := by
  rw [← SBox_table x h]; exact (genTables_ok x h).1

theorem sAt_mk (f : Nat → Nat → Nat) {r c : Nat} (hr : r < 4) (hc : c < 4) :
    sAt (mkState f) r c = f r c := by
  interval_cases r <;> interval_cases c <;> rfl

theorem mk_bytes {f : Nat → Nat → Nat} (h : ∀ r c, f r c < 256) : ∀ b ∈ mkState f, b < 256 := by
  intro b hb
  simp only [mkState, List.mem_cons, List.mem_singleton, List.not_mem_nil, or_false] at hb
  rcases hb with e | e | e | e | e | e | e | e | e | e | e | e | e | e | e | e <;> rw [e] <;>
    exact h _ _

theorem sAt_lt {s : List Nat} (h : ∀ b ∈ s, b < 256) (r c : Nat) : sAt s r c < 256 :=
  getD_lt h _

theorem words_state (s : List Nat) :
    wordsOfBytes s =
      [W (sAt s 0 0) (sAt s 1 0) (sAt s 2 0) (sAt s 3 0),
       W (sAt s 0 1) (sAt s 1 1) (sAt s 2 1) (sAt s 3 1),
       W (sAt s 0 2) (sAt s 1 2) (sAt s 2 2) (sAt s 3 2),
       W (sAt s 0 3) (sAt s 1 3) (sAt s 2 3) (sAt s 3 3)] := rfl

theorem words_mk (f : Nat → Nat → Nat) :
    wordsOfBytes (mkState f) =
      [W (f 0 0) (f 1 0) (f 2 0) (f 3 0), W (f 0 1) (f 1 1) (f 2 1) (f 3 1),
       W (f 0 2) (f 1 2) (f 2 2) (f 3 2), W (f 0 3) (f 1 3) (f 2 3) (f 3 3)] := rfl

theorem subq_W {t : List Nat} {a0 a1 a2 a3 b0 b1 b2 b3 c0 c1 c2 c3 d0 d1 d2 d3 : Nat}
    (ha1 : a1 < 256) (ha2 : a2 < 256) (ha3 : a3 < 256) (ha0 : a0 < 256)
    (hb2 : b2 < 256) (hb3 : b3 < 256) (hb1 : b1 < 256)
    (hc3 : c3 < 256) (hc2 : c2 < 256) (hd3 : d3 < 256) :
    subq t (W a0 a1 a2 a3) (W b0 b1 b2 b3) (W c0 c1 c2 c3) (W d0 d1 d2 d3) =
      W (t.getD a0 0) (t.getD b1 0) (t.getD c2 0) (t.getD d3 0) := by
  unfold subq
  rw [B0_W ha0 ha1 ha2 ha3, B1_W hb1 hb2 hb3, B2_W hc2 hc3, B3_W hd3]

theorem SS_state {s : List Nat} (h : ∀ b ∈ s, b < 256) :
    SS genTables (wordsOfBytes s) = wordsOfBytes (ShiftRows (SubBytes s)) := by
  have b := sAt_lt h
  have e : ∀ r c, genTables.aes_sbox.getD (sAt s r c) 0 = SBox (sAt s r c) :=
    fun r c => SBox_table _ (b r c)
  rw [words_state s]
  unfold ShiftRows SubBytes
  rw [words_mk]
  simp only [SS, List.getD_cons_zero, List.getD_cons_succ,
    subq_W (b 1 0) (b 2 0) (b 3 0) (b 0 0) (b 2 1) (b 3 1) (b 1 1) (b 3 2) (b 2 2) (b 3 3),
    subq_W (b 1 1) (b 2 1) (b 3 1) (b 0 1) (b 2 2) (b 3 2) (b 1 2) (b 3 3) (b 2 3) (b 3 0),
    subq_W (b 1 2) (b 2 2) (b 3 2) (b 0 2) (b 2 3) (b 3 3) (b 1 3) (b 3 0) (b 2 0) (b 3 1),
    subq_W (b 1 3) (b 2 3) (b 3 3) (b 0 3) (b 2 0) (b 3 0) (b 1 0) (b 3 1) (b 2 1) (b 3 2),
    e, Nat.reduceAdd, Nat.reduceMod, Nat.zero_add,
    sAt_mk _ (show 0 < 4 by omega) (show 0 < 4 by omega),
    sAt_mk _ (show 1 < 4 by omega) (show 0 < 4 by omega),
    sAt_mk _ (show 2 < 4 by omega) (show 0 < 4 by omega),
    sAt_mk _ (show 3 < 4 by omega) (show 0 < 4 by omega),
    sAt_mk _ (show 0 < 4 by omega) (show 1 < 4 by omega),
    sAt_mk _ (show 1 < 4 by omega) (show 1 < 4 by omega),
    sAt_mk _ (show 2 < 4 by omega) (show 1 < 4 by omega),
    sAt_mk _ (show 3 < 4 by omega) (show 1 < 4 by omega),
    sAt_mk _ (show 0 < 4 by omega) (show 2 < 4 by omega),
    sAt_mk _ (show 1 < 4 by omega) (show 2 < 4 by omega),
    sAt_mk _ (show 2 < 4 by omega) (show 2 < 4 by omega),
    sAt_mk _ (show 3 < 4 by omega) (show 2 < 4 by omega),
    sAt_mk _ (show 0 < 4 by omega) (show 3 < 4 by omega),
    sAt_mk _ (show 1 < 4 by omega) (show 3 < 4 by omega),
    sAt_mk _ (show 2 < 4 by omega) (show 3 < 4 by omega),
    sAt_mk _ (show 3 < 4 by omega) (show 3 < 4 by omega)]

theorem mixW_W {a0 a1 a2 a3 : Nat} (h0 : a0 < 256) (h1 : a1 < 256) (h2 : a2 < 256)
    (h3 : a3 < 256) :
    mixW (W a0 a1 a2 a3) =
      W (mc0 a0 a1 a2 a3) (mc0 a1 a2 a3 a0) (mc0 a2 a3 a0 a1) (mc0 a3 a0 a1 a2) := by
  unfold mixW
  rw [B0_W h0 h1 h2 h3, B1_W h1 h2 h3, B2_W h2 h3, B3_W h3]

theorem mixCoeff_vals :
    mixCoeff 0 0 = 2 ∧ mixCoeff 0 1 = 3 ∧ mixCoeff 0 2 = 1 ∧ mixCoeff 0 3 = 1 ∧
    mixCoeff 1 0 = 1 ∧ mixCoeff 1 1 = 2 ∧ mixCoeff 1 2 = 3 ∧ mixCoeff 1 3 = 1 ∧
    mixCoeff 2 0 = 1 ∧ mixCoeff 2 1 = 1 ∧ mixCoeff 2 2 = 2 ∧ mixCoeff 2 3 = 3 ∧
    mixCoeff 3 0 = 3 ∧ mixCoeff 3 1 = 1 ∧ mixCoeff 3 2 = 1 ∧ mixCoeff 3 3 = 2 := by
  decide

theorem mix_rows {a0 a1 a2 a3 : Nat} (h0 : a0 < 256) (h1 : a1 < 256) (h2 : a2 < 256)
    (h3 : a3 < 256) :
    gfMul 2 a0 ^^^ gfMul 3 a1 ^^^ gfMul 1 a2 ^^^ gfMul 1 a3 = mc0 a0 a1 a2 a3 ∧
    gfMul 1 a0 ^^^ gfMul 2 a1 ^^^ gfMul 3 a2 ^^^ gfMul 1 a3 = mc0 a1 a2 a3 a0 ∧
    gfMul 1 a0 ^^^ gfMul 1 a1 ^^^ gfMul 2 a2 ^^^ gfMul 3 a3 = mc0 a2 a3 a0 a1 ∧
    gfMul 3 a0 ^^^ gfMul 1 a1 ^^^ gfMul 1 a2 ^^^ gfMul 2 a3 = mc0 a3 a0 a1 a2 := by
  obtain ⟨p1, p2, p3, -⟩ := gfMul_consts a0 h0
  obtain ⟨q1, q2, q3, -⟩ := gfMul_consts a1 h1
  obtain ⟨r1, r2, r3, -⟩ := gfMul_consts a2 h2
  obtain ⟨s1, s2, s3, -⟩ := gfMul_consts a3 h3
  rw [p1, p2, p3, q1, q2, q3, r1, r2, r3, s1, s2, s3]
  unfold mc0
  refine ⟨rfl, ?_, ?_, ?_⟩ <;> ac_rfl

theorem MC_state {s : List Nat} (h : ∀ b ∈ s, b < 256) :
    (wordsOfBytes s).map mixW = wordsOfBytes (MixColumns s) := by
  have b := sAt_lt h
  obtain ⟨c00, c01, c02, c03, c10, c11, c12, c13, c20, c21, c22, c23, c30, c31, c32, c33⟩ :=
    mixCoeff_vals
  obtain ⟨u0, u1, u2, u3⟩ := mix_rows (b 0 0) (b 1 0) (b 2 0) (b 3 0)
  obtain ⟨v0, v1, v2, v3⟩ := mix_rows (b 0 1) (b 1 1) (b 2 1) (b 3 1)
  obtain ⟨w0, w1, w2, w3⟩ := mix_rows (b 0 2) (b 1 2) (b 2 2) (b 3 2)
  obtain ⟨x0, x1, x2, x3⟩ := mix_rows (b 0 3) (b 1 3) (b 2 3) (b 3 3)
  rw [words_state s]
  unfold MixColumns
  rw [words_mk]
  simp only [List.map_cons, List.map_nil, mixW_W (b 0 0) (b 1 0) (b 2 0) (b 3 0),
    mixW_W (b 0 1) (b 1 1) (b 2 1) (b 3 1), mixW_W (b 0 2) (b 1 2) (b 2 2) (b 3 2),
    mixW_W (b 0 3) (b 1 3) (b 2 3) (b 3 3),
    c00, c01, c02, c03, c10, c11, c12, c13, c20, c21, c22, c23, c30, c31, c32, c33,
    u0, u1, u2, u3, v0, v1, v2, v3, w0, w1, w2, w3, x0, x1, x2, x3]

theorem wordOf_lt {w : List Nat} (h : ∀ b ∈ w, b < 256) : wordOf w < 2 ^ 32 :=
  W_lt (getD_lt h _) (getD_lt h _) (getD_lt h _) (getD_lt h _)

theorem ARK_state {s : List Nat} (h : ∀ b ∈ s, b < 256) (ks : Nat → Nat) (w : List (List Nat))
    (round : Nat)
    (hk : ∀ c < 4, ks (4 * round + c) = wordOf (w.getD (4 * round + c) []) ∧
      ∀ b ∈ w.getD (4 * round + c) [], b < 256) :
    XK ks (4 * round) (wordsOfBytes s) = wordsOfBytes (AddRoundKey s w round) := by
  have b := sAt_lt h
  obtain ⟨k0, y0⟩ := hk 0 (by omega)
  obtain ⟨k1, y1⟩ := hk 1 (by omega)
  obtain ⟨k2, y2⟩ := hk 2 (by omega)
  obtain ⟨k3, y3⟩ := hk 3 (by omega)
  rw [Nat.add_zero] at k0 y0
  rw [words_state s]
  unfold AddRoundKey
  rw [words_mk]
  simp only [XK, List.getD_cons_zero, List.getD_cons_succ, k0, k1, k2, k3, wordOf,
    Nat.add_zero]
  rw [W_xor (b 1 0) (b 2 0) (b 3 0) (getD_lt y0 _) (getD_lt y0 _) (getD_lt y0 _),
    W_xor (b 1 1) (b 2 1) (b 3 1) (getD_lt y1 _) (getD_lt y1 _) (getD_lt y1 _),
    W_xor (b 1 2) (b 2 2) (b 3 2) (getD_lt y2 _) (getD_lt y2 _) (getD_lt y2 _),
    W_xor (b 1 3) (b 2 3) (b 3 3) (getD_lt y3 _) (getD_lt y3 _) (getD_lt y3 _)]

theorem SubBytes_bytes {s : List Nat} (h : ∀ b ∈ s, b < 256) : ∀ b ∈ SubBytes s, b < 256 :=
  mk_bytes (fun _ _ => SBox_lt (sAt_lt h _ _))

theorem ShiftRows_bytes {s : List Nat} (h : ∀ b ∈ s, b < 256) : ∀ b ∈ ShiftRows s, b < 256 :=
  mk_bytes (fun _ _ => sAt_lt h _ _)

theorem gfMul_coeff_lt (r k : Nat) {b : Nat} (h : b < 256) : gfMul (mixCoeff r k) b < 256 := by
  obtain ⟨p1, p2, p3, -⟩ := gfMul_consts b h
  have hc : mixCoeff r k = 1 ∨ mixCoeff r k = 2 ∨ mixCoeff r k = 3 ∨ mixCoeff r k = 0 := by
    unfold mixCoeff
    have : (k + 4 - r) % 4 < 4 := Nat.mod_lt _ (by omega)
    interval_cases (k + 4 - r) % 4 <;> simp
  rcases hc with e | e | e | e <;> rw [e]
  · rw [p1]; exact h
  · rw [p2]; exact AES_xtime_lt _
  · rw [p3]; exact xor_lt_256 (AES_xtime_lt _) h
  · have z : gfMul 0 b = 0 := by simp [gfMul, polyMul, polyMod, polyRed]
    rw [z]; omega

theorem MixColumns_bytes {s : List Nat} (h : ∀ b ∈ s, b < 256) :
    ∀ b ∈ MixColumns s, b < 256 :=
  mk_bytes (fun _ _ => xor_lt_256 (xor_lt_256 (xor_lt_256 (gfMul_coeff_lt _ _ (sAt_lt h _ _))
    (gfMul_coeff_lt _ _ (sAt_lt h _ _))) (gfMul_coeff_lt _ _ (sAt_lt h _ _)))
    (gfMul_coeff_lt _ _ (sAt_lt h _ _)))

theorem AddRoundKey_bytes {s : List Nat} (h : ∀ b ∈ s, b < 256) (w : List (List Nat))
    (round : Nat) (hw : ∀ c, ∀ b ∈ w.getD (4 * round + c) [], b < 256) :
    ∀ b ∈ AddRoundKey s w round, b < 256 :=
  mk_bytes (fun _ _ => xor_lt_256 (sAt_lt h _ _) (getD_lt (hw _) _))

theorem wordOf_xorWord {a b : List Nat} (ha : ∀ x ∈ a, x < 256) (hb : ∀ x ∈ b, x < 256) :
    wordOf (xorWord a b) = wordOf a ^^^ wordOf b := by
  unfold wordOf
  rw [W_xor (getD_lt ha _) (getD_lt ha _) (getD_lt ha _) (getD_lt hb _) (getD_lt hb _)
    (getD_lt hb _)]
  rfl

theorem xorWord_bytes {a b : List Nat} (ha : ∀ x ∈ a, x < 256) (hb : ∀ x ∈ b, x < 256) :
    ∀ x ∈ xorWord a b, x < 256 := by
  intro x hx
  simp only [xorWord, List.mem_cons, List.mem_singleton, List.not_mem_nil, or_false] at hx
  rcases hx with e | e | e | e <;> rw [e] <;> exact xor_lt_256 (getD_lt ha _) (getD_lt hb _)

theorem SubWord_bytes {a : List Nat} (ha : ∀ x ∈ a, x < 256) :
    ∀ x ∈ Fips197.SubWord a, x < 256 := by
  intro x hx
  simp only [Fips197.SubWord, List.mem_cons, List.mem_singleton, List.not_mem_nil,
    or_false] at hx
  rcases hx with e | e | e | e <;> rw [e] <;> exact SBox_lt (getD_lt ha _)

theorem RotWord_bytes {a : List Nat} (ha : ∀ x ∈ a, x < 256) :
    ∀ x ∈ Fips197.RotWord a, x < 256 := by
  intro x hx
  simp only [Fips197.RotWord, List.mem_cons, List.mem_singleton, List.not_mem_nil,
    or_false] at hx
  rcases hx with e | e | e | e <;> rw [e] <;> exact getD_lt ha _

theorem rcon_vals : ∀ q < 11, 0 < q → Rcon.getD (q - 1) 0 = Nat.iterate (gfMul 2) (q - 1) 1 := by
  decide

theorem rcon_bytes {q : Nat} (h1 : 0 < q) (h2 : q < 11) : ∀ x ∈ rcon q, x < 256 := by
  intro x hx
  simp only [rcon, List.mem_cons, List.mem_singleton, List.not_mem_nil, or_false] at hx
  rcases hx with e | e | e | e
  · rw [e, ← rcon_vals q h2 h1]; exact Rcon_lt _
  all_goals rw [e]; omega

theorem wordOf_rcon {q : Nat} (h1 : 0 < q) (h2 : q < 11) :
    wordOf (rcon q) = Rcon.getD (q - 1) 0 <<< 24 := by
  rw [rcon_vals q h2 h1, Nat.shiftLeft_eq]
  unfold wordOf rcon W
  simp only [List.getD_cons_zero, List.getD_cons_succ]
  omega

theorem wordOf_SubRot {t : List Nat} (ht : ∀ x ∈ t, x < 256) :
    AesC.SubWord sboxTable (AesC.RotWord (wordOf t)) =
      wordOf (Fips197.SubWord (Fips197.RotWord t)) := by
  have b0 := getD_lt ht 0
  have b1 := getD_lt ht 1
  have b2 := getD_lt ht 2
  have b3 := getD_lt ht 3
  rw [RotWord_eq (wordOf_lt ht)]
  unfold AesC.SubWord wordOf
  rw [B0_W b0 b1 b2 b3, B1_W b1 b2 b3, B2_W b2 b3, B3_W b3, B0_W b1 b2 b3 b0, B1_W b2 b3 b0,
    B2_W b3 b0, B3_W b0, SBox_table _ b0, SBox_table _ b1, SBox_table _ b2, SBox_table _ b3]
  rfl

theorem keyTmp_spec {t : List Nat} (ht : ∀ x ∈ t, x < 256) {i : Nat} (h1 : 4 ≤ i)
    (h2 : i < 44) :
    keyTmp sboxTable 4 i (wordOf t) =
      wordOf (if i % 4 = 0 then xorWord (Fips197.SubWord (Fips197.RotWord t)) (rcon (i / 4))
        else if 6 < 4 ∧ i % 4 = 4 then Fips197.SubWord t else t) ∧
    ∀ x ∈ (if i % 4 = 0 then xorWord (Fips197.SubWord (Fips197.RotWord t)) (rcon (i / 4))
        else if 6 < 4 ∧ i % 4 = 4 then Fips197.SubWord t else t), x < 256 := by
  unfold keyTmp
  by_cases h0 : i % 4 = 0
  · have q1 : 0 < i / 4 := by omega
    have q2 : i / 4 < 11 := by omega
    rw [if_pos h0, if_pos h0]
    constructor
    · rw [wordOf_xorWord (SubWord_bytes (RotWord_bytes ht)) (rcon_bytes q1 q2),
        wordOf_SubRot ht, wordOf_rcon q1 q2]
    · exact xorWord_bytes (SubWord_bytes (RotWord_bytes ht)) (rcon_bytes q1 q2)
  · have h3 : ¬ ((4 : Nat) = 8 ∧ i % 8 = 4) := by omega
    have h4 : ¬ (6 < 4 ∧ i % 4 = 4) := by omega
    rw [if_neg h0, if_neg h0, if_neg h3, if_neg h4]
    exact ⟨rfl, ht⟩

theorem expandStep_length (Nk : Nat) (w : List (List Nat)) :
    (expandStep Nk w).length = w.length + 1 := by
  simp [expandStep]

theorem expandStep_old (Nk : Nat) (w : List (List Nat)) {i : Nat} (h : i < w.length) :
    (expandStep Nk w).getD i [] = w.getD i [] := by
  unfold expandStep
  simp only [List.getD_eq_getElem?_getD, List.getElem?_append_left h]

theorem expandStep_new (Nk : Nat) (w : List (List Nat)) :
    (expandStep Nk w).getD w.length [] =
      xorWord (w.getD (w.length - Nk) [])
        (if w.length % Nk = 0 then
          xorWord (Fips197.SubWord (Fips197.RotWord (w.getD (w.length - 1) [])))
            (rcon (w.length / Nk))
        else if 6 < Nk ∧ w.length % Nk = 4 then Fips197.SubWord (w.getD (w.length - 1) [])
        else w.getD (w.length - 1) []) := by
  unfold expandStep
  simp only [List.getD_eq_getElem?_getD, List.getElem?_append_right (Nat.le_refl _),
    Nat.sub_self, List.getElem?_cons_zero, Option.getD_some]

theorem keyWord_bytes {key : List Nat} (hk : ∀ b ∈ key, b < 256) (i : Nat) :
    ∀ x ∈ keyWord key i, x < 256 := by
  intro x hx
  simp only [keyWord, List.mem_cons, List.mem_singleton, List.not_mem_nil, or_false] at hx
  rcases hx with e | e | e | e <;> rw [e] <;> exact getD_lt hk _

/-- The round keys of `AES_set_key` in mode 128 are the words of the standard key
expansion. -/
theorem key_expansion_rel (ctx : AES_CTX) {key : List Nat} (hk : ∀ b ∈ key, b < 256) :
    ∀ n, n ≤ 40 →
      ((expandStep 4)^[n] ((List.range 4).map (keyWord key))).length = 4 + n ∧
      ∀ i < 4 + n,
        (AES_set_key genTables ctx key AES_MODE_128).ks i =
          wordOf (((expandStep 4)^[n] ((List.range 4).map (keyWord key))).getD i []) ∧
        ∀ b ∈ ((expandStep 4)^[n] ((List.range 4).map (keyWord key))).getD i [], b < 256 := by
  obtain ⟨-, -, s1, -, -, s4⟩ :=
    AES_set_key_spec genTables_sbox_lt ctx key AES_MODE_128 4 10 mode128
  intro n
  induction n with
  | zero =>
    intro _
    refine ⟨rfl, ?_⟩
    intro i hi
    rw [s1 i (by omega), htonl_load32 key i (getD_lt hk _) (getD_lt hk _) (getD_lt hk _)
      (getD_lt hk _)]
    have e : ((expandStep 4)^[0] ((List.range 4).map (keyWord key))).getD i [] =
        keyWord key i := by
      interval_cases i <;> rfl
    rw [e]
    exact ⟨rfl, keyWord_bytes hk i⟩
  | succ n ih =>
    intro hn
    obtain ⟨hl, hw⟩ := ih (by omega)
    rw [Function.iterate_succ_apply']
    refine ⟨by rw [expandStep_length, hl]; omega, ?_⟩
    intro i hi
    by_cases h : i < 4 + n
    · rw [expandStep_old 4 _ (by rw [hl]; exact h)]
      exact hw i h
    · have e : i = ((expandStep 4)^[n] ((List.range 4).map (keyWord key))).length := by
        rw [hl]; omega
      obtain ⟨a1, a2⟩ := hw (i - 4) (by omega)
      obtain ⟨b1, b2⟩ := hw (i - 1) (by omega)
      obtain ⟨t1, t2⟩ := keyTmp_spec b2 (i := i) (by omega) (by omega)
      have en := expandStep_new 4 ((expandStep 4)^[n] ((List.range 4).map (keyWord key)))
      rw [← e] at en
      rw [en]
      constructor
      · rw [s4 i (by omega) (by omega), a1, b1, wordOf_xorWord a2 t2]
        exact congrArg _ t1
      · exact xorWord_bytes a2 t2

theorem encRounds_add (g : Tables) (ctx : AES_CTX) (m : Nat) :
    ∀ n r k d, encRounds g ctx (n + m) r k d =
      encRounds g ctx m (r + n) (k + 4 * n) (encRounds g ctx n r k d) := by
  intro n
  induction n with
  | zero => intro r k d; rw [Nat.zero_add]; rfl
  | succ n ih =>
    intro r k d
    rw [show n + 1 + m = (n + m) + 1 by omega, encRounds, ih, encRounds,
      show r + 1 + n = r + (n + 1) by omega, show k + 4 + 4 * n = k + 4 * (n + 1) by omega]

theorem keyExpansion_facts (ctx : AES_CTX) {key : List Nat} (hk : ∀ b ∈ key, b < 256) :
    (∀ i < 44, (AES_set_key genTables ctx key AES_MODE_128).ks i =
      wordOf ((KeyExpansion key 4 10).getD i [])) ∧
    ∀ i, ∀ b ∈ (KeyExpansion key 4 10).getD i [], b < 256 := by
  obtain ⟨hl, hw⟩ := key_expansion_rel ctx hk 40 (Nat.le_refl _)
  have e : KeyExpansion key 4 10 = (expandStep 4)^[40] ((List.range 4).map (keyWord key)) := rfl
  rw [e]
  refine ⟨fun i hi => (hw i (by omega)).1, ?_⟩
  intro i
  by_cases hi : i < 44
  · exact (hw i (by omega)).2
  · rw [List.getD_eq_default _ _ (by rw [hl]; omega)]
    intro b hb
    exact absurd hb (List.not_mem_nil b)

theorem cipher_rounds_rel (ctx : AES_CTX) {key : List Nat} (hk : ∀ b ∈ key, b < 256) :
    ∀ n cur s, (∀ b ∈ s, b < 256) → cur + n ≤ 9 →
      encRounds genTables (AES_set_key genTables ctx key AES_MODE_128) n cur (4 * (cur + 1))
          (wordsOfBytes s) =
        wordsOfBytes (cipherRounds (KeyExpansion key 4 10) n (cur + 1) s) ∧
      ∀ b ∈ cipherRounds (KeyExpansion key 4 10) n (cur + 1) s, b < 256 := by
  obtain ⟨k1, k2⟩ := keyExpansion_facts ctx hk
  intro n
  induction n with
  | zero => intro cur s hs _; exact ⟨rfl, hs⟩
  | succ n ih =>
    intro cur s hs hc
    have hr : cur < (AES_set_key genTables ctx key AES_MODE_128).rounds - 1 := by
      rw [setKey128_rounds]; omega
    have b1 := SubBytes_bytes hs
    have b2 := ShiftRows_bytes b1
    have b3 := MixColumns_bytes b2
    have b4 := AddRoundKey_bytes b3 (KeyExpansion key 4 10) (cur + 1) (fun c => k2 _)
    have step : encRound genTables (AES_set_key genTables ctx key AES_MODE_128) cur
        (4 * (cur + 1)) (wordsOfBytes s) =
        wordsOfBytes (AddRoundKey (MixColumns (ShiftRows (SubBytes s)))
          (KeyExpansion key 4 10) (cur + 1)) := by
      rw [encRound_eq genTables_ok, if_pos hr, SS_state hs, MC_state b2,
        ARK_state b3 _ (KeyExpansion key 4 10) (cur + 1)
          (fun c hc' => ⟨k1 _ (by omega), k2 _⟩)]
    rw [encRounds, step, show 4 * (cur + 1) + 4 = 4 * (cur + 1 + 1) by omega, cipherRounds]
    exact ih (cur + 1) _ b4 (by omega)

/-- `AES_Encrypt` computes the cipher of FIPS-197 for AES-128. -/
theorem AES_Encrypt_fips (g : Tables) (h1 : g.aes_sbox.length = 256)
    (h2 : g.aes_isbox.length = 256) (ctx : AES_CTX) {P K : List Nat}
    (hP : ∀ b ∈ P, b < 256) (hK : ∀ b ∈ K, b < 256) :
    (AES_Encrypt g ctx P K).2 = Cipher P K := by
  obtain ⟨k1, k2⟩ := keyExpansion_facts ctx hK
  have hr : ¬ (9 < (AES_set_key genTables ctx K AES_MODE_128).rounds - 1) := by
    rw [setKey128_rounds]; omega
  have e0 : AES_encrypt genTables (AES_set_key genTables ctx K AES_MODE_128) (wordsOfBytes P) =
      encRounds genTables (AES_set_key genTables ctx K AES_MODE_128) (9 + 1) 0 4
        (XK (AES_set_key genTables ctx K AES_MODE_128).ks (4 * 0) (wordsOfBytes P)) := rfl
  have a0 := AddRoundKey_bytes hP (KeyExpansion K 4 10) 0 (fun c => k2 _)
  obtain ⟨r1, r2⟩ := cipher_rounds_rel ctx hK 9 0 _ a0 (by omega)
  have b1 := SubBytes_bytes r2
  have b2 := ShiftRows_bytes b1
  have last : encRound genTables (AES_set_key genTables ctx K AES_MODE_128) 9 (4 * 10)
      (wordsOfBytes (cipherRounds (KeyExpansion K 4 10) 9 (0 + 1)
        (AddRoundKey P (KeyExpansion K 4 10) 0))) =
      wordsOfBytes (AddRoundKey (ShiftRows (SubBytes (cipherRounds (KeyExpansion K 4 10) 9
        (0 + 1) (AddRoundKey P (KeyExpansion K 4 10) 0)))) (KeyExpansion K 4 10) 10) := by
    rw [encRound_eq genTables_ok, if_neg hr, SS_state r2,
      ARK_state b2 _ (KeyExpansion K 4 10) 10 (fun c hc' => ⟨k1 _ (by omega), k2 _⟩)]
  have fin : Bytes16 (AddRoundKey (ShiftRows (SubBytes (cipherRounds (KeyExpansion K 4 10) 9
      (0 + 1) (AddRoundKey P (KeyExpansion K 4 10) 0)))) (KeyExpansion K 4 10) 10) :=
    ⟨rfl, AddRoundKey_bytes b2 _ _ (fun c => k2 _)⟩
  rw [AES_Encrypt_eq g h1 h2 ctx P K hP]
  simp only []
  rw [e0, ARK_state hP _ (KeyExpansion K 4 10) 0 (fun c hc' => ⟨k1 _ (by omega), k2 _⟩),
    encRounds_add, r1]
  rw [show encRounds genTables (AES_set_key genTables ctx K AES_MODE_128) 1 (0 + 9)
      (4 * (0 + 1) + 4 * 9) (wordsOfBytes (cipherRounds (KeyExpansion K 4 10) 9 (0 + 1)
        (AddRoundKey P (KeyExpansion K 4 10) 0))) =
      encRound genTables (AES_set_key genTables ctx K AES_MODE_128) 9 (4 * 10)
        (wordsOfBytes (cipherRounds (KeyExpansion K 4 10) 9 (0 + 1)
          (AddRoundKey P (KeyExpansion K 4 10) 0))) from rfl,
    last, bytesOfWords_wordsOfBytes fin]
  rfl

/-! ## Uniqueness of inverses in GF(2^8) -/

theorem bit_mul_xor (u v c : Nat) (hu : u < 2) (hv : v < 2) :
    (u ^^^ v) * c = u * c ^^^ v * c := by
  interval_cases u <;> interval_cases v <;> simp

theorem bit_xor (a b i : Nat) :
    (a ^^^ b) / 2 ^ i % 2 = (a / 2 ^ i % 2) ^^^ (b / 2 ^ i % 2) := by
  rw [xor_div_two_pow]
  exact xor_mod_two_pow _ _ 1

theorem bit_lt (a i : Nat) : a / 2 ^ i % 2 < 2 := Nat.mod_lt _ (by omega)

theorem polyMul_bits (a b : Nat) :
    polyMul a b =
      (b / 2 ^ 0 % 2) * a ^^^ (b / 2 ^ 1 % 2) * (a * 2) ^^^ (b / 2 ^ 2 % 2) * (a * 4) ^^^
        (b / 2 ^ 3 % 2) * (a * 8) ^^^ (b / 2 ^ 4 % 2) * (a * 16) ^^^
        (b / 2 ^ 5 % 2) * (a * 32) ^^^ (b / 2 ^ 6 % 2) * (a * 64) ^^^
        (b / 2 ^ 7 % 2) * (a * 128) := by
  unfold polyMul
  simp only [Nat.pow_zero, Nat.div_one, Nat.pow_one, Nat.reducePow]

theorem polyMul_xor (a b c : Nat) : polyMul a (b ^^^ c) = polyMul a b ^^^ polyMul a c := by
  simp only [polyMul_bits, bit_xor, bit_mul_xor _ _ _ (bit_lt _ _) (bit_lt _ _)]
  ac_rfl

theorem polyRed_xor (i p q : Nat) : polyRed i (p ^^^ q) = polyRed i p ^^^ polyRed i q := by
  simp only [polyRed, bit_xor, bit_mul_xor _ _ _ (bit_lt _ _) (bit_lt _ _)]
  ac_rfl

theorem gfMul_xor (a b c : Nat) : gfMul a (b ^^^ c) = gfMul a b ^^^ gfMul a c := by
  simp only [gfMul, polyMod, polyMul_xor, polyRed_xor]

theorem gfMul_zero (a : Nat) : gfMul a 0 = 0 := by
  have h := gfMul_xor a 0 0
  rw [Nat.xor_self, Nat.xor_self] at h
  exact h

theorem byte_split : ∀ z < 256,
    z = (z &&& 1) ^^^ (z &&& 2) ^^^ (z &&& 4) ^^^ (z &&& 8) ^^^ (z &&& 16) ^^^ (z &&& 32) ^^^
      (z &&& 64) ^^^ (z &&& 128) := by
  decide!

theorem and_pow_cases (z i : Nat) : z &&& 2 ^ i = 0 ∨ z &&& 2 ^ i = 2 ^ i := by
  rw [Nat.and_two_pow]
  cases z.testBit i <;> simp

theorem inv_basis : ∀ x < 256, 0 < x → ∀ i < 8,
    gfMul (gfInv x) (gfMul x (2 ^ i)) = 2 ^ i := by
  decide!

theorem inv_part (x : Nat) (hx : x < 256) (h0 : 0 < x) (z i : Nat) (hi : i < 8) :
    gfMul (gfInv x) (gfMul x (z &&& 2 ^ i)) = z &&& 2 ^ i := by
  rcases and_pow_cases z i with h | h
  · rw [h, gfMul_zero, gfMul_zero]
  · rw [h, inv_basis x hx h0 i hi]

/-- Multiplication by a non-zero byte is undone by multiplication by its inverse. -/
theorem inv_cancel (x : Nat) (hx : x < 256) (h0 : 0 < x) (z : Nat) (hz : z < 256) :
    gfMul (gfInv x) (gfMul x z) = z := by
  have p := inv_part x hx h0 z
  have p0 := p 0 (by omega)
  have p1 := p 1 (by omega)
  have p2 := p 2 (by omega)
  have p3 := p 3 (by omega)
  have p4 := p 4 (by omega)
  have p5 := p 5 (by omega)
  have p6 := p 6 (by omega)
  have p7 := p 7 (by omega)
  simp only [Nat.pow_zero, Nat.pow_one, Nat.reducePow] at p0 p1 p2 p3 p4 p5 p6 p7
  have s := byte_split z hz
  conv_lhs => rw [s]
  simp only [gfMul_xor, p0, p1, p2, p3, p4, p5, p6, p7]
  exact s.symm

/-- A non-zero byte has exactly one multiplicative inverse among the bytes. -/
theorem inv_unique (x : Nat) (hx : x < 256) (h0 : 0 < x) (y : Nat) (hy : y < 256)
    (h : gfMul x y = 1) : y = gfInv x := by
  obtain ⟨q1, q2, -⟩ := sbox_def x hx h0
  have a := inv_cancel x hx h0 y hy
  have b := inv_cancel x hx h0 (gfInv x) q2
  rw [h] at a
  rw [q1] at b
  rw [← a, b]

/-! ## The column mixing statements of the block functions -/

theorem encRow_mix (g : Tables) (rounds r : Nat) (d : List Nat) (row : Nat)
    (h : r < rounds - 1) :
    encRow g rounds r d row =
      packList (encMixColumn
        (g.aes_sbox.getD ((d.getD (row % 4) 0 >>> 24) &&& 0xFF) 0)
        (g.aes_sbox.getD ((d.getD ((row + 1) % 4) 0 >>> 16) &&& 0xFF) 0)
        (g.aes_sbox.getD ((d.getD ((row + 2) % 4) 0 >>> 8) &&& 0xFF) 0)
        (g.aes_sbox.getD (d.getD ((row + 3) % 4) 0 &&& 0xFF) 0)) := by
  unfold encRow
  rw [if_pos h]
  rfl

theorem decRow_mix (g : Tables) (rounds r : Nat) (d : List Nat) (row : Nat)
    (h : r < rounds - 1) :
    decRow g rounds r d row =
      packList (decMixColumn
        (g.aes_isbox.getD ((d.getD ((row + 3) % 4) 0 >>> 24) &&& 0xFF) 0)
        (g.aes_isbox.getD ((d.getD ((row + 2) % 4) 0 >>> 16) &&& 0xFF) 0)
        (g.aes_isbox.getD ((d.getD ((row + 1) % 4) 0 >>> 8) &&& 0xFF) 0)
        (g.aes_isbox.getD (d.getD (row % 4) 0 &&& 0xFF) 0)) := by
  unfold decRow
  rw [if_pos h]
  rfl

theorem encMixColumn_eq (a0 a1 a2 a3 : Nat) :
    encMixColumn a0 a1 a2 a3 =
      [mc0 a0 a1 a2 a3, mc0 a1 a2 a3 a0, mc0 a2 a3 a0 a1, mc0 a3 a0 a1 a2] := by
  unfold encMixColumn
  simp only [enc_mix_byte, enc_mix_byte1, enc_mix_byte2, enc_mix_byte3]

theorem decMixColumn_eq (a0 a1 a2 a3 : Nat) :
    decMixColumn a0 a1 a2 a3 =
      [imc0 a0 a1 a2 a3, imc0 a1 a2 a3 a0, imc0 a2 a3 a0 a1, imc0 a3 a0 a1 a2] := by
  unfold decMixColumn
  simp only [dec_mix_byte, dec_mix_byte1, dec_mix_byte2, dec_mix_byte3]

theorem decMixColumn_word {a0 a1 a2 a3 : Nat} (h0 : a0 < 256) (h1 : a1 < 256)
    (h2 : a2 < 256) (h3 : a3 < 256) :
    packList (decMixColumn a0 a1 a2 a3) = inv_mix_col (pack a0 a1 a2 a3) := by
  rw [decMixColumn_eq, pack_eq_W h0 h1 h2 h3, inv_mix_col_W h0 h1 h2 h3]
  exact pack_eq_W (imc0_lt h1 h2 h3) (imc0_lt h2 h3 h0) (imc0_lt h3 h0 h1) (imc0_lt h0 h1 h2)

theorem decMixColumn_encMixColumn (a0 a1 a2 a3 : Nat) :
    decMixColumn ((encMixColumn a0 a1 a2 a3).getD 0 0) ((encMixColumn a0 a1 a2 a3).getD 1 0)
      ((encMixColumn a0 a1 a2 a3).getD 2 0) ((encMixColumn a0 a1 a2 a3).getD 3 0) =
      [a0, a1, a2, a3] := by
  rw [encMixColumn_eq, decMixColumn_eq]
  simp only [List.getD_cons_zero, List.getD_cons_succ]
  rw [imc0_mc0 a0 a1 a2 a3, imc0_mc0 a1 a2 a3 a0, imc0_mc0 a2 a3 a0 a1, imc0_mc0 a3 a0 a1 a2]

theorem inv_mix_col_xor {u v : Nat} (hu : u < 2 ^ 32) (hv : v < 2 ^ 32) :
    inv_mix_col (u ^^^ v) = inv_mix_col u ^^^ inv_mix_col v := by
  rw [inv_mix_col_eq (xor_lt_32 hu hv), inv_mix_col_eq hu, inv_mix_col_eq hv, imixW_xor]

theorem mul2_lanes {w : Nat} (h : w < 2 ^ 32) :
    B0 (mul2 w) = AES_xtime (B0 w) ∧ B1 (mul2 w) = AES_xtime (B1 w) ∧
    B2 (mul2 w) = AES_xtime (B2 w) ∧ B3 (mul2 w) = AES_xtime (B3 w) := by
  have e : mul2 w = W (AES_xtime (B0 w)) (AES_xtime (B1 w)) (AES_xtime (B2 w))
      (AES_xtime (B3 w)) := by
    conv_lhs => rw [← W_bytes h]
    exact mul2_W (B0_lt w) (B1_lt w) (B2_lt w) (B3_lt w)
  rw [e]
  exact ⟨B0_W (AES_xtime_lt _) (AES_xtime_lt _) (AES_xtime_lt _) (AES_xtime_lt _),
    B1_W (AES_xtime_lt _) (AES_xtime_lt _) (AES_xtime_lt _),
    B2_W (AES_xtime_lt _) (AES_xtime_lt _), B3_W (AES_xtime_lt _)⟩

/-! ## The inverse column mix applied twice -/

theorem imc0_sq_unit : ∀ b < 256,
    imc0 (m14 b) (m9 b) (m13 b) (m11 b) = (b ^^^ AES_xtime (AES_xtime b)) ∧
    imc0 (m11 b) (m14 b) (m9 b) (m13 b) = 0 ∧
    imc0 (m13 b) (m11 b) (m14 b) (m9 b) = AES_xtime (AES_xtime b) ∧
    imc0 (m9 b) (m13 b) (m11 b) (m14 b) = 0 := by
  decide!

theorem xtime2_zero : ∀ z < 256, AES_xtime (AES_xtime z) = 0 → z = 0 := by
  decide!

theorem imc0_sq {b0 b1 b2 b3 : Nat} (h0 : b0 < 256) (h1 : b1 < 256) (h2 : b2 < 256)
    (h3 : b3 < 256) :
    imc0 (imc0 b0 b1 b2 b3) (imc0 b1 b2 b3 b0) (imc0 b2 b3 b0 b1) (imc0 b3 b0 b1 b2) =
      b0 ^^^ AES_xtime (AES_xtime (b0 ^^^ b2)) := by
  have e0 : imc0 b0 b1 b2 b3 = m14 b0 ^^^ m11 b1 ^^^ m13 b2 ^^^ m9 b3 := rfl
  have e1 : imc0 b1 b2 b3 b0 = m9 b0 ^^^ m14 b1 ^^^ m11 b2 ^^^ m13 b3 := by
    unfold imc0; ac_rfl
  have e2 : imc0 b2 b3 b0 b1 = m13 b0 ^^^ m9 b1 ^^^ m14 b2 ^^^ m11 b3 := by
    unfold imc0; ac_rfl
  have e3 : imc0 b3 b0 b1 b2 = m11 b0 ^^^ m13 b1 ^^^ m9 b2 ^^^ m14 b3 := by
    unfold imc0; ac_rfl
  rw [e0, e1, e2, e3, imc0_xor, imc0_xor, imc0_xor, (imc0_sq_unit b0 h0).1,
    (imc0_sq_unit b1 h1).2.1, (imc0_sq_unit b2 h2).2.2.1, (imc0_sq_unit b3 h3).2.2.2,
    AES_xtime_xor, AES_xtime_xor, Nat.xor_zero, Nat.xor_zero, Nat.xor_assoc]

theorem imixW_imixW_bytes (w : Nat) :
    B0 (imixW (imixW w)) = (B0 w ^^^ AES_xtime (AES_xtime (B0 w ^^^ B2 w))) ∧
    B1 (imixW (imixW w)) = (B1 w ^^^ AES_xtime (AES_xtime (B1 w ^^^ B3 w))) := by
  have c0 := @imc0_lt (B0 w) _ _ _ (B1_lt w) (B2_lt w) (B3_lt w)
  have c1 := @imc0_lt (B1 w) _ _ _ (B2_lt w) (B3_lt w) (B0_lt w)
  have c2 := @imc0_lt (B2 w) _ _ _ (B3_lt w) (B0_lt w) (B1_lt w)
  have c3 := @imc0_lt (B3 w) _ _ _ (B0_lt w) (B1_lt w) (B2_lt w)
  have e : imixW w = W (imc0 (B0 w) (B1 w) (B2 w) (B3 w)) (imc0 (B1 w) (B2 w) (B3 w) (B0 w))
      (imc0 (B2 w) (B3 w) (B0 w) (B1 w)) (imc0 (B3 w) (B0 w) (B1 w) (B2 w)) := rfl
  constructor
  · rw [show imixW (imixW w) = W (imc0 (B0 (imixW w)) (B1 (imixW w)) (B2 (imixW w))
      (B3 (imixW w))) (imc0 (B1 (imixW w)) (B2 (imixW w)) (B3 (imixW w)) (B0 (imixW w)))
      (imc0 (B2 (imixW w)) (B3 (imixW w)) (B0 (imixW w)) (B1 (imixW w)))
      (imc0 (B3 (imixW w)) (B0 (imixW w)) (B1 (imixW w)) (B2 (imixW w))) from rfl,
      B0_W (imc0_lt (B1_lt _) (B2_lt _) (B3_lt _)) (imc0_lt (B2_lt _) (B3_lt _) (B0_lt _))
        (imc0_lt (B3_lt _) (B0_lt _) (B1_lt _)) (imc0_lt (B0_lt _) (B1_lt _) (B2_lt _)),
      e, B0_W c0 c1 c2 c3, B1_W c1 c2 c3, B2_W c2 c3, B3_W c3]
    exact imc0_sq (B0_lt w) (B1_lt w) (B2_lt w) (B3_lt w)
  · rw [show imixW (imixW w) = W (imc0 (B0 (imixW w)) (B1 (imixW w)) (B2 (imixW w))
      (B3 (imixW w))) (imc0 (B1 (imixW w)) (B2 (imixW w)) (B3 (imixW w)) (B0 (imixW w)))
      (imc0 (B2 (imixW w)) (B3 (imixW w)) (B0 (imixW w)) (B1 (imixW w)))
      (imc0 (B3 (imixW w)) (B0 (imixW w)) (B1 (imixW w)) (B2 (imixW w))) from rfl,
      B1_W (imc0_lt (B2_lt _) (B3_lt _) (B0_lt _))
        (imc0_lt (B3_lt _) (B0_lt _) (B1_lt _)) (imc0_lt (B0_lt _) (B1_lt _) (B2_lt _)),
      e, B0_W c0 c1 c2 c3, B1_W c1 c2 c3, B2_W c2 c3, B3_W c3]
    exact imc0_sq (B1_lt w) (B2_lt w) (B3_lt w) (B0_lt w)

theorem xor_self_cancel {a x : Nat} (h : (a ^^^ x) = a) : x = 0 := by
  have e : a ^^^ (a ^^^ x) = a ^^^ a := congrArg (fun t => a ^^^ t) h
  rwa [Nat.xor_cancel_left, Nat.xor_self] at e

/-- A word that two inverse column mixes give back has equal bytes 0 and 2 and equal bytes 1
and 3. -/
theorem imixW_twice_fixed {w : Nat} (h : imixW (imixW w) = w) :
    B0 w = B2 w ∧ B1 w = B3 w := by
  obtain ⟨p0, p1⟩ := imixW_imixW_bytes w
  rw [h] at p0 p1
  have z0 := xtime2_zero _ (xor_lt_256 (B0_lt w) (B2_lt w)) (xor_self_cancel p0.symm)
  have z1 := xtime2_zero _ (xor_lt_256 (B1_lt w) (B3_lt w)) (xor_self_cancel p1.symm)
  exact ⟨Nat.xor_eq_zero.mp z0, Nat.xor_eq_zero.mp z1⟩

/-! ## Double conversion of a key schedule -/

theorem SubWord_B0 {t : List Nat} (ht : ∀ x, t.getD x 0 < 256) (w : Nat) :
    B0 (AesC.SubWord t w) = t.getD (B0 w) 0 ∧ B2 (AesC.SubWord t w) = t.getD (B2 w) 0 :=
  ⟨B0_W (ht _) (ht _) (ht _) (ht _), B2_W (ht _) (ht _)⟩

theorem RotWord_B0 {w : Nat} (h : w < 2 ^ 32) :
    B0 (AesC.RotWord w) = B1 w ∧ B2 (AesC.RotWord w) = B3 w := by
  rw [RotWord_eq h]
  exact ⟨B0_W (B1_lt w) (B2_lt w) (B3_lt w) (B0_lt w), B2_W (B3_lt w) (B0_lt w)⟩

/-- Of the words 4, 7 and 8 of a 128-bit key schedule, one has bytes 0 and 2 different or
bytes 1 and 3 different: the round constant enters byte 0 of word 8 only. -/
theorem schedule_lanes {g : Tables} (hs : ∀ x, g.aes_sbox.getD x 0 < 256) (ctx : AES_CTX)
    (key : List Nat)
    (f4 : B0 ((AES_set_key g ctx key AES_MODE_128).ks 4) =
      B2 ((AES_set_key g ctx key AES_MODE_128).ks 4))
    (f7 : B1 ((AES_set_key g ctx key AES_MODE_128).ks 7) =
      B3 ((AES_set_key g ctx key AES_MODE_128).ks 7))
    (f8 : B0 ((AES_set_key g ctx key AES_MODE_128).ks 8) =
      B2 ((AES_set_key g ctx key AES_MODE_128).ks 8)) : False := by
  obtain ⟨-, -, -, -, s5, s6⟩ := AES_set_key_spec hs ctx key AES_MODE_128 4 10 mode128
  have r8 := s6 8 (by omega) (by omega)
  have b7 := s5 7 (by omega)
  generalize (AES_set_key g ctx key AES_MODE_128).ks = ks at f4 f7 f8 r8 b7
  have e : keyTmp g.aes_sbox 4 8 (ks 7) =
      AesC.SubWord g.aes_sbox (AesC.RotWord (ks 7)) ^^^ (2 <<< 24) := rfl
  rw [show 8 - 4 = 4 from rfl, show 8 - 1 = 7 from rfl, e] at r8
  have c0 : B0 (ks 8) = B0 (ks 4) ^^^ (g.aes_sbox.getD (B1 (ks 7)) 0 ^^^ 2) := by
    rw [r8, B0_xor, B0_xor, (SubWord_B0 hs _).1, (RotWord_B0 b7).1]
    rfl
  have c2 : B2 (ks 8) = B0 (ks 4) ^^^ g.aes_sbox.getD (B1 (ks 7)) 0 := by
    rw [r8, B2_xor, B2_xor, (SubWord_B0 hs _).2, (RotWord_B0 b7).2, ← f4, ← f7]
    exact congrArg (fun t => B0 (ks 4) ^^^ t) (Nat.xor_zero _)
  rw [c0, c2] at f8
  have z := xor_self_cancel (Nat.xor_right_inj.mp f8)
  omega

theorem convert_twice_ks (ctx : AES_CTX) (hR : ctx.rounds = 10)
    (hk : ∀ j, j < 44 → ctx.ks j < 2 ^ 32) (i : Nat) (h4 : 4 ≤ i) (hi : i < 40) :
    (AES_convert_key (AES_convert_key ctx)).ks i = imixW (imixW (ctx.ks i)) := by
  have r2 : (AES_convert_key ctx).rounds = 10 := hR
  rw [AES_convert_key_ks, r2, if_pos (by omega), AES_convert_key_ks, hR, if_pos (by omega),
    inv_mix_col_eq (hk i (by omega)), inv_mix_col_eq (imixW_lt _)]

/-- Two conversions of a 128-bit key schedule change word 4, 7 or 8. -/
theorem convert_twice_differs {g : Tables} (hs : ∀ x, g.aes_sbox.getD x 0 < 256)
    (ctx : AES_CTX) (key : List Nat) :
    ∃ i, 4 ≤ i ∧ i ≤ 8 ∧
      (AES_convert_key (AES_convert_key (AES_set_key g ctx key AES_MODE_128))).ks i ≠
        (AES_set_key g ctx key AES_MODE_128).ks i := by
  obtain ⟨-, -, -, -, s5, -⟩ := AES_set_key_spec hs ctx key AES_MODE_128 4 10 mode128
  by_contra hne
  push_neg at hne
  have q : ∀ i, 4 ≤ i → i ≤ 8 →
      imixW (imixW ((AES_set_key g ctx key AES_MODE_128).ks i)) =
        (AES_set_key g ctx key AES_MODE_128).ks i := by
    intro i h4 h8
    rw [← convert_twice_ks _ (setKey128_rounds g ctx key) (fun j hj => s5 j (by omega)) i h4
      (by omega)]
    exact hne i h4 h8
  exact schedule_lanes hs ctx key (imixW_twice_fixed (q 4 (by omega) (by omega))).1
    (imixW_twice_fixed (q 7 (by omega) (by omega))).2
    (imixW_twice_fixed (q 8 (by omega) (by omega))).1

/-! ## Encryption undoes decryption -/

theorem mc0_xor (a0 a1 a2 a3 b0 b1 b2 b3 : Nat) :
    mc0 (a0 ^^^ b0) (a1 ^^^ b1) (a2 ^^^ b2) (a3 ^^^ b3) =
      mc0 a0 a1 a2 a3 ^^^ mc0 b0 b1 b2 b3 := by
  simp only [mc0, AES_xtime_xor]; ac_rfl

theorem mc0_unit0 (a : Nat) : mc0 (m14 a) (m9 a) (m13 a) (m11 a) = a := by
  simp only [mc0, m9, m11, m13, m14, AES_xtime_xor, Nat.xor_assoc, Nat.xor_comm,
    xor_left_comm, Nat.xor_self, Nat.xor_cancel_left, Nat.xor_zero, Nat.zero_xor]

theorem mc0_unit1 (a : Nat) : mc0 (m11 a) (m14 a) (m9 a) (m13 a) = 0 := by
  simp only [mc0, m9, m11, m13, m14, AES_xtime_xor, Nat.xor_assoc, Nat.xor_comm,
    xor_left_comm, Nat.xor_self, Nat.xor_cancel_left, Nat.xor_zero, Nat.zero_xor]

theorem mc0_unit2 (a : Nat) : mc0 (m13 a) (m11 a) (m14 a) (m9 a) = 0 := by
  simp only [mc0, m9, m11, m13, m14, AES_xtime_xor, Nat.xor_assoc, Nat.xor_comm,
    xor_left_comm, Nat.xor_self, Nat.xor_cancel_left, Nat.xor_zero, Nat.zero_xor]

theorem mc0_unit3 (a : Nat) : mc0 (m9 a) (m13 a) (m11 a) (m14 a) = 0 := by
  simp only [mc0, m9, m11, m13, m14, AES_xtime_xor, Nat.xor_assoc, Nat.xor_comm,
    xor_left_comm, Nat.xor_self, Nat.xor_cancel_left, Nat.xor_zero, Nat.zero_xor]

theorem mc0_imc0 (b0 b1 b2 b3 : Nat) :
    mc0 (imc0 b0 b1 b2 b3) (imc0 b1 b2 b3 b0) (imc0 b2 b3 b0 b1) (imc0 b3 b0 b1 b2) = b0 := by
  have e0 : imc0 b0 b1 b2 b3 = m14 b0 ^^^ m11 b1 ^^^ m13 b2 ^^^ m9 b3 := rfl
  have e1 : imc0 b1 b2 b3 b0 = m9 b0 ^^^ m14 b1 ^^^ m11 b2 ^^^ m13 b3 := by
    unfold imc0; ac_rfl
  have e2 : imc0 b2 b3 b0 b1 = m13 b0 ^^^ m9 b1 ^^^ m14 b2 ^^^ m11 b3 := by
    unfold imc0; ac_rfl
  have e3 : imc0 b3 b0 b1 b2 = m11 b0 ^^^ m13 b1 ^^^ m9 b2 ^^^ m14 b3 := by
    unfold imc0; ac_rfl
  rw [e0, e1, e2, e3, mc0_xor, mc0_xor, mc0_xor, mc0_unit0, mc0_unit1, mc0_unit2, mc0_unit3,
    Nat.xor_zero, Nat.xor_zero, Nat.xor_zero]

theorem mixW_imixW {x : Nat} (h : x < 2 ^ 32) : mixW (imixW x) = x := by
  have c0 := @imc0_lt (B0 x) _ _ _ (B1_lt x) (B2_lt x) (B3_lt x)
  have c1 := @imc0_lt (B1 x) _ _ _ (B2_lt x) (B3_lt x) (B0_lt x)
  have c2 := @imc0_lt (B2 x) _ _ _ (B3_lt x) (B0_lt x) (B1_lt x)
  have c3 := @imc0_lt (B3 x) _ _ _ (B0_lt x) (B1_lt x) (B2_lt x)
  unfold mixW
  simp only [imixW, B0_W c0 c1 c2 c3, B1_W c1 c2 c3, B2_W c2 c3, B3_W c3, mc0_imc0]
  exact W_bytes h

theorem SS_ISS {g : Tables} (hg : TablesOK g)
    (hi : ∀ x < 256, g.aes_sbox.getD (g.aes_isbox.getD x 0) 0 = x) {d : List Nat}
    (hd : Block d) : SS g (ISS g d) = d := by
  obtain ⟨d0, d1, d2, d3, rfl, h0, h1, h2, h3⟩ := block_cases hd
  have hs : ∀ x < 256, g.aes_isbox.getD x 0 < 256 := fun x hx => (hg x hx).2.1
  simp only [ISS, SS, List.getD_cons_zero, List.getD_cons_succ, subq,
    B0_W (hs _ (B0_lt _)) (hs _ (B1_lt _)) (hs _ (B2_lt _)) (hs _ (B3_lt _)),
    B1_W (hs _ (B1_lt _)) (hs _ (B2_lt _)) (hs _ (B3_lt _)),
    B2_W (hs _ (B2_lt _)) (hs _ (B3_lt _)), B3_W (hs _ (B3_lt _)),
    hi _ (B0_lt _), hi _ (B1_lt _), hi _ (B2_lt _), hi _ (B3_lt _),
    W_bytes h0, W_bytes h1, W_bytes h2, W_bytes h3]

theorem round_cancel_rev {ks ks2 : Nat → Nat} {k : Nat} {e : List Nat} (he : Block e)
    (hk : ∀ j < 4, ks (k + j) < 2 ^ 32)
    (h : ∀ j < 4, ks2 (k + j) = imixW (ks (k + j))) :
    XK ks k ((XK ks2 k (e.map imixW)).map mixW) = e := by
  obtain ⟨e0, e1, e2, e3, rfl, h0, h1, h2, h3⟩ := block_cases he
  have k0 := h 0 (by omega)
  have b0 := hk 0 (by omega)
  rw [Nat.add_zero] at k0 b0
  simp only [XK, List.map_cons, List.map_nil, List.getD_cons_zero, List.getD_cons_succ, k0,
    h 1 (by omega), h 2 (by omega), h 3 (by omega), ← imixW_xor,
    mixW_imixW (xor_lt_32 h0 b0), mixW_imixW (xor_lt_32 h1 (hk 1 (by omega))),
    mixW_imixW (xor_lt_32 h2 (hk 2 (by omega))), mixW_imixW (xor_lt_32 h3 (hk 3 (by omega))),
    xor_xor_cancel]

theorem decState_block {g : Tables} (hg : TablesOK g) (ctx : AES_CTX) {data : List Nat}
    (hd : Block data) (hk : ∀ j, j < 4 * (ctx.rounds + 1) → ctx.ks j < 2 ^ 32) :
    ∀ r, r ≤ ctx.rounds → Block (decState g ctx data r) := by
  intro r
  induction r with
  | zero =>
    intro _
    exact XK_block hd (fun j hj => hk _ (by omega))
  | succ r ih =>
    intro hr
    rw [decState, decRound_eq hg _ _ _ _ (by omega)]
    apply XK_block
    · by_cases h : r < ctx.rounds - 1
      · rw [if_pos h]
        exact map_block imixW_lt (ISS_block hg _)
      · rw [if_neg h]
        exact ISS_block hg _
    · intro j hj
      exact hk _ (by omega)

theorem decRounds_state (g : Tables) (ctx : AES_CTX) (data : List Nat) :
    ∀ n cur, cur + n ≤ ctx.rounds →
      decRounds g ctx n cur (4 * (ctx.rounds - cur)) (decState g ctx data cur) =
        decState g ctx data (cur + n) := by
  intro n
  induction n with
  | zero => intro cur _; rfl
  | succ n ih =>
    intro cur h
    rw [decRounds, show 4 * (ctx.rounds - cur) - 4 = 4 * (ctx.rounds - (cur + 1)) by omega,
      show decRound g ctx cur (4 * (ctx.rounds - cur)) (decState g ctx data cur) =
        decState g ctx data (cur + 1) from rfl, ih (cur + 1) (by omega),
      show cur + 1 + n = cur + (n + 1) by omega]

theorem AES_decrypt_state (g : Tables) (ctx : AES_CTX) (data : List Nat) :
    AES_decrypt g ctx data = decState g ctx data ctx.rounds := by
  have h := decRounds_state g ctx data ctx.rounds 0 (by omega)
  rw [show 0 + ctx.rounds = ctx.rounds from Nat.zero_add _] at h
  rw [← h]
  unfold AES_decrypt
  simp only []
  rw [show (ctx.rounds + 1) * 4 - 4 = 4 * ctx.rounds by omega,
    show (ctx.rounds + 1) * 4 - 3 = 4 * ctx.rounds + 1 by omega,
    show (ctx.rounds + 1) * 4 - 2 = 4 * ctx.rounds + 2 by omega,
    show (ctx.rounds + 1) * 4 - 1 = 4 * ctx.rounds + 3 by omega]
  rfl

theorem encRounds_undo {g : Tables} (hg : TablesOK g)
    (hi : ∀ x < 256, g.aes_sbox.getD (g.aes_isbox.getD x 0) 0 = x) (ctx : AES_CTX)
    {data : List Nat} (hd : Block data)
    (hk : ∀ j, j < 4 * (ctx.rounds + 1) → ctx.ks j < 2 ^ 32) :
    ∀ n cur, cur + n + 1 = ctx.rounds →
      encRounds g ctx (n + 1) cur (4 * (cur + 1))
        (ISS g (decState g (AES_convert_key ctx) data n)) = data := by
  have hr2 : (AES_convert_key ctx).rounds = ctx.rounds := rfl
  have hk2 : ∀ j, j < 4 * ((AES_convert_key ctx).rounds + 1) →
      (AES_convert_key ctx).ks j < 2 ^ 32 := convert_lt ctx hk
  intro n
  induction n with
  | zero =>
    intro cur hc
    have hr : ¬ (cur < ctx.rounds - 1) := by omega
    rw [encRounds, encRounds, encRound_eq hg, if_neg hr,
      SS_ISS hg hi (decState_block hg _ hd hk2 0 (by omega)), decState, hr2,
      show 4 * (cur + 1) = 4 * ctx.rounds by omega]
    apply XK_cancel hd
    intro j hj
    rw [AES_convert_key_ks, if_neg (by omega)]
  | succ n ih =>
    intro cur hc
    have hr : cur < ctx.rounds - 1 := by omega
    have hn : n < (AES_convert_key ctx).rounds - 1 := by
      show n < ctx.rounds - 1
      omega
    rw [encRounds, encRound_eq hg, if_pos hr,
      SS_ISS hg hi (decState_block hg _ hd hk2 (n + 1) (by rw [hr2]; omega))]
    have e : decState g (AES_convert_key ctx) data (n + 1) =
        XK (AES_convert_key ctx).ks (4 * (cur + 1))
          ((ISS g (decState g (AES_convert_key ctx) data n)).map imixW) := by
      rw [decState, decRound_eq hg _ _ _ _ (by rw [hr2]; omega), if_pos hn, hr2,
        show 4 * (ctx.rounds - n) - 4 = 4 * (cur + 1) by omega]
    rw [e, round_cancel_rev (ISS_block hg _) (fun j hj => hk _ (by omega))]
    · exact ih (cur + 1) (by omega)
    · intro j hj
      rw [AES_convert_key_ks, if_pos (by omega), inv_mix_col_eq (hk _ (by omega))]

/-- On any context with at least one round and 32-bit round keys, `AES_encrypt` undoes
`AES_decrypt` with the converted key schedule. -/
theorem AES_encrypt_decrypt {g : Tables} (hg : TablesOK g)
    (hi : ∀ x < 256, g.aes_sbox.getD (g.aes_isbox.getD x 0) 0 = x) (ctx : AES_CTX)
    {data : List Nat} (hd : Block data) (hR : 1 ≤ ctx.rounds)
    (hk : ∀ j, j < 4 * (ctx.rounds + 1) → ctx.ks j < 2 ^ 32) :
    AES_encrypt g ctx (AES_decrypt g (AES_convert_key ctx) data) = data := by
  obtain ⟨n, hn⟩ : ∃ n, ctx.rounds = n + 1 := ⟨ctx.rounds - 1, by omega⟩
  have hr2 : (AES_convert_key ctx).rounds = n + 1 := hn
  have hr : ¬ (n < (AES_convert_key ctx).rounds - 1) := by rw [hr2]; omega
  have e : decState g (AES_convert_key ctx) data (n + 1) =
      XK (AES_convert_key ctx).ks 0 (ISS g (decState g (AES_convert_key ctx) data n)) := by
    rw [decState, decRound_eq hg _ _ _ _ (by rw [hr2]; omega), if_neg hr, hr2,
      show 4 * (n + 1 - n) - 4 = 0 by omega]
  have hpre : XK ctx.ks 0 (XK (AES_convert_key ctx).ks 0
      (ISS g (decState g (AES_convert_key ctx) data n))) =
      ISS g (decState g (AES_convert_key ctx) data n) := by
    apply XK_cancel (ISS_block hg _)
    intro j hj
    rw [AES_convert_key_ks, if_neg (by omega)]
  have henc : ∀ x : List Nat, AES_encrypt g ctx x =
      encRounds g ctx (n + 1) 0 (4 * (0 + 1)) (XK ctx.ks 0 x) := by
    intro x
    unfold AES_encrypt
    rw [hn]
    rfl
  rw [AES_decrypt_state, hr2, e, henc, hpre]
  exact encRounds_undo hg hi ctx hd hk n 0 (by omega)

/-- Encryption of a decrypted block gives the block back, for any prior tables and contexts
of the two calls. -/
theorem roundtrip_rev (g1 g2 : Tables) (c1 c2 : AES_CTX) (C K : List Nat)
    (a1 : g1.aes_sbox.length = 256) (a2 : g1.aes_isbox.length = 256)
    (b1 : g2.aes_sbox.length = 256) (b2 : g2.aes_isbox.length = 256) (hC : Bytes16 C) :
    (AES_Encrypt g1 c1 (AES_Decrypt g2 c2 C K).2 K).2 = C := by
  have hk : ∀ j < 4 * ((AES_convert_key (AES_set_key genTables c2 K AES_MODE_128)).rounds + 1),
      (AES_convert_key (AES_set_key genTables c2 K AES_MODE_128)).ks j < 2 ^ 32 :=
    convert_lt _ (setKey128_lt c2 K)
  rw [AES_Encrypt_indep g1 g2 c1 c2 _ K a1 a2 b1 b2, AES_Decrypt_eq g2 b1 b2 c2 C K hC.2]
  simp only []
  rw [AES_Encrypt_eq g2 b1 b2 c2 _ K (bytesOfWords_bytes _).2]
  simp only []
  rw [wordsOfBytes_bytesOfWords (AES_decrypt_block genTables_ok _ hk (wordsOfBytes_block hC.2)),
    AES_encrypt_decrypt genTables_ok sbox_isbox _ (wordsOfBytes_block hC.2)
      (show 1 ≤ 10 by omega) (setKey128_lt c2 K), bytesOfWords_wordsOfBytes hC]

/-! ## The 256-bit path on the example of FIPS-197, appendix C.3 -/

theorem kat256_enc :
    AES_encrypt genTables (AES_set_key genTables zeroCtx tv3_key AES_MODE_256) tv3_plain =
      tv3_cipher := by
  decide!

theorem kat256_dec :
    AES_decrypt genTables
      (AES_convert_key (AES_set_key genTables zeroCtx tv3_key AES_MODE_256)) tv3_cipher =
      tv3_plain := by
  decide!

theorem setKey256_rounds (g : Tables) (ctx : AES_CTX) (key : List Nat) :
    (AES_set_key g ctx key AES_MODE_256).rounds = 14 := by
  unfold AES_set_key
  rw [if_neg (by decide), if_pos rfl]

theorem setKey256_indep (c1 c2 : AES_CTX) (key : List Nat) :
    ∀ j < 4 * ((AES_set_key genTables c1 key AES_MODE_256).rounds + 1),
      (AES_set_key genTables c1 key AES_MODE_256).ks j =
        (AES_set_key genTables c2 key AES_MODE_256).ks j := by
  intro j hj
  rw [setKey256_rounds] at hj
  exact setKey256_assigned genTables c1 c2 key j (by omega)

theorem kat256 (ctx : AES_CTX) :
    AES_encrypt genTables (AES_set_key genTables ctx tv3_key AES_MODE_256) tv3_plain =
      tv3_cipher ∧
    AES_decrypt genTables
      (AES_convert_key (AES_set_key genTables ctx tv3_key AES_MODE_256)) tv3_cipher =
      tv3_plain := by
  have hr : (AES_set_key genTables ctx tv3_key AES_MODE_256).rounds =
      (AES_set_key genTables zeroCtx tv3_key AES_MODE_256).rounds :=
    (setKey256_rounds genTables ctx tv3_key).trans (setKey256_rounds genTables zeroCtx tv3_key).symm
  have hr2 : (AES_convert_key (AES_set_key genTables ctx tv3_key AES_MODE_256)).rounds =
      (AES_convert_key (AES_set_key genTables zeroCtx tv3_key AES_MODE_256)).rounds := hr
  constructor
  · rw [AES_encrypt_congr genTables hr (setKey256_indep ctx zeroCtx tv3_key)]
    exact kat256_enc
  · rw [AES_decrypt_congr genTables hr2
      (AES_convert_key_congr hr (setKey256_indep ctx zeroCtx tv3_key))]
    exact kat256_dec

/-! ## The generator sequence of `AES_generateSBox` -/

theorem genT_range : ∀ x ∈ (genT 256 1).take 255, 1 ≤ x ∧ x ≤ 255 := by
  decide!

theorem genT_perm : ((genT 256 1).take 255).Perm (List.range' 1 255) := by
  decide!

theorem genT_ends : (genT 256 1).getD 255 0 = 1 ∧ (genT 256 1).getD 0 0 = 1 := by
  decide!

theorem genT_inverse : ∀ i < 255,
    gfMul ((genT 256 1).getD i 0) ((genT 256 1).getD (255 - i) 0) = 1 := by
  decide!

theorem sboxWrites_index :
    (sboxWrites (genT 256 1) 255 0).map Prod.fst = (genT 256 1).take 255 := by
  decide!

/-! ## Index safety -/

theorem InBounds_append {w R : Nat} {l1 l2 : List Access} (h1 : InBounds w R l1)
    (h2 : InBounds w R l2) : InBounds w R (l1 ++ l2) := by
  intro a ha
  rcases List.mem_append.mp ha with h | h
  · exact h1 a h
  · exact h2 a h

theorem InBounds_cons {w R : Nat} {a : Access} {l : List Access}
    (h1 : a.idx < limit w R a.arr) (h2 : InBounds w R l) : InBounds w R (a :: l) := by
  intro b hb
  rcases List.mem_cons.mp hb with h | h
  · rw [h]; exact h1
  · exact h2 b h

theorem InBounds_nil (w R : Nat) : InBounds w R [] := fun _ h => absurd h (List.not_mem_nil _)

theorem and_ff_lt (x : Nat) : x &&& 0xFF < 256 := by
  rw [and_255]; exact Nat.mod_lt _ (by decide)

theorem shr24_lt {x : Nat} (h : x < 2 ^ 32) : x >>> 24 < 256 := by
  rw [Nat.shiftRight_eq_div_pow]; omega

theorem readsOf_append (a : Arr) (l1 l2 : List Access) :
    readsOf a (l1 ++ l2) = readsOf a l1 ++ readsOf a l2 :=
  List.filterMap_append _ _ _

theorem encRow_trace_ok (w R : Nat) (data : List Nat) {row : Nat} (h : row < 4) :
    InBounds w R (encRow_trace data row) := by
  unfold encRow_trace
  refine InBounds_cons ?_ (InBounds_cons ?_ (InBounds_cons ?_ (InBounds_cons ?_
    (InBounds_cons ?_ (InBounds_cons ?_ (InBounds_cons ?_ (InBounds_cons ?_
    (InBounds_cons ?_ (InBounds_nil w R)))))))))
  all_goals first
    | exact and_ff_lt _
    | exact Nat.mod_lt _ (by decide)
    | exact h

theorem decRow_trace_ok (w R : Nat) (data : List Nat) {row : Nat} (h : row ≤ 4) :
    InBounds w R (decRow_trace data row) := by
  unfold decRow_trace
  refine InBounds_cons ?_ (InBounds_cons ?_ (InBounds_cons ?_ (InBounds_cons ?_
    (InBounds_cons ?_ (InBounds_cons ?_ (InBounds_cons ?_ (InBounds_cons ?_
    (InBounds_cons ?_ (InBounds_nil w R)))))))))
  all_goals first
    | exact and_ff_lt _
    | exact Nat.mod_lt _ (by decide)
    | (show row - 1 < 4; omega)

theorem addKey_trace_ok (w R : Nat) {row k : Nat} (h : row < 4) (hk : k < 4 * (R + 1)) :
    InBounds w R (addKey_trace row k) :=
  InBounds_cons h (InBounds_cons hk (InBounds_cons h (InBounds_nil w R)))

theorem preKey_trace_ok (w R : Nat) {row k : Nat} (h : row < 4) (hk : k < 4 * (R + 1)) :
    InBounds w R (preKey_trace row k) :=
  InBounds_cons h (InBounds_cons hk (InBounds_cons h (InBounds_nil w R)))

theorem encRound_trace_ok (w R : Nat) (data : List Nat) {k : Nat} (hk : k + 4 ≤ 4 * (R + 1)) :
    InBounds w R (encRound_trace k data) := by
  unfold encRound_trace
  exact InBounds_append
    (InBounds_append (InBounds_append (InBounds_append
      (encRow_trace_ok w R data (by omega)) (encRow_trace_ok w R data (by omega)))
      (encRow_trace_ok w R data (by omega))) (encRow_trace_ok w R data (by omega)))
    (InBounds_append (InBounds_append (InBounds_append
      (addKey_trace_ok w R (by omega) (by omega)) (addKey_trace_ok w R (by omega) (by omega)))
      (addKey_trace_ok w R (by omega) (by omega))) (addKey_trace_ok w R (by omega) (by omega)))

theorem decRound_trace_ok (w R : Nat) (data : List Nat) {k : Nat} (h4 : 4 ≤ k)
    (hk : k ≤ 4 * (R + 1)) : InBounds w R (decRound_trace k data) := by
  unfold decRound_trace
  exact InBounds_append
    (InBounds_append (InBounds_append (InBounds_append
      (decRow_trace_ok w R data (by omega)) (decRow_trace_ok w R data (by omega)))
      (decRow_trace_ok w R data (by omega))) (decRow_trace_ok w R data (by omega)))
    (InBounds_append (InBounds_append (InBounds_append
      (addKey_trace_ok w R (by omega) (by omega)) (addKey_trace_ok w R (by omega) (by omega)))
      (addKey_trace_ok w R (by omega) (by omega))) (addKey_trace_ok w R (by omega) (by omega)))

theorem encRounds_trace_ok (w R : Nat) (g : Tables) (ctx : AES_CTX) :
    ∀ n r k data, k + 4 * n ≤ 4 * (R + 1) → InBounds w R (encRounds_trace g ctx n r k data) := by
  intro n
  induction n with
  | zero => intro r k data _; exact InBounds_nil w R
  | succ n ih =>
    intro r k data h
    rw [encRounds_trace]
    exact InBounds_append (encRound_trace_ok w R data (by omega)) (ih _ _ _ (by omega))

theorem decRounds_trace_ok (w R : Nat) (g : Tables) (ctx : AES_CTX) :
    ∀ n r k data, 4 * n ≤ k → k ≤ 4 * (R + 1) →
      InBounds w R (decRounds_trace g ctx n r k data) := by
  intro n
  induction n with
  | zero => intro r k data _ _; exact InBounds_nil w R
  | succ n ih =>
    intro r k data h1 h2
    rw [decRounds_trace]
    exact InBounds_append (decRound_trace_ok w R data (by omega) h2)
      (ih _ _ _ (by omega) (by omega))

theorem AES_encrypt_trace_ok (w : Nat) (g : Tables) (ctx : AES_CTX) (data : List Nat) :
    InBounds w ctx.rounds (AES_encrypt_trace g ctx data) := by
  unfold AES_encrypt_trace
  exact InBounds_append
    (InBounds_append (InBounds_append (InBounds_append
      (preKey_trace_ok w _ (by omega) (by omega)) (preKey_trace_ok w _ (by omega) (by omega)))
      (preKey_trace_ok w _ (by omega) (by omega))) (preKey_trace_ok w _ (by omega) (by omega)))
    (encRounds_trace_ok w _ g ctx _ _ _ _ (by omega))

theorem AES_decrypt_trace_ok (w : Nat) (g : Tables) (ctx : AES_CTX) (data : List Nat) :
    InBounds w ctx.rounds (AES_decrypt_trace g ctx data) := by
  unfold AES_decrypt_trace
  exact InBounds_append
    (InBounds_append (InBounds_append (InBounds_append
      (preKey_trace_ok w _ (by omega) (by omega)) (preKey_trace_ok w _ (by omega) (by omega)))
      (preKey_trace_ok w _ (by omega) (by omega))) (preKey_trace_ok w _ (by omega) (by omega)))
    (decRounds_trace_ok w _ g ctx _ _ _ _ (by omega) (by omega))

theorem convertLoop_trace_ok (w R : Nat) :
    ∀ n k, k + n ≤ 4 * (R + 1) → InBounds w R (convertLoop_trace n k) := by
  intro n
  induction n with
  | zero => intro k _; exact InBounds_nil w R
  | succ n ih =>
    intro k h
    rw [convertLoop_trace]
    exact InBounds_cons (show k < 4 * (R + 1) by omega)
      (InBounds_cons (show k < 4 * (R + 1) by omega) (ih _ (by omega)))

theorem AES_convert_key_trace_ok (w : Nat) (ctx : AES_CTX) :
    InBounds w ctx.rounds (AES_convert_key_trace ctx) :=
  convertLoop_trace_ok w _ _ _ (by omega)

theorem encRound_trace_reads (k : Nat) (data : List Nat) :
    readsOf Arr.ks (encRound_trace k data) = [k, k + 1, k + 2, k + 3] := rfl

theorem decRound_trace_reads (k : Nat) (data : List Nat) :
    readsOf Arr.ks (decRound_trace k data) = [k - 1, k - 2, k - 3, k - 4] := rfl

theorem range4 (k n : Nat) :
    List.range' k (4 * (n + 1)) = [k, k + 1, k + 2, k + 3] ++ List.range' (k + 4) (4 * n) := by
  rw [show 4 * (n + 1) = 4 * n + 1 + 1 + 1 + 1 by omega, List.range'_succ, List.range'_succ,
    List.range'_succ, List.range'_succ]
  rfl

theorem range4_end (s n : Nat) :
    List.range' s (4 * (n + 1)) = List.range' s (4 * n) ++
      [s + 4 * n, s + 4 * n + 1, s + 4 * n + 2, s + 4 * n + 3] := by
  rw [show 4 * (n + 1) = 4 * n + 1 + 1 + 1 + 1 by omega, List.range'_concat,
    List.range'_concat, List.range'_concat, List.range'_concat]
  simp only [Nat.one_mul, List.append_assoc, List.cons_append, List.nil_append]
  rfl

theorem encRounds_trace_reads (g : Tables) (ctx : AES_CTX) :
    ∀ n r k data, readsOf Arr.ks (encRounds_trace g ctx n r k data) = List.range' k (4 * n) := by
  intro n
  induction n with
  | zero => intro r k data; rfl
  | succ n ih =>
    intro r k data
    rw [encRounds_trace, readsOf_append, encRound_trace_reads, ih, range4]

theorem decRounds_trace_reads (g : Tables) (ctx : AES_CTX) :
    ∀ n r k data, 4 * n ≤ k →
      readsOf Arr.ks (decRounds_trace g ctx n r k data) =
        (List.range' (k - 4 * n) (4 * n)).reverse := by
  intro n
  induction n with
  | zero => intro r k data _; rfl
  | succ n ih =>
    intro r k data h
    rw [decRounds_trace, readsOf_append, decRound_trace_reads, ih _ _ _ (by omega), range4_end,
      List.reverse_append, show k - 4 - 4 * n = k - 4 * (n + 1) by omega]
    congr 1
    simp only [List.reverse_cons, List.reverse_nil, List.nil_append, List.cons_append,
      List.cons.injEq, and_true]
    omega

/-- The round-key reads of `AES_encrypt` are `ks[0]`, `ks[1]`, ... up to
`ks[4*(rounds+1)-1]`, in this order. -/
theorem AES_encrypt_trace_reads (g : Tables) (ctx : AES_CTX) (data : List Nat) :
    readsOf Arr.ks (AES_encrypt_trace g ctx data) = List.range (4 * (ctx.rounds + 1)) := by
  unfold AES_encrypt_trace
  simp only []
  rw [readsOf_append, encRounds_trace_reads, List.range_eq_range', range4]
  rfl

/-- The round-key reads of `AES_decrypt` are `ks[4*(rounds+1)-1]` down to `ks[0]`. -/
theorem AES_decrypt_trace_reads (g : Tables) (ctx : AES_CTX) (data : List Nat) :
    readsOf Arr.ks (AES_decrypt_trace g ctx data) =
      (List.range (4 * (ctx.rounds + 1))).reverse := by
  unfold AES_decrypt_trace
  simp only []
  rw [readsOf_append, decRounds_trace_reads _ _ _ _ _ _ (by omega), List.range_eq_range',
    range4_end, List.reverse_append,
    show (ctx.rounds + 1) * 4 - 4 - 4 * ctx.rounds = 0 by omega]
  congr 1
  have e1 : (ctx.rounds + 1) * 4 - 1 = 0 + 4 * ctx.rounds + 3 := by omega
  have e2 : (ctx.rounds + 1) * 4 - 2 = 0 + 4 * ctx.rounds + 2 := by omega
  have e3 : (ctx.rounds + 1) * 4 - 3 = 0 + 4 * ctx.rounds + 1 := by omega
  have e4 : (ctx.rounds + 1) * 4 - 4 = 0 + 4 * ctx.rounds := by omega
  rw [e1, e2, e3, e4]
  rfl

theorem setKeyStep_trace_ok {g : Tables} {words R : Nat}
    (hw : (words = 4 ∧ R = 10) ∨ (words = 8 ∧ R = 14)) (i rtmp : Nat) (ks : Nat → Nat)
    (h1 : words ≤ i) (h2 : i < 4 * (R + 1)) (hp : ks (i - 1) < 2 ^ 32)
    (hr : rtmp = (i - 1) / words) : InBounds words R (setKeyStep_trace g words i rtmp ks) := by
  have hrc : i % words = 0 → rtmp < limit words R Arr.Rcon := by
    intro h0
    rcases hw with ⟨rfl, rfl⟩ | ⟨rfl, rfl⟩
    · show rtmp < 10
      omega
    · show rtmp < 7
      omega
  have a1 : i - 1 < 4 * (R + 1) := by omega
  have a2 : i - words < 4 * (R + 1) := by omega
  have tail : InBounds words R [Access.read Arr.ks (i - words), Access.write Arr.ks i] :=
    InBounds_cons a2 (InBounds_cons h2 (InBounds_nil _ _))
  have sub : InBounds words R
      [Access.read Arr.aes_sbox (ks (i - 1) &&& 0xff),
       Access.read Arr.aes_sbox ((ks (i - 1) >>> 8) &&& 0xff),
       Access.read Arr.aes_sbox ((ks (i - 1) >>> 16) &&& 0xff),
       Access.read Arr.aes_sbox (ks (i - 1) >>> 24)] :=
    InBounds_cons (and_ff_lt _) (InBounds_cons (and_ff_lt _) (InBounds_cons (and_ff_lt _)
      (InBounds_cons (shr24_lt hp) (InBounds_nil _ _))))
  unfold setKeyStep_trace
  by_cases h0 : i % words = 0
  · have h4 : ¬ (words = 8 ∧ i % words = 4) := by omega
    simp only [if_pos h0, if_neg h4]
    exact InBounds_append (InBounds_append (InBounds_append
      (InBounds_cons a1 (InBounds_nil _ _))
      (InBounds_cons (and_ff_lt _) (InBounds_cons (and_ff_lt _) (InBounds_cons (and_ff_lt _)
        (InBounds_cons (shr24_lt hp) (InBounds_cons (hrc h0) (InBounds_nil _ _)))))))
      (InBounds_nil _ _)) tail
  · by_cases h4 : words = 8 ∧ i % words = 4
    · simp only [if_neg h0, if_pos h4]
      exact InBounds_append (InBounds_append (InBounds_append
        (InBounds_cons a1 (InBounds_nil _ _)) (InBounds_nil _ _)) sub) tail
    · simp only [if_neg h0, if_neg h4]
      exact InBounds_append (InBounds_append (InBounds_append
        (InBounds_cons a1 (InBounds_nil _ _)) (InBounds_nil _ _)) (InBounds_nil _ _)) tail

theorem setKeyLoop_trace_ok {g : Tables} (hs : ∀ x, g.aes_sbox.getD x 0 < 256)
    {words R : Nat} (hw : (words = 4 ∧ R = 10) ∨ (words = 8 ∧ R = 14)) :
    ∀ (n i rtmp : Nat) (ks : Nat → Nat), words ≤ i → i + n ≤ 4 * (R + 1) →
      rtmp = (i - 1) / words → (∀ j < i, ks j < 2 ^ 32) →
      InBounds words R (setKeyLoop_trace g words n i rtmp ks) := by
  have hw2 : words = 4 ∨ words = 8 := by
    rcases hw with ⟨h, -⟩ | ⟨h, -⟩
    · exact Or.inl h
    · exact Or.inr h
  intro n
  induction n with
  | zero => intro i rtmp ks _ _ _ _; exact InBounds_nil _ _
  | succ n ih =>
    intro i rtmp ks hi hn hr hb
    have hp : ks (i - 1) < 2 ^ 32 := hb _ (by omega)
    have hq : ks (i - words) < 2 ^ 32 := hb _ (by omega)
    have hsnd := setKeyStep_snd hs words i rtmp ks hp
      (by intro h; rw [hr]; rcases hw2 with rfl | rfl <;> omega)
    have hfst : (setKeyStep g words i rtmp ks).1 = (i + 1 - 1) / words := by
      rw [setKeyStep_fst, hr]
      rcases hw2 with rfl | rfl <;> split <;> omega
    have hv : ks (i - words) ^^^ keyTmp g.aes_sbox words i (ks (i - 1)) < 2 ^ 32 :=
      xor_lt_32 hq (keyTmp_lt hs _ _ hp)
    have hb1 : ∀ j < i + 1, (setKeyStep g words i rtmp ks).2 j < 2 ^ 32 := by
      intro j hj
      rw [hsnd]
      by_cases e : j = i
      · rw [e, upd_same]; exact hv
      · rw [upd_other _ _ e]; exact hb j (by omega)
    rw [setKeyLoop_trace]
    exact InBounds_append (setKeyStep_trace_ok hw i rtmp ks hi (by omega) hp hr)
      (ih (i + 1) _ _ (by omega) (by omega) hfst hb1)

theorem AES_hncpy32_trace_ok {words R o : Nat} (h1 : o + 4 ≤ words)
    (h2 : words ≤ 4 * (R + 1)) : InBounds words R (AES_hncpy32_trace o o) :=
  InBounds_cons (show o < words by omega) (InBounds_cons (show o < 4 * (R + 1) by omega)
    (InBounds_cons (show o + 1 < words by omega) (InBounds_cons (show o + 1 < 4 * (R + 1) by omega)
    (InBounds_cons (show o + 2 < words by omega) (InBounds_cons (show o + 2 < 4 * (R + 1) by omega)
    (InBounds_cons (show o + 3 < words by omega) (InBounds_cons (show o + 3 < 4 * (R + 1) by omega)
    (InBounds_nil _ _))))))))

/-- Every array access of `AES_set_key` in a supported mode is in bounds. -/
theorem AES_set_key_trace_ok {g : Tables} (hs : ∀ x, g.aes_sbox.getD x 0 < 256)
    (ctx : AES_CTX) (key : List Nat) (mode words rounds : Nat)
    (hm : (mode = AES_MODE_128 ∧ words = 4 ∧ rounds = 10) ∨
      (mode = AES_MODE_256 ∧ words = 8 ∧ rounds = 14)) :
    InBounds words rounds (AES_set_key_trace g ctx key mode) := by
  rcases hm with ⟨rfl, rfl, rfl⟩ | ⟨rfl, rfl, rfl⟩
  · unfold AES_set_key_trace
    rw [if_pos rfl]
    refine InBounds_append (AES_hncpy32_trace_ok (by omega) (by omega))
      (setKeyLoop_trace_ok hs (Or.inl ⟨rfl, rfl⟩) _ _ _ _ (by omega) (by omega) rfl ?_)
    intro j hj
    rw [(init128 ctx.ks key).1 j hj]
    exact htonl_lt _
  · unfold AES_set_key_trace
    rw [if_neg (by decide), if_pos rfl]
    refine InBounds_append (InBounds_append (AES_hncpy32_trace_ok (by omega) (by omega))
      (AES_hncpy32_trace_ok (by omega) (by omega)))
      (setKeyLoop_trace_ok hs (Or.inr ⟨rfl, rfl⟩) _ _ _ _ (by omega) (by omega) rfl ?_)
    intro j hj
    rw [(init256 ctx.ks key).1 j hj]
    exact htonl_lt _

/-! ## Unsupported key-size selectors -/

theorem AES_set_key_other (g : Tables) (ctx : AES_CTX) (key : List Nat) {mode : Nat}
    (h1 : mode ≠ AES_MODE_128) (h2 : mode ≠ AES_MODE_256) : AES_set_key g ctx key mode = ctx := by
  unfold AES_set_key
  rw [if_neg h1, if_neg h2]

theorem tv_bytes2 : Bytes16 tv1_cipher := ⟨rfl, by decide⟩

/-! ## The claims -/

/-- Claim C1: for every 16-byte block `P` and every 16-byte key `K`, whatever the global
tables and the local context held before the call, the 16 bytes that `AES_Encrypt` leaves in
`data` are the output of the AES-128 cipher of FIPS-197 (`Fips197.Cipher`: state filled
column by column, standard key expansion, AddRoundKey, nine rounds SubBytes, ShiftRows,
MixColumns, AddRoundKey, and a tenth round without MixColumns). -/
theorem C1_encrypt_is_fips197 (g : Tables) (ctx : AES_CTX) (P K : List Nat)
    (h1 : g.aes_sbox.length = 256) (h2 : g.aes_isbox.length = 256)
    (hP : Bytes16 P) (hK : Bytes16 K) :
    (AES_Encrypt g ctx P K).2 = Cipher P K :=
  AES_Encrypt_fips g h1 h2 ctx hP.2 hK.2

/-- Claim C1 at the first test vector, from all-zero tables and an all-zero context. -/
theorem C1_encrypt_is_fips197_witness :
    Bytes16 tv1_plain ∧ Bytes16 tv1_key ∧
      (AES_Encrypt zeroTables zeroCtx tv1_plain tv1_key).2 = Cipher tv1_plain tv1_key :=
  ⟨tv_bytes.1, tv_bytes.2.1,
    C1_encrypt_is_fips197 zeroTables zeroCtx tv1_plain tv1_key zeroTables_len.1
      zeroTables_len.2 tv_bytes.1 tv_bytes.2.1⟩

/-- Claim C2: round trip.  For every 16-byte plaintext `P` and every 16-byte key `K`,
`AES_Decrypt` applied with `K` to the bytes produced by `AES_Encrypt` from `P` and `K` gives
`P` back, whatever the tables and the local contexts held before each of the two calls. -/
theorem C2_round_trip (g1 g2 : Tables) (c1 c2 : AES_CTX) (P K : List Nat)
    (a1 : g1.aes_sbox.length = 256) (a2 : g1.aes_isbox.length = 256)
    (b1 : g2.aes_sbox.length = 256) (b2 : g2.aes_isbox.length = 256)
    (hP : Bytes16 P) (_ : Bytes16 K) :
    (AES_Decrypt g2 c2 (AES_Encrypt g1 c1 P K).2 K).2 = P :=
  roundtrip g1 g2 c1 c2 P K a1 a2 b1 b2 hP

/-- Claim C2 at the first test vector; the second call starts from the tables left by the
first. -/
theorem C2_round_trip_witness :
    Bytes16 tv1_plain ∧ Bytes16 tv1_key ∧
      (AES_Decrypt (AES_Encrypt zeroTables zeroCtx tv1_plain tv1_key).1 zeroCtx
        (AES_Encrypt zeroTables zeroCtx tv1_plain tv1_key).2 tv1_key).2 = tv1_plain :=
  ⟨tv_bytes.1, tv_bytes.2.1,
    C2_round_trip zeroTables (AES_Encrypt zeroTables zeroCtx tv1_plain tv1_key).1 zeroCtx
      zeroCtx tv1_plain tv1_key zeroTables_len.1 zeroTables_len.2
      (by rw [AES_Encrypt_eq zeroTables zeroTables_len.1 zeroTables_len.2 zeroCtx tv1_plain
        tv1_key tv_bytes.1.2]; exact sboxTable_length)
      (by rw [AES_Encrypt_eq zeroTables zeroTables_len.1 zeroTables_len.2 zeroCtx tv1_plain
        tv1_key tv_bytes.1.2]; exact isboxTable_length)
      tv_bytes.1 tv_bytes.2.1⟩

/-- Claim C3: known answers of encryption.  From any prior tables and context,
`AES_Encrypt` with key `000102030405060708090a0b0c0d0e0f` and plaintext
`00112233445566778899aabbccddeeff` yields `69c4e0d86a7b0430d8cdb78070b4c55a`, and with the
all-zero key and the all-zero plaintext it yields `66e94bd4ef8a2c3b884cfa59ca342b2e`. -/
theorem C3_encrypt_known_answers (g : Tables) (ctx : AES_CTX)
    (h1 : g.aes_sbox.length = 256) (h2 : g.aes_isbox.length = 256) :
    (AES_Encrypt g ctx tv1_plain tv1_key).2 = tv1_cipher ∧
    (AES_Encrypt g ctx zero16 zero16).2 = tv2_cipher := by
  rw [AES_Encrypt_indep g zeroTables ctx zeroCtx tv1_plain tv1_key h1 h2 zeroTables_len.1
    zeroTables_len.2, AES_Encrypt_indep g zeroTables ctx zeroCtx zero16 zero16 h1 h2
    zeroTables_len.1 zeroTables_len.2]
  exact ⟨kat_enc1, kat_enc2⟩

/-- Claim C3 from the tables and the context of `sampleCtx` after a table generation. -/
theorem C3_encrypt_known_answers_witness :
    (AES_Encrypt genTables sampleCtx tv1_plain tv1_key).2 = tv1_cipher ∧
    (AES_Encrypt genTables sampleCtx zero16 zero16).2 = tv2_cipher :=
  C3_encrypt_known_answers genTables sampleCtx sboxTable_length isboxTable_length

/-- Claim C4: known answers of decryption.  From any prior tables and context,
`AES_Decrypt` with key `000102030405060708090a0b0c0d0e0f` and ciphertext
`69c4e0d86a7b0430d8cdb78070b4c55a` yields `00112233445566778899aabbccddeeff`, and with the
all-zero key and ciphertext `66e94bd4ef8a2c3b884cfa59ca342b2e` it yields the all-zero
block. -/
theorem C4_decrypt_known_answers (g : Tables) (ctx : AES_CTX)
    (h1 : g.aes_sbox.length = 256) (h2 : g.aes_isbox.length = 256) :
    (AES_Decrypt g ctx tv1_cipher tv1_key).2 = tv1_plain ∧
    (AES_Decrypt g ctx tv2_cipher zero16).2 = zero16 := by
  constructor
  · rw [← kat_enc1]
    exact roundtrip zeroTables g zeroCtx ctx tv1_plain tv1_key zeroTables_len.1
      zeroTables_len.2 h1 h2 tv_bytes.1
  · rw [← kat_enc2]
    exact roundtrip zeroTables g zeroCtx ctx zero16 zero16 zeroTables_len.1
      zeroTables_len.2 h1 h2 tv_bytes.2.2

/-- Claim C4 from all-zero tables and the context `sampleCtx`. -/
theorem C4_decrypt_known_answers_witness :
    (AES_Decrypt zeroTables sampleCtx tv1_cipher tv1_key).2 = tv1_plain ∧
    (AES_Decrypt zeroTables sampleCtx tv2_cipher zero16).2 = zero16 :=
  C4_decrypt_known_answers zeroTables sampleCtx zeroTables_len.1 zeroTables_len.2

/-- Claim C5: after `AES_generateSBox`, from any prior content of the two 256-entry tables,
`aes_isbox[aes_sbox[x]] = x` and `aes_sbox[aes_isbox[x]] = x` for every byte `x`, and
`aes_sbox` is a permutation of `0..255`. -/
theorem C5_tables_inverse (g : Tables) (h1 : g.aes_sbox.length = 256)
    (h2 : g.aes_isbox.length = 256) :
    (∀ x, x < 256 →
      (AES_generateSBox g).aes_isbox.getD ((AES_generateSBox g).aes_sbox.getD x 0) 0 = x ∧
      (AES_generateSBox g).aes_sbox.getD ((AES_generateSBox g).aes_isbox.getD x 0) 0 = x) ∧
    (AES_generateSBox g).aes_sbox.Perm (List.range 256) := by
  rw [AES_generateSBox_eq g h1 h2]
  exact ⟨fun x hx => ⟨(genTables_ok x hx).2.2, sbox_isbox x hx⟩, sbox_perm⟩

/-- Claim C5 from all-zero tables. -/
theorem C5_tables_inverse_witness :
    (∀ x, x < 256 →
      (AES_generateSBox zeroTables).aes_isbox.getD
        ((AES_generateSBox zeroTables).aes_sbox.getD x 0) 0 = x ∧
      (AES_generateSBox zeroTables).aes_sbox.getD
        ((AES_generateSBox zeroTables).aes_isbox.getD x 0) 0 = x) ∧
    (AES_generateSBox zeroTables).aes_sbox.Perm (List.range 256) :=
  C5_tables_inverse zeroTables zeroTables_len.1 zeroTables_len.2

/-- Claim C6: the forward table built by `AES_generateSBox` is the AES S-box by definition:
`aes_sbox[0] = 0x63`, and every non-zero byte `x` has a multiplicative inverse among the bytes
in GF(2^8) modulo `x^8+x^4+x^3+x+1`, and for the byte `y` with `gfMul x y = 1`,
`aes_sbox[x] = A(y) XOR 0x63`, with `A(b) = b XOR rotl(b,1) XOR rotl(b,2) XOR rotl(b,3) XOR
rotl(b,4)` on 8-bit values (`Fips197.affine`). -/
theorem C6_sbox_definition (g : Tables) (h1 : g.aes_sbox.length = 256)
    (h2 : g.aes_isbox.length = 256) :
    (AES_generateSBox g).aes_sbox.getD 0 0 = 0x63 ∧
    ∀ x, 0 < x → x < 256 →
      (∃ y, y < 256 ∧ gfMul x y = 1) ∧
      ∀ y, y < 256 → gfMul x y = 1 →
        (AES_generateSBox g).aes_sbox.getD x 0 = affine y ^^^ 0x63 := by
  rw [AES_generateSBox_eq g h1 h2]
  refine ⟨rfl, ?_⟩
  intro x h0 hx
  obtain ⟨p1, p2, p3⟩ := sbox_def x hx h0
  refine ⟨⟨gfInv x, p2, p1⟩, ?_⟩
  intro y hy h
  rw [inv_unique x hx h0 y hy h]
  exact p3

/-- Claim C6 from all-zero tables. -/
theorem C6_sbox_definition_witness :
    (AES_generateSBox zeroTables).aes_sbox.getD 0 0 = 0x63 ∧
    ∀ x, 0 < x → x < 256 →
      (∃ y, y < 256 ∧ gfMul x y = 1) ∧
      ∀ y, y < 256 → gfMul x y = 1 →
        (AES_generateSBox zeroTables).aes_sbox.getD x 0 = affine y ^^^ 0x63 :=
  C6_sbox_definition zeroTables zeroTables_len.1 zeroTables_len.2

/-- Claim C7: table generation is deterministic and idempotent.  For any two prior contents
of the two 256-entry tables `AES_generateSBox` leaves the same pair of tables, and running it
twice gives the same tables as running it once. -/
theorem C7_generation_idempotent (g1 g2 : Tables)
    (a1 : g1.aes_sbox.length = 256) (a2 : g1.aes_isbox.length = 256)
    (b1 : g2.aes_sbox.length = 256) (b2 : g2.aes_isbox.length = 256) :
    AES_generateSBox g1 = AES_generateSBox g2 ∧
    AES_generateSBox (AES_generateSBox g1) = AES_generateSBox g1 := by
  rw [AES_generateSBox_eq g1 a1 a2, AES_generateSBox_eq g2 b1 b2,
    AES_generateSBox_eq genTables sboxTable_length isboxTable_length]
  exact ⟨rfl, rfl⟩

/-- Claim C7 for all-zero tables and tables that hold `aes_sbox` in both places. -/
theorem C7_generation_idempotent_witness :
    AES_generateSBox zeroTables = AES_generateSBox ⟨sboxTable, sboxTable⟩ ∧
    AES_generateSBox (AES_generateSBox zeroTables) = AES_generateSBox zeroTables :=
  C7_generation_idempotent zeroTables ⟨sboxTable, sboxTable⟩ zeroTables_len.1 zeroTables_len.2
    sboxTable_length sboxTable_length

/-- Claim C8: key schedule recurrence.  With the generated S-box, after `AES_set_key` with
`words = 4` (mode 128, 10 rounds) or `words = 8` (mode 256, 14 rounds) on a key of `4*words`
bytes, `rounds` and `key_size` are set, `ks[j]` for `j < words` is the big-endian word of the
key bytes `4j..4j+3`, and for every `i` with `words <= i < 4*(rounds+1)`,
`ks[i] = ks[i-words] XOR tmp` where `tmp` (`keyTmp`) is `SubWord(RotWord(ks[i-1])) XOR
(Rcon[i/words - 1] << 24)` when `i mod words = 0`, `SubWord(ks[i-1])` when `words = 8` and
`i mod 8 = 4`, and `ks[i-1]` otherwise. -/
theorem C8_key_schedule_recurrence (g : Tables) (ctx : AES_CTX) (key : List Nat)
    (mode words rounds : Nat)
    (h1 : g.aes_sbox.length = 256) (h2 : g.aes_isbox.length = 256)
    (hm : (mode = AES_MODE_128 ∧ words = 4 ∧ rounds = 10) ∨
      (mode = AES_MODE_256 ∧ words = 8 ∧ rounds = 14))
    (hk : ∀ b ∈ key, b < 256) (_ : key.length = 4 * words) :
    (AES_set_key (AES_generateSBox g) ctx key mode).rounds = rounds ∧
    (AES_set_key (AES_generateSBox g) ctx key mode).key_size = words ∧
    (∀ j, j < words → (AES_set_key (AES_generateSBox g) ctx key mode).ks j = beWord key j) ∧
    ∀ i, words ≤ i → i < 4 * (rounds + 1) →
      (AES_set_key (AES_generateSBox g) ctx key mode).ks i =
        (AES_set_key (AES_generateSBox g) ctx key mode).ks (i - words) ^^^
          keyTmp (AES_generateSBox g).aes_sbox words i
            ((AES_set_key (AES_generateSBox g) ctx key mode).ks (i - 1)) := by
  rw [AES_generateSBox_eq g h1 h2]
  obtain ⟨s1, s2, s3, -, -, s6⟩ :=
    AES_set_key_spec genTables_sbox_lt ctx key mode words rounds hm
  refine ⟨s1, s2, ?_, s6⟩
  intro j hj
  rw [s3 j hj, htonl_load32 key j (getD_lt hk _) (getD_lt hk _) (getD_lt hk _) (getD_lt hk _)]

/-- Claim C8 for the key of the first test vector in mode 128. -/
theorem C8_key_schedule_recurrence_witness :
    (AES_set_key (AES_generateSBox zeroTables) zeroCtx tv1_key AES_MODE_128).rounds = 10 ∧
    (AES_set_key (AES_generateSBox zeroTables) zeroCtx tv1_key AES_MODE_128).key_size = 4 ∧
    (∀ j, j < 4 →
      (AES_set_key (AES_generateSBox zeroTables) zeroCtx tv1_key AES_MODE_128).ks j =
        beWord tv1_key j) ∧
    ∀ i, 4 ≤ i → i < 4 * (10 + 1) →
      (AES_set_key (AES_generateSBox zeroTables) zeroCtx tv1_key AES_MODE_128).ks i =
        (AES_set_key (AES_generateSBox zeroTables) zeroCtx tv1_key AES_MODE_128).ks (i - 4) ^^^
          keyTmp (AES_generateSBox zeroTables).aes_sbox 4 i
            ((AES_set_key (AES_generateSBox zeroTables) zeroCtx tv1_key AES_MODE_128).ks
              (i - 1)) :=
  C8_key_schedule_recurrence zeroTables zeroCtx tv1_key AES_MODE_128 4 10 zeroTables_len.1
    zeroTables_len.2 mode128 tv_bytes.2.1.2 rfl

/-- Claim C9: context shape.  For any tables, prior context and key, `AES_set_key` with mode
128 leaves `rounds = 10` and `key_size = 4`, keeps every `ks` word at index `>= 44`, and the
words it leaves at the indices `0..43` do not depend on the prior context (they are all
assigned); with mode 256 the same holds with `rounds = 14`, `key_size = 8` and the indices
`0..59`; and `AES_convert_key` changes neither `rounds` nor `key_size` (`AES_encrypt` and
`AES_decrypt` take the context read-only and return the data words only). -/
theorem C9_context_shape (g : Tables) (ctx : AES_CTX) (key : List Nat) :
    ((AES_set_key g ctx key AES_MODE_128).rounds = 10 ∧
      (AES_set_key g ctx key AES_MODE_128).key_size = 4 ∧
      (∀ j, 44 ≤ j → (AES_set_key g ctx key AES_MODE_128).ks j = ctx.ks j) ∧
      ∀ (ctx2 : AES_CTX) (j : Nat), j < 44 →
        (AES_set_key g ctx key AES_MODE_128).ks j =
          (AES_set_key g ctx2 key AES_MODE_128).ks j) ∧
    ((AES_set_key g ctx key AES_MODE_256).rounds = 14 ∧
      (AES_set_key g ctx key AES_MODE_256).key_size = 8 ∧
      (∀ j, 60 ≤ j → (AES_set_key g ctx key AES_MODE_256).ks j = ctx.ks j) ∧
      ∀ (ctx2 : AES_CTX) (j : Nat), j < 60 →
        (AES_set_key g ctx key AES_MODE_256).ks j =
          (AES_set_key g ctx2 key AES_MODE_256).ks j) ∧
    (AES_convert_key ctx).rounds = ctx.rounds ∧
    (AES_convert_key ctx).key_size = ctx.key_size :=
  ⟨⟨rfl, rfl, setKey128_frame g ctx key, fun ctx2 => setKey128_assigned g ctx ctx2 key⟩,
    ⟨rfl, rfl, setKey256_frame g ctx key, fun ctx2 => setKey256_assigned g ctx ctx2 key⟩,
    rfl, rfl⟩

/-- Claim C10: key schedule inverter.  For a context with 10 or 14 rounds whose round-key
words `ks[4 .. 4*rounds-1]` are 32-bit values, `AES_convert_key` leaves `ks[0..3]` and every
word from index `4*rounds` on unmodified, and replaces every `ks[i]` with
`4 <= i < 4*rounds`, of bytes `(b0,b1,b2,b3)` from most to least significant, by the word of
bytes `(14*b0^11*b1^13*b2^9*b3, 9*b0^14*b1^11*b2^13*b3, 13*b0^9*b1^14*b2^11*b3,
11*b0^13*b1^9*b2^14*b3)`, products in GF(2^8) modulo `x^8+x^4+x^3+x+1`. -/
theorem C10_convert_key (ctx : AES_CTX) (hR : ctx.rounds = 10 ∨ ctx.rounds = 14)
    (hw : ∀ i, 4 ≤ i → i < 4 * ctx.rounds → ctx.ks i < 2 ^ 32) :
    (∀ i, i < 4 → (AES_convert_key ctx).ks i = ctx.ks i) ∧
    (∀ i, 4 * ctx.rounds ≤ i → (AES_convert_key ctx).ks i = ctx.ks i) ∧
    ∀ i, 4 ≤ i → i < 4 * ctx.rounds →
      (AES_convert_key ctx).ks i =
        W (gfMul 14 (B0 (ctx.ks i)) ^^^ gfMul 11 (B1 (ctx.ks i)) ^^^
            gfMul 13 (B2 (ctx.ks i)) ^^^ gfMul 9 (B3 (ctx.ks i)))
          (gfMul 9 (B0 (ctx.ks i)) ^^^ gfMul 14 (B1 (ctx.ks i)) ^^^
            gfMul 11 (B2 (ctx.ks i)) ^^^ gfMul 13 (B3 (ctx.ks i)))
          (gfMul 13 (B0 (ctx.ks i)) ^^^ gfMul 9 (B1 (ctx.ks i)) ^^^
            gfMul 14 (B2 (ctx.ks i)) ^^^ gfMul 11 (B3 (ctx.ks i)))
          (gfMul 11 (B0 (ctx.ks i)) ^^^ gfMul 13 (B1 (ctx.ks i)) ^^^
            gfMul 9 (B2 (ctx.ks i)) ^^^ gfMul 14 (B3 (ctx.ks i))) := by
  have hr : 1 ≤ ctx.rounds := by omega
  refine ⟨?_, ?_, ?_⟩
  · intro i hi
    rw [AES_convert_key_ks, if_neg (by omega)]
  · intro i hi
    rw [AES_convert_key_ks, if_neg (by omega)]
  · intro i h4 hi
    obtain ⟨-, -, -, p9, p11, p13, p14⟩ := gfMul_consts _ (B0_lt (ctx.ks i))
    obtain ⟨-, -, -, q9, q11, q13, q14⟩ := gfMul_consts _ (B1_lt (ctx.ks i))
    obtain ⟨-, -, -, r9, r11, r13, r14⟩ := gfMul_consts _ (B2_lt (ctx.ks i))
    obtain ⟨-, -, -, s9, s11, s13, s14⟩ := gfMul_consts _ (B3_lt (ctx.ks i))
    rw [AES_convert_key_ks, if_pos (by omega), inv_mix_col_eq (hw i h4 hi), p9, p11, p13, p14,
      q9, q11, q13, q14, r9, r11, r13, r14, s9, s11, s13, s14]
    unfold imixW imc0
    congr 1 <;> ac_rfl

/-- Claim C10 for the context `sampleCtx`, whose word `i` holds `i`. -/
theorem C10_convert_key_witness :
    (∀ i, i < 4 → (AES_convert_key sampleCtx).ks i = sampleCtx.ks i) ∧
    (∀ i, 4 * sampleCtx.rounds ≤ i → (AES_convert_key sampleCtx).ks i = sampleCtx.ks i) ∧
    ∀ i, 4 ≤ i → i < 4 * sampleCtx.rounds →
      (AES_convert_key sampleCtx).ks i =
        W (gfMul 14 (B0 (sampleCtx.ks i)) ^^^ gfMul 11 (B1 (sampleCtx.ks i)) ^^^
            gfMul 13 (B2 (sampleCtx.ks i)) ^^^ gfMul 9 (B3 (sampleCtx.ks i)))
          (gfMul 9 (B0 (sampleCtx.ks i)) ^^^ gfMul 14 (B1 (sampleCtx.ks i)) ^^^
            gfMul 11 (B2 (sampleCtx.ks i)) ^^^ gfMul 13 (B3 (sampleCtx.ks i)))
          (gfMul 13 (B0 (sampleCtx.ks i)) ^^^ gfMul 9 (B1 (sampleCtx.ks i)) ^^^
            gfMul 14 (B2 (sampleCtx.ks i)) ^^^ gfMul 11 (B3 (sampleCtx.ks i)))
          (gfMul 11 (B0 (sampleCtx.ks i)) ^^^ gfMul 13 (B1 (sampleCtx.ks i)) ^^^
            gfMul 9 (B2 (sampleCtx.ks i)) ^^^ gfMul 14 (B3 (sampleCtx.ks i))) :=
  C10_convert_key sampleCtx (Or.inl rfl)
    (fun i _ h => by
      have e : sampleCtx.ks i = i := rfl
      have r : sampleCtx.rounds = 10 := rfl
      rw [e]
      rw [r] at h
      omega)

/-- Claim C11: the key schedule inverter is not an involution on real schedules.  For every
16-byte key `K`, whatever the tables and the context held before, two applications of
`AES_convert_key` to the schedule that `AES_set_key` builds in mode 128 with the generated
S-box leave a round-key array that differs from that schedule: one of the words 4 to 8 of
`ks` is changed. -/
theorem C11_convert_twice_differs (g : Tables) (ctx : AES_CTX) (K : List Nat)
    (h1 : g.aes_sbox.length = 256) (h2 : g.aes_isbox.length = 256) (_ : Bytes16 K) :
    ∃ i, 4 ≤ i ∧ i ≤ 8 ∧
      (AES_convert_key (AES_convert_key
        (AES_set_key (AES_generateSBox g) ctx K AES_MODE_128))).ks i ≠
        (AES_set_key (AES_generateSBox g) ctx K AES_MODE_128).ks i := by
  rw [AES_generateSBox_eq g h1 h2]
  exact convert_twice_differs genTables_sbox_lt ctx K

/-- Claim C11 for the key of the first test vector, from all-zero tables and context. -/
theorem C11_convert_twice_differs_witness :
    Bytes16 tv1_key ∧ ∃ i, 4 ≤ i ∧ i ≤ 8 ∧
      (AES_convert_key (AES_convert_key
        (AES_set_key (AES_generateSBox zeroTables) zeroCtx tv1_key AES_MODE_128))).ks i ≠
        (AES_set_key (AES_generateSBox zeroTables) zeroCtx tv1_key AES_MODE_128).ks i :=
  ⟨tv_bytes.2.1, C11_convert_twice_differs zeroTables zeroCtx tv1_key zeroTables_len.1
    zeroTables_len.2 tv_bytes.2.1⟩

/-- Claim C12 as stated fails: with the selector 2, which is neither `AES_MODE_128` nor
`AES_MODE_256`, the call of `AES_set_key` does not end in an `InvalidKeySize` error. -/
theorem C12_counterexample :
    2 ≠ AES_MODE_128 ∧ 2 ≠ AES_MODE_256 ∧
      AES_set_key_call genTables sampleCtx tv1_key 2 ≠ Except.error AesError.InvalidKeySize :=
  ⟨by decide, by decide, fun h => Except.noConfusion h⟩

/-- Claim C12, amended: a call of `AES_set_key` with a key-size selector that is neither
`AES_MODE_128` nor `AES_MODE_256` surfaces no error to the caller (the code fails silently):
the call returns normally, and what it returns is the context as it was. -/
theorem C12_bad_mode_is_silent (g : Tables) (ctx : AES_CTX) (key : List Nat) (mode : Nat)
    (h1 : mode ≠ AES_MODE_128) (h2 : mode ≠ AES_MODE_256) :
    (∀ e, AES_set_key_call g ctx key mode ≠ Except.error e) ∧
    AES_set_key_call g ctx key mode = Except.ok ctx :=
  ⟨fun _ h => Except.noConfusion h,
    congrArg Except.ok (AES_set_key_other g ctx key h1 h2)⟩

/-- Claim C12, amended, for the selector 2. -/
theorem C12_bad_mode_is_silent_witness :
    (∀ e, AES_set_key_call genTables sampleCtx tv1_key 2 ≠ Except.error e) ∧
    AES_set_key_call genTables sampleCtx tv1_key 2 = Except.ok sampleCtx :=
  C12_bad_mode_is_silent genTables sampleCtx tv1_key 2 (by decide) (by decide)

/-- Claim C13: index safety.  For mode 128 (`words = 4`, `rounds = 10`) or mode 256
(`words = 8`, `rounds = 14`), with the generated S-box and any prior context, key and data
words, every array access of `AES_set_key`, of `AES_convert_key` on the resulting context, of
`AES_encrypt` with it and of `AES_decrypt` with the converted context is in bounds
(`InBounds`, `limit`): each `ks` index read or written is below `4*(rounds+1)`, which is at
most 60 and so inside the `(AES_MAXROUNDS+1)*8 = 120` words of `ks`; each `Rcon` index is
below 10 (mode 128) or 7 (mode 256), hence below the 12 entries of `Rcon`; each index into
`aes_sbox` or `aes_isbox` is below 256; each word index into the key is below `words` and
each index into `data` or `tmp` below 4.  `AES_encrypt` reads `ks[0]`, ...,
`ks[4*(rounds+1)-1]` in ascending order, and `AES_decrypt` reads the same range in descending
order, ending at `ks[0]`. -/
theorem C13_index_safety (g : Tables) (ctx : AES_CTX) (key data : List Nat)
    (mode words rounds : Nat)
    (h1 : g.aes_sbox.length = 256) (h2 : g.aes_isbox.length = 256)
    (hm : (mode = AES_MODE_128 ∧ words = 4 ∧ rounds = 10) ∨
      (mode = AES_MODE_256 ∧ words = 8 ∧ rounds = 14)) :
    InBounds words rounds (AES_set_key_trace (AES_generateSBox g) ctx key mode) ∧
    InBounds words rounds
      (AES_convert_key_trace (AES_set_key (AES_generateSBox g) ctx key mode)) ∧
    InBounds words rounds (AES_encrypt_trace (AES_generateSBox g)
      (AES_set_key (AES_generateSBox g) ctx key mode) data) ∧
    InBounds words rounds (AES_decrypt_trace (AES_generateSBox g)
      (AES_convert_key (AES_set_key (AES_generateSBox g) ctx key mode)) data) ∧
    readsOf Arr.ks (AES_encrypt_trace (AES_generateSBox g)
      (AES_set_key (AES_generateSBox g) ctx key mode) data) =
      List.range (4 * (rounds + 1)) ∧
    readsOf Arr.ks (AES_decrypt_trace (AES_generateSBox g)
      (AES_convert_key (AES_set_key (AES_generateSBox g) ctx key mode)) data) =
      (List.range (4 * (rounds + 1))).reverse ∧
    limit words rounds Arr.ks ≤ 60 ∧ 60 ≤ (AES_MAXROUNDS + 1) * 8 ∧
    limit words rounds Arr.Rcon ≤ 10 ∧ 10 ≤ Rcon.length := by
  rw [AES_generateSBox_eq g h1 h2]
  have hr : (AES_set_key genTables ctx key mode).rounds = rounds :=
    (AES_set_key_spec genTables_sbox_lt ctx key mode words rounds hm).1
  have hr2 : (AES_convert_key (AES_set_key genTables ctx key mode)).rounds = rounds := hr
  have q1 := AES_convert_key_trace_ok words (AES_set_key genTables ctx key mode)
  have q2 := AES_encrypt_trace_ok words genTables (AES_set_key genTables ctx key mode) data
  have q3 := AES_decrypt_trace_ok words genTables
    (AES_convert_key (AES_set_key genTables ctx key mode)) data
  have q4 := AES_encrypt_trace_reads genTables (AES_set_key genTables ctx key mode) data
  have q5 := AES_decrypt_trace_reads genTables
    (AES_convert_key (AES_set_key genTables ctx key mode)) data
  rw [hr] at q1 q2 q4
  rw [hr2] at q3 q5
  refine ⟨AES_set_key_trace_ok genTables_sbox_lt ctx key mode words rounds hm, q1, q2, q3, q4,
    q5, ?_, by decide, ?_, by decide⟩
  · show 4 * (rounds + 1) ≤ 60
    rcases hm with ⟨-, -, rfl⟩ | ⟨-, -, rfl⟩ <;> omega
  · show (if words = 4 then 10 else 7) ≤ 10
    split <;> omega

/-- Claim C13 for mode 256 with the key of the AES-256 example and the data words of its
block, from all-zero tables and context. -/
theorem C13_index_safety_witness :
    InBounds 8 14 (AES_set_key_trace (AES_generateSBox zeroTables) zeroCtx tv3_key
      AES_MODE_256) ∧
    InBounds 8 14 (AES_convert_key_trace
      (AES_set_key (AES_generateSBox zeroTables) zeroCtx tv3_key AES_MODE_256)) ∧
    InBounds 8 14 (AES_encrypt_trace (AES_generateSBox zeroTables)
      (AES_set_key (AES_generateSBox zeroTables) zeroCtx tv3_key AES_MODE_256) tv3_plain) ∧
    InBounds 8 14 (AES_decrypt_trace (AES_generateSBox zeroTables)
      (AES_convert_key (AES_set_key (AES_generateSBox zeroTables) zeroCtx tv3_key
        AES_MODE_256)) tv3_plain) ∧
    readsOf Arr.ks (AES_encrypt_trace (AES_generateSBox zeroTables)
      (AES_set_key (AES_generateSBox zeroTables) zeroCtx tv3_key AES_MODE_256) tv3_plain) =
      List.range (4 * (14 + 1)) ∧
    readsOf Arr.ks (AES_decrypt_trace (AES_generateSBox zeroTables)
      (AES_convert_key (AES_set_key (AES_generateSBox zeroTables) zeroCtx tv3_key
        AES_MODE_256)) tv3_plain) =
      (List.range (4 * (14 + 1))).reverse ∧
    limit 8 14 Arr.ks ≤ 60 ∧ 60 ≤ (AES_MAXROUNDS + 1) * 8 ∧
    limit 8 14 Arr.Rcon ≤ 10 ∧ 10 ≤ Rcon.length :=
  C13_index_safety zeroTables zeroCtx tv3_key tv3_plain AES_MODE_256 8 14 zeroTables_len.1
    zeroTables_len.2 mode256

/-- Claim C14: generator ordering in `AES_generateSBox`.  The values `t[0]`, ..., `t[254]`
that the first loop produces from `x = 1` by `x := x XOR (x<<1) XOR ((x>>7)*0x11B)` lie in
`1..255` and are a permutation of `1..255` (every non-zero byte exactly once);
`t[255] = t[0] = 1`; for every `i` in `0..254` the GF(2^8) product of `t[i]` and `t[255-i]`
is 1; and the second loop is the sequence of assignments `sboxWrites` whose indices are
`t[0]`, ..., `t[254]`, so it assigns each non-zero S-box entry exactly once. -/
theorem C14_generator_order :
    (∀ x ∈ (genT 256 1).take 255, 1 ≤ x ∧ x ≤ 255) ∧
    ((genT 256 1).take 255).Perm (List.range' 1 255) ∧
    (genT 256 1).getD 255 0 = 1 ∧ (genT 256 1).getD 0 0 = 1 ∧
    (∀ i, i < 255 → gfMul ((genT 256 1).getD i 0) ((genT 256 1).getD (255 - i) 0) = 1) ∧
    (∀ s, sboxLoop (genT 256 1) 255 0 s = setMany s (sboxWrites (genT 256 1) 255 0)) ∧
    (sboxWrites (genT 256 1) 255 0).map Prod.fst = (genT 256 1).take 255 :=
  ⟨genT_range, genT_perm, genT_ends.1, genT_ends.2, genT_inverse,
    sboxLoop_eq (genT 256 1) 255 0, sboxWrites_index⟩

/-- Claim C15: the two GF(2^8) doubling implementations agree.  For every 32-bit word `w`
each of the four byte lanes of `mul2(w)` is `AES_xtime` of the same lane of `w`, and for
every byte `x`, `AES_xtime(x)` is the product `2*x` in GF(2^8) modulo `x^8+x^4+x^3+x+1`, a
value below 256. -/
theorem C15_doubling_agree (w x : Nat) (hw : w < 2 ^ 32) (hx : x < 256) :
    (B0 (mul2 w) = AES_xtime (B0 w) ∧ B1 (mul2 w) = AES_xtime (B1 w) ∧
      B2 (mul2 w) = AES_xtime (B2 w) ∧ B3 (mul2 w) = AES_xtime (B3 w)) ∧
    AES_xtime x = gfMul 2 x ∧ AES_xtime x < 256 :=
  ⟨mul2_lanes hw, (gfMul_consts x hx).2.1.symm, AES_xtime_lt x⟩

/-- Claim C15 for the word `0x80fe1b01` and the byte `0x80`. -/
theorem C15_doubling_agree_witness :
    (B0 (mul2 0x80fe1b01) = AES_xtime (B0 0x80fe1b01) ∧
      B1 (mul2 0x80fe1b01) = AES_xtime (B1 0x80fe1b01) ∧
      B2 (mul2 0x80fe1b01) = AES_xtime (B2 0x80fe1b01) ∧
      B3 (mul2 0x80fe1b01) = AES_xtime (B3 0x80fe1b01)) ∧
    AES_xtime 0x80 = gfMul 2 0x80 ∧ AES_xtime 0x80 < 256 :=
  C15_doubling_agree 0x80fe1b01 0x80 (by decide) (by decide)

/-- Claim C16: the two inverse column-mix implementations agree.  For all bytes `a0`, `a1`,
`a2`, `a3` the word `(xt0<<24 | xt1<<16 | xt2<<8 | xt3)` that the inline inverse MixColumn of
`AES_decrypt` computes from them (`decMixColumn`, the statements of `decRow` in a round with
`curr_rnd < rounds - 1`) equals `inv_mix_col` applied to `(a0<<24 | a1<<16 | a2<<8 | a3)`,
the macro used by `AES_convert_key`. -/
theorem C16_inverse_mix_agree (a0 a1 a2 a3 : Nat) (h0 : a0 < 256) (h1 : a1 < 256)
    (h2 : a2 < 256) (h3 : a3 < 256) :
    packList (decMixColumn a0 a1 a2 a3) = inv_mix_col (pack a0 a1 a2 a3) ∧
    ∀ (g : Tables) (rounds r : Nat) (d : List Nat) (row : Nat), r < rounds - 1 →
      decRow g rounds r d row =
        packList (decMixColumn
          (g.aes_isbox.getD ((d.getD ((row + 3) % 4) 0 >>> 24) &&& 0xFF) 0)
          (g.aes_isbox.getD ((d.getD ((row + 2) % 4) 0 >>> 16) &&& 0xFF) 0)
          (g.aes_isbox.getD ((d.getD ((row + 1) % 4) 0 >>> 8) &&& 0xFF) 0)
          (g.aes_isbox.getD (d.getD (row % 4) 0 &&& 0xFF) 0)) :=
  ⟨decMixColumn_word h0 h1 h2 h3, decRow_mix⟩

/-- Claim C16 for the bytes `0xdb, 0x13, 0x53, 0x45`. -/
theorem C16_inverse_mix_agree_witness :
    packList (decMixColumn 0xdb 0x13 0x53 0x45) = inv_mix_col (pack 0xdb 0x13 0x53 0x45) ∧
    ∀ (g : Tables) (rounds r : Nat) (d : List Nat) (row : Nat), r < rounds - 1 →
      decRow g rounds r d row =
        packList (decMixColumn
          (g.aes_isbox.getD ((d.getD ((row + 3) % 4) 0 >>> 24) &&& 0xFF) 0)
          (g.aes_isbox.getD ((d.getD ((row + 2) % 4) 0 >>> 16) &&& 0xFF) 0)
          (g.aes_isbox.getD ((d.getD ((row + 1) % 4) 0 >>> 8) &&& 0xFF) 0)
          (g.aes_isbox.getD (d.getD (row % 4) 0 &&& 0xFF) 0)) :=
  C16_inverse_mix_agree 0xdb 0x13 0x53 0x45 (by decide) (by decide) (by decide) (by decide)

/-- Claim C17: inverse column mixing undoes column mixing.  For all bytes `a0..a3`, the
MixColumn statements of `AES_encrypt` (`encMixColumn`: `a_i := a_i XOR tmp1 XOR
xtime(a_i XOR a_{i+1})`, the statements of `encRow` in a round with `curr_rnd < rounds - 1`)
followed by the inverse MixColumn statements of `AES_decrypt` on the resulting four bytes
give `(a0, a1, a2, a3)` back; and `inv_mix_col` is XOR-linear on 32-bit words. -/
theorem C17_mix_inverse_and_linear (a0 a1 a2 a3 u v : Nat) (_ : a0 < 256) (_ : a1 < 256)
    (_ : a2 < 256) (_ : a3 < 256) (hu : u < 2 ^ 32) (hv : v < 2 ^ 32) :
    decMixColumn ((encMixColumn a0 a1 a2 a3).getD 0 0) ((encMixColumn a0 a1 a2 a3).getD 1 0)
      ((encMixColumn a0 a1 a2 a3).getD 2 0) ((encMixColumn a0 a1 a2 a3).getD 3 0) =
      [a0, a1, a2, a3] ∧
    inv_mix_col (u ^^^ v) = inv_mix_col u ^^^ inv_mix_col v ∧
    ∀ (g : Tables) (rounds r : Nat) (d : List Nat) (row : Nat), r < rounds - 1 →
      encRow g rounds r d row =
        packList (encMixColumn
          (g.aes_sbox.getD ((d.getD (row % 4) 0 >>> 24) &&& 0xFF) 0)
          (g.aes_sbox.getD ((d.getD ((row + 1) % 4) 0 >>> 16) &&& 0xFF) 0)
          (g.aes_sbox.getD ((d.getD ((row + 2) % 4) 0 >>> 8) &&& 0xFF) 0)
          (g.aes_sbox.getD (d.getD ((row + 3) % 4) 0 &&& 0xFF) 0)) :=
  ⟨decMixColumn_encMixColumn a0 a1 a2 a3, inv_mix_col_xor hu hv, encRow_mix⟩

/-- Claim C17 for the bytes `0xdb, 0x13, 0x53, 0x45` and the words `0x01020304`,
`0xfffefdfc`. -/
theorem C17_mix_inverse_and_linear_witness :
    decMixColumn ((encMixColumn 0xdb 0x13 0x53 0x45).getD 0 0)
      ((encMixColumn 0xdb 0x13 0x53 0x45).getD 1 0)
      ((encMixColumn 0xdb 0x13 0x53 0x45).getD 2 0)
      ((encMixColumn 0xdb 0x13 0x53 0x45).getD 3 0) = [0xdb, 0x13, 0x53, 0x45] ∧
    inv_mix_col (0x01020304 ^^^ 0xfffefdfc) =
      inv_mix_col 0x01020304 ^^^ inv_mix_col 0xfffefdfc ∧
    ∀ (g : Tables) (rounds r : Nat) (d : List Nat) (row : Nat), r < rounds - 1 →
      encRow g rounds r d row =
        packList (encMixColumn
          (g.aes_sbox.getD ((d.getD (row % 4) 0 >>> 24) &&& 0xFF) 0)
          (g.aes_sbox.getD ((d.getD ((row + 1) % 4) 0 >>> 16) &&& 0xFF) 0)
          (g.aes_sbox.getD ((d.getD ((row + 2) % 4) 0 >>> 8) &&& 0xFF) 0)
          (g.aes_sbox.getD (d.getD ((row + 3) % 4) 0 &&& 0xFF) 0)) :=
  C17_mix_inverse_and_linear 0xdb 0x13 0x53 0x45 0x01020304 0xfffefdfc (by decide) (by decide)
    (by decide) (by decide) (by decide) (by decide)

/-- Claim C18: reverse round trip.  For every 16-byte block `C` and every 16-byte key `K`,
whatever the tables and the local contexts held before each call,
`AES_Encrypt(AES_Decrypt(C, K), K) = C`; together with the forward round trip
`AES_Decrypt(AES_Encrypt(C, K), K) = C` and the fact that both functions leave 16 bytes, this
makes `AES_Encrypt` and `AES_Decrypt` with the key `K` mutually inverse bijections on 16-byte
blocks. -/
theorem C18_reverse_round_trip (g1 g2 : Tables) (c1 c2 : AES_CTX) (C K : List Nat)
    (a1 : g1.aes_sbox.length = 256) (a2 : g1.aes_isbox.length = 256)
    (b1 : g2.aes_sbox.length = 256) (b2 : g2.aes_isbox.length = 256)
    (hC : Bytes16 C) (_ : Bytes16 K) :
    (AES_Encrypt g1 c1 (AES_Decrypt g2 c2 C K).2 K).2 = C ∧
    (AES_Decrypt g1 c1 (AES_Encrypt g2 c2 C K).2 K).2 = C ∧
    Bytes16 (AES_Encrypt g2 c2 C K).2 ∧ Bytes16 (AES_Decrypt g2 c2 C K).2 := by
  refine ⟨roundtrip_rev g1 g2 c1 c2 C K a1 a2 b1 b2 hC,
    roundtrip g2 g1 c2 c1 C K b1 b2 a1 a2 hC, ?_, ?_⟩
  · rw [AES_Encrypt_eq g2 b1 b2 c2 C K hC.2]
    exact bytesOfWords_bytes _
  · rw [AES_Decrypt_eq g2 b1 b2 c2 C K hC.2]
    exact bytesOfWords_bytes _

/-- Claim C18 for the ciphertext and the key of the first test vector, from all-zero tables
and contexts. -/
theorem C18_reverse_round_trip_witness :
    (AES_Encrypt zeroTables zeroCtx (AES_Decrypt zeroTables zeroCtx tv1_cipher tv1_key).2
      tv1_key).2 = tv1_cipher ∧
    (AES_Decrypt zeroTables zeroCtx (AES_Encrypt zeroTables zeroCtx tv1_cipher tv1_key).2
      tv1_key).2 = tv1_cipher ∧
    Bytes16 (AES_Encrypt zeroTables zeroCtx tv1_cipher tv1_key).2 ∧
    Bytes16 (AES_Decrypt zeroTables zeroCtx tv1_cipher tv1_key).2 :=
  C18_reverse_round_trip zeroTables zeroTables zeroCtx zeroCtx tv1_cipher tv1_key
    zeroTables_len.1 zeroTables_len.2 zeroTables_len.1 zeroTables_len.2 tv_bytes2
    tv_bytes.2.1

/-- Claim C19: the internal 256-bit path implements AES-256 on the example of FIPS-197,
appendix C.3.  With the generated S-box and any prior context, `AES_set_key` with
`AES_MODE_256` on the key `000102...1e1f` followed by `AES_encrypt` on the big-endian words
of `00112233445566778899aabbccddeeff` yields the words of
`8ea2b7ca516745bfeafc49904b496089`, and `AES_convert_key` followed by `AES_decrypt` on these
words returns the words of the original block. -/
theorem C19_aes256_example (g : Tables) (ctx : AES_CTX)
    (h1 : g.aes_sbox.length = 256) (h2 : g.aes_isbox.length = 256) :
    AES_encrypt (AES_generateSBox g)
      (AES_set_key (AES_generateSBox g) ctx tv3_key AES_MODE_256) tv3_plain = tv3_cipher ∧
    AES_decrypt (AES_generateSBox g)
      (AES_convert_key (AES_set_key (AES_generateSBox g) ctx tv3_key AES_MODE_256))
      (AES_encrypt (AES_generateSBox g)
        (AES_set_key (AES_generateSBox g) ctx tv3_key AES_MODE_256) tv3_plain) = tv3_plain := by
  rw [AES_generateSBox_eq g h1 h2, (kat256 ctx).1]
  exact ⟨rfl, (kat256 ctx).2⟩

/-- Claim C19 from all-zero tables and the context `sampleCtx`. -/
theorem C19_aes256_example_witness :
    AES_encrypt (AES_generateSBox zeroTables)
      (AES_set_key (AES_generateSBox zeroTables) sampleCtx tv3_key AES_MODE_256) tv3_plain =
      tv3_cipher ∧
    AES_decrypt (AES_generateSBox zeroTables)
      (AES_convert_key (AES_set_key (AES_generateSBox zeroTables) sampleCtx tv3_key
        AES_MODE_256))
      (AES_encrypt (AES_generateSBox zeroTables)
        (AES_set_key (AES_generateSBox zeroTables) sampleCtx tv3_key AES_MODE_256)
        tv3_plain) = tv3_plain :=
  C19_aes256_example zeroTables sampleCtx zeroTables_len.1 zeroTables_len.2

/-- Claim C20: an unsupported selector leaves the context untouched.  For every mode value
other than `AES_MODE_128` and `AES_MODE_256`, every context, every key and any tables,
`AES_set_key` returns without error, and `rounds`, `key_size` and every word of `ks` hold the
values they held before the call. -/
theorem C20_bad_mode_untouched (g : Tables) (ctx : AES_CTX) (key : List Nat) (mode : Nat)
    (h1 : mode ≠ AES_MODE_128) (h2 : mode ≠ AES_MODE_256) :
    AES_set_key_call g ctx key mode = Except.ok (AES_set_key g ctx key mode) ∧
    (AES_set_key g ctx key mode).rounds = ctx.rounds ∧
    (AES_set_key g ctx key mode).key_size = ctx.key_size ∧
    ∀ i, (AES_set_key g ctx key mode).ks i = ctx.ks i := by
  have e := AES_set_key_other g ctx key h1 h2
  exact ⟨rfl, congrArg AES_CTX.rounds e, congrArg AES_CTX.key_size e,
    fun i => congrFun (congrArg AES_CTX.ks e) i⟩

/-- Claim C20 for the selector 7 and the context `sampleCtx`. -/
theorem C20_bad_mode_untouched_witness :
    AES_set_key_call genTables sampleCtx tv1_key 7 =
      Except.ok (AES_set_key genTables sampleCtx tv1_key 7) ∧
    (AES_set_key genTables sampleCtx tv1_key 7).rounds = sampleCtx.rounds ∧
    (AES_set_key genTables sampleCtx tv1_key 7).key_size = sampleCtx.key_size ∧
    ∀ i, (AES_set_key genTables sampleCtx tv1_key 7).ks i = sampleCtx.ks i :=
  C20_bad_mode_untouched genTables sampleCtx tv1_key 7 (by decide) (by decide)

end AesC
